import Mathlib

/-!
# Streaming chat relay of the career-coaching backend

A shallow embedding of `src/controllers/chatController.js` (with the turn
schema of `src/models/Chat.js`): the connection registry, the reaper sweep,
the `addMessageToChat` handler with every one of its suspension points, the
context assembler that builds the prompt, the parsing of the provider's
frames, the Stop endpoint and `updateChatWithMessage`.

Handlers are JavaScript `async` functions.  Each one is embedded as a thread
with a program counter that names the `await` it is suspended at; a step of
the system runs one thread from one `await` to the next, exactly as the event
loop does.  What the awaited operation answered (the document store, the
memory search, the completion provider, a timer) is supplied by the
environment as part of the step.
-/

namespace CareerGpt

/-! ## JavaScript strings -/

/-- A JavaScript string: its sequence of UTF-16 code units. -/
abbrev JSStr := List Nat

/-- The UTF-16 code units of one Unicode scalar value. -/
def charUnits (c : Char) : List Nat :=
  if c.toNat < 65536 then [c.toNat]
  else [55296 + (c.toNat - 65536) / 1024, 56320 + (c.toNat - 65536) % 1024]

/-- The JavaScript string written by a literal. -/
def u16 (s : String) : JSStr := s.toList.flatMap charUnits

/-- ECMAScript `WhiteSpace` and `LineTerminator` code units, the set removed
by `String.prototype.trim`. -/
def isTrimUnit (c : Nat) : Bool :=
  c = 9 || c = 10 || c = 11 || c = 12 || c = 13 || c = 32 || c = 160 ||
  c = 5760 || (8192 ≤ c && c ≤ 8202) || c = 8232 || c = 8233 || c = 8239 ||
  c = 8287 || c = 12288 || c = 65279

/-- The method `s.trim()`. -/
def trim (s : JSStr) : JSStr :=
  ((s.dropWhile isTrimUnit).reverse.dropWhile isTrimUnit).reverse

/-- JavaScript truthiness of a string: it is not empty. -/
def truthy (s : JSStr) : Bool := !s.isEmpty

/-- One pass of `s.split('\n')`: `cur` is the piece being read. -/
def splitLinesAux : JSStr → JSStr → List JSStr
  | [], cur => [cur]
  | c :: cs, cur => if c = 10 then cur :: splitLinesAux cs [] else splitLinesAux cs (cur ++ [c])

/-- The call `s.split('\n')`. -/
def splitLines (s : JSStr) : List JSStr := splitLinesAux s []

/-- The method `s.startsWith(p)`. -/
def startsWith (s p : JSStr) : Bool := p.isPrefixOf s

/-- The decimal digits of a natural number, as a string. -/
def decimal (n : Nat) : JSStr := (Nat.toDigits 10 n).map Char.toNat

/-! ## JavaScript numbers -/

/-- A Number value that `JSON.parse` can produce.  A finite non-zero value is
`significand × 2 ^ exponent` in the one form that IEEE 754 binary64 gives it:
`2 ^ 52 ≤ significand < 2 ^ 53` with `-1074 ≤ exponent ≤ 971`, or a smaller
significand with the exponent -1074. -/
inductive JSNumber where
  | zero (negative : Bool)
  | finite (negative : Bool) (significand : Nat) (exponent : Int)
  | infinity (negative : Bool)
deriving DecidableEq, Repr

/-- The quotient `num / den` rounded to the nearest integer, a tie going to the
even one. -/
def roundHalfEven (num den : Nat) : Nat :=
  if 2 * (num % den) > den ∨ (2 * (num % den) = den ∧ (num / den) % 2 = 1) then num / den + 1
  else num / den

/-- The number of binary digits of a positive integer. -/
def bitCount (n : Nat) : Nat := (Nat.toDigits 2 n).length

/-- The integer `e` with `2 ^ e ≤ num / den < 2 ^ (e + 1)`, for positive `num`
and `den`. -/
def floorLog2 (num den : Nat) : Int :=
  let k : Int := (bitCount num : Int) - (bitCount den : Int)
  if k ≥ 0 then (if num ≥ den * 2 ^ k.toNat then k else k - 1)
  else (if num * 2 ^ (-k).toNat ≥ den then k else k - 1)

/-- The Number value for the non-negative rational `num / den`: the nearest
binary64 value, ties to even, an infinity from `2 ^ 1024` on. -/
def toDouble (negative : Bool) (num den : Nat) : JSNumber :=
  if num = 0 then .zero negative
  else
    let p : Int := max (floorLog2 num den - 52) (-1074)
    let q := if p ≥ 0 then roundHalfEven num (den * 2 ^ p.toNat)
             else roundHalfEven (num * 2 ^ (-p).toNat) den
    if q = 0 then .zero negative
    else if q = 2 ^ 53 then (if p + 1 > 971 then .infinity negative else .finite negative (2 ^ 52) (p + 1))
    else if p > 971 then .infinity negative
    else .finite negative q p

/-- The number of decimal digits of a positive integer. -/
def digitCount (n : Nat) : Nat := (Nat.toDigits 10 n).length

/-- The Number value for `digits × 10 ^ exp10`.  A value of 10^310 or more is
beyond every finite double and one below 10^-330 is nearer to zero than to
the least double, so these are answered without the powers being computed. -/
def decimalToDouble (negative : Bool) (digits : Nat) (exp10 : Int) : JSNumber :=
  if digits = 0 then .zero negative
  else if (digitCount digits : Int) + exp10 > 310 then .infinity negative
  else if (digitCount digits : Int) + exp10 < -330 then .zero negative
  else if exp10 ≥ 0 then toDouble negative (digits * 10 ^ exp10.toNat) 1
  else toDouble negative digits (10 ^ (-exp10).toNat)

/-- One step of the search of `Number::toString` for the digits: the integer
`s` of `k` digits and the exponent `n` with `s × 10 ^ (n - k)` nearest to the
value `xn / xd` among those that convert back to `x`, if there is one.  `n0`
is the exponent with `10 ^ (n0 - 1) ≤ xn / xd < 10 ^ n0`. -/
def digitsOfLength (x : JSNumber) (xn xd : Nat) (n0 : Int) (k : Nat) : Option (Nat × Int) :=
  let an := if n0 - k ≥ 0 then xn else xn * 10 ^ ((k : Int) - n0).toNat
  let ad := if n0 - k ≥ 0 then xd * 10 ^ (n0 - k).toNat else xd
  let lo := an / ad
  let hi : Nat × Int := if lo + 1 = 10 ^ k then (10 ^ (k - 1), n0 + 1) else (lo + 1, n0)
  let loOk := decide (decimalToDouble false lo (n0 - k) = x)
  let hiOk := decide (decimalToDouble false hi.1 (hi.2 - k) = x)
  if loOk && hiOk then
    if 2 * (an % ad) < ad then some (lo, n0)
    else if 2 * (an % ad) > ad then some hi
    else if lo % 2 = 0 then some (lo, n0) else some hi
  else if loOk then some (lo, n0)
  else if hiOk then some hi
  else none

/-- The first of the lengths for which `digitsOfLength` finds digits. -/
def shortestDigits (x : JSNumber) (xn xd : Nat) (n0 : Int) : JSStr → Option (Nat × Nat × Int)
  | [] => none
  | k :: ks =>
    match digitsOfLength x xn xd n0 k with
    | some (s, n) => some (s, k, n)
    | none => shortestDigits x xn xd n0 ks

/-- The text of `Number::toString` for the digits `s` (there are `k` of them)
and the exponent `n`. -/
def formatDigits (s k : Nat) (n : Int) : JSStr :=
  let digits := decimal s
  if (k : Int) ≤ n ∧ n ≤ 21 then digits ++ List.replicate (n - k).toNat 48
  else if 0 < n ∧ n ≤ 21 then digits.take n.toNat ++ 46 :: digits.drop n.toNat
  else if -6 < n ∧ n ≤ 0 then [48, 46] ++ List.replicate (-n).toNat 48 ++ digits
  else
    let e := n - 1
    let sign : Nat := if e < 0 then 45 else 43
    let mantissa := if k = 1 then digits else digits.take 1 ++ 46 :: digits.drop 1
    mantissa ++ [101, sign] ++ decimal e.natAbs

/-- The conversion `Number::toString(x)` with radix 10. -/
def JSNumber.toJSStr : JSNumber → JSStr
  | .zero _ => [48]
  | .infinity negative =>
    (if negative then [45] else []) ++ [73, 110, 102, 105, 110, 105, 116, 121]
  | .finite negative q p =>
    let xn := if p ≥ 0 then q * 2 ^ p.toNat else q
    let xd := if p ≥ 0 then 1 else 2 ^ (-p).toNat
    let d : Int := (digitCount xn : Int) - (digitCount xd : Int)
    let n0 : Int :=
      if d ≥ 0 then (if xn ≥ xd * 10 ^ d.toNat then d + 1 else d)
      else (if xn * 10 ^ (-d).toNat ≥ xd then d + 1 else d)
    (if negative then [45] else []) ++
      match shortestDigits (.finite false q p) xn xd n0 (List.range' 1 17) with
      | some (s, k, n) => formatDigits s k n
      | none => []

/-- JavaScript truthiness of a number: it is not a zero. -/
def JSNumber.truthy : JSNumber → Bool
  | .zero _ => false
  | _ => true

/-! ## `JSON.parse` -/

mutual
/-- A value produced by `JSON.parse`.  The elements of an array and the members
of an object are kept in lists of their own kind. -/
inductive Json where
  | null
  | bool (b : Bool)
  | num (value : JSNumber)
  | str (s : JSStr)
  | arr (items : JsonList)
  | obj (members : JsonMembers)
deriving DecidableEq, Repr
/-- The elements of an array, in order. -/
inductive JsonList where
  | nil
  | cons (head : Json) (tail : JsonList)
deriving DecidableEq, Repr
/-- The members of an object, in the order of the text. -/
inductive JsonMembers where
  | nil
  | cons (key : JSStr) (value : Json) (tail : JsonMembers)
deriving DecidableEq, Repr
end

/-- The array with the given elements. -/
def JsonList.ofList : List Json → JsonList
  | [] => .nil
  | v :: rest => .cons v (JsonList.ofList rest)

/-- The object with the given members. -/
def JsonMembers.ofList : List (JSStr × Json) → JsonMembers
  | [] => .nil
  | (k, v) :: rest => .cons k v (JsonMembers.ofList rest)

/-- JSON insignificant whitespace: space, tab, line feed, carriage return. -/
def isJsonWs (c : Nat) : Bool := c = 32 || c = 9 || c = 10 || c = 13

/-- Drop leading JSON whitespace. -/
def skipWs : JSStr → JSStr
  | [] => []
  | c :: cs => if isJsonWs c then skipWs cs else c :: cs

/-- The value of a hexadecimal digit. -/
def hexVal (c : Nat) : Option Nat :=
  if 48 ≤ c ∧ c ≤ 57 then some (c - 48)
  else if 97 ≤ c ∧ c ≤ 102 then some (c - 87)
  else if 65 ≤ c ∧ c ≤ 70 then some (c - 55)
  else none

/-- The body of a JSON string after its opening quote: the decoded string and
the input after the closing quote. -/
def parseString : JSStr → JSStr → Option (JSStr × JSStr)
  | [], _ => none
  | 34 :: rest, acc => some (acc, rest)
  | 92 :: 117 :: a :: b :: c :: d :: rest, acc =>
    match hexVal a, hexVal b, hexVal c, hexVal d with
    | some x, some y, some z, some w =>
      parseString rest (acc ++ [x * 4096 + y * 256 + z * 16 + w])
    | _, _, _, _ => none
  | 92 :: e :: rest, acc =>
    if e = 34 then parseString rest (acc ++ [34])
    else if e = 92 then parseString rest (acc ++ [92])
    else if e = 47 then parseString rest (acc ++ [47])
    else if e = 98 then parseString rest (acc ++ [8])
    else if e = 102 then parseString rest (acc ++ [12])
    else if e = 110 then parseString rest (acc ++ [10])
    else if e = 114 then parseString rest (acc ++ [13])
    else if e = 116 then parseString rest (acc ++ [9])
    else none
  | c :: rest, acc => if c < 32 ∨ c = 92 then none else parseString rest (acc ++ [c])

/-- Is the code unit a decimal digit. -/
def isDigit (c : Nat) : Bool := 48 ≤ c && c ≤ 57

/-- The longest run of digits at the head of the input, and what follows. -/
def takeDigits : JSStr → JSStr × JSStr
  | [] => ([], [])
  | c :: cs =>
    if isDigit c then ((takeDigits cs).1.cons c, (takeDigits cs).2) else ([], c :: cs)

/-- The integer written by a run of decimal digits. -/
def digitsValue (digits : JSStr) : Nat := digits.foldl (fun n c => 10 * n + (c - 48)) 0

/-- The integer part of a JSON number: `0`, or a non-zero digit and digits. -/
def parseInt (s : JSStr) : Option (JSStr × JSStr) :=
  match s with
  | 48 :: rest => some ([48], rest)
  | c :: rest => if isDigit c then some (c :: (takeDigits rest).1, (takeDigits rest).2) else none
  | [] => none

/-- The optional fraction of a JSON number: its digits. -/
def parseFrac (s : JSStr) : Option (JSStr × JSStr) :=
  match s with
  | 46 :: rest =>
    if (takeDigits rest).1.isEmpty then none
    else some ((takeDigits rest).1, (takeDigits rest).2)
  | _ => some ([], s)

/-- The digits of an exponent, after its sign: the exponent. -/
def parseExpDigits (negative : Bool) (s : JSStr) : Option (Int × JSStr) :=
  if (takeDigits s).1.isEmpty then none
  else some (if negative then -(digitsValue (takeDigits s).1 : Int)
             else (digitsValue (takeDigits s).1 : Int), (takeDigits s).2)

/-- The optional exponent of a JSON number. -/
def parseExp (s : JSStr) : Option (Int × JSStr) :=
  match s with
  | e :: rest =>
    if e = 101 ∨ e = 69 then
      match rest with
      | sg :: rest2 =>
        if sg = 43 then parseExpDigits false rest2
        else if sg = 45 then parseExpDigits true rest2
        else parseExpDigits false rest
      | [] => none
    else some (0, s)
  | [] => some (0, s)

/-- A JSON number: the Number value of its text and the input after it. -/
def parseNumber (s : JSStr) : Option (JSNumber × JSStr) :=
  let (negative, s1) := match s with
    | 45 :: rest => (true, rest)
    | _ => (false, s)
  match parseInt s1 with
  | none => none
  | some (i, s2) =>
    match parseFrac s2 with
    | none => none
    | some (f, s3) =>
      match parseExp s3 with
      | none => none
      | some (e, s4) =>
        some (decimalToDouble negative (digitsValue (i ++ f)) (e - (f.length : Int)), s4)

mutual
/-- A JSON value at the head of the input (after whitespace). -/
def parseValue : Nat → JSStr → Option (Json × JSStr)
  | 0, _ => none
  | fuel + 1, s =>
    match skipWs s with
    | 110 :: 117 :: 108 :: 108 :: rest => some (.null, rest)
    | 116 :: 114 :: 117 :: 101 :: rest => some (.bool true, rest)
    | 102 :: 97 :: 108 :: 115 :: 101 :: rest => some (.bool false, rest)
    | 34 :: rest =>
      match parseString rest [] with
      | some (str, r) => some (.str str, r)
      | none => none
    | 91 :: rest =>
      match skipWs rest with
      | 93 :: r => some (.arr .nil, r)
      | r => parseElems fuel r []
    | 123 :: rest =>
      match skipWs rest with
      | 125 :: r => some (.obj .nil, r)
      | r => parseMembers fuel r []
    | other =>
      match parseNumber other with
      | some (value, r) => some (.num value, r)
      | none => none
/-- The elements of a JSON array after `[`, up to and including `]`. -/
def parseElems : Nat → JSStr → List Json → Option (Json × JSStr)
  | 0, _, _ => none
  | fuel + 1, s, acc =>
    match parseValue fuel s with
    | none => none
    | some (v, r) =>
      match skipWs r with
      | 44 :: r2 => parseElems fuel r2 (acc ++ [v])
      | 93 :: r2 => some (.arr (JsonList.ofList (acc ++ [v])), r2)
      | _ => none
/-- The members of a JSON object after `{`, up to and including `}`. -/
def parseMembers : Nat → JSStr → List (JSStr × Json) → Option (Json × JSStr)
  | 0, _, _ => none
  | fuel + 1, s, acc =>
    match skipWs s with
    | 34 :: r0 =>
      match parseString r0 [] with
      | none => none
      | some (key, r1) =>
        match skipWs r1 with
        | 58 :: r2 =>
          match parseValue fuel r2 with
          | none => none
          | some (v, r3) =>
            match skipWs r3 with
            | 44 :: r4 => parseMembers fuel r4 (acc ++ [(key, v)])
            | 125 :: r4 => some (.obj (JsonMembers.ofList (acc ++ [(key, v)])), r4)
            | _ => none
        | _ => none
    | _ => none
end

/-- The call `JSON.parse(text)`: `none` when it throws a `SyntaxError`. -/
def JSON_parse (text : JSStr) : Option Json :=
  match parseValue (2 * text.length + 2) text with
  | some (v, rest) => if (skipWs rest).isEmpty then some v else none
  | none => none

/-! ## Frames of the completion provider -/

/-- A JavaScript value read off parsed JSON: `none` is `undefined`. -/
abbrev JsVal := Option Json

/-- JavaScript truthiness. -/
def Json.truthy : Json → Bool
  | .null => false
  | .bool b => b
  | .num value => value.truthy
  | .str s => !s.isEmpty
  | .arr _ => true
  | .obj _ => true

/-- The last member with the given key, as `JSON.parse` keeps it. -/
def lookupKey (key : JSStr) : JsonMembers → JsVal
  | .nil => none
  | .cons k v rest =>
    match lookupKey key rest with
    | some w => some w
    | none => if k = key then some v else none

/-- Property read `v.key` on a non-null value, for a key that no prototype
defines (`choices`, `delta`, `content`). -/
def Json.prop (v : Json) (key : JSStr) : JsVal :=
  match v with
  | .obj members => lookupKey key members
  | _ => none

/-- Indexed read `v[0]` on a truthy value. -/
def Json.first (v : Json) : JsVal :=
  match v with
  | .arr (.cons head _) => some head
  | .str s => s.head?.map (fun c => .str [c])
  | .obj members => lookupKey (u16 "0") members
  | _ => none

mutual
/-- The conversion of a value to a string that `fullResponse += token`
applies; `none` is the `TypeError` it throws.  Nothing in parsed JSON is
callable, so an object with a member named `toString` of its own cannot be
converted, and neither can an array that holds one; every other object is
"[object Object]". -/
def Json.toJSStr : Json → Option JSStr
  | .null => some (u16 "null")
  | .bool true => some (u16 "true")
  | .bool false => some (u16 "false")
  | .num value => some value.toJSStr
  | .str s => some s
  | .arr items => joinItems items
  | .obj members =>
    match lookupKey (u16 "toString") members with
    | some _ => none
    | none => some (u16 "[object Object]")
/-- The text of `Array.prototype.join` with a comma: `null` elements are empty. -/
def joinItems : JsonList → Option JSStr
  | .nil => some []
  | .cons .null .nil => some []
  | .cons v .nil => v.toJSStr
  | .cons .null rest =>
    match joinItems rest with
    | some tail => some (44 :: tail)
    | none => none
  | .cons v rest =>
    match v.toJSStr, joinItems rest with
    | some head, some tail => some (head ++ 44 :: tail)
    | _, _ => none
end

/-- The members of an object, in the order of its text. -/
def JsonMembers.toList : JsonMembers → List (JSStr × Json)
  | .nil => []
  | .cons k v rest => (k, v) :: JsonMembers.toList rest

/-- The array index that a property key is, if it is one: the canonical
decimal text of an integer below 2^32 - 1. -/
def arrayIndex (key : JSStr) : Option Nat :=
  match key with
  | [] => none
  | c :: rest =>
    if key.all isDigit && (c != 48 || rest.isEmpty) && decide (key.length ≤ 10)
        && decide (digitsValue key < 4294967295) then
      some (digitsValue key)
    else none

/-- The own properties of the object that `JSON.parse` makes of the members
of an object text, in the order in which JavaScript enumerates them: a key
written more than once keeps the place of its first member and the value of
its last, and the array indices come first, in ascending order. -/
def ownProperties (members : List (JSStr × Json)) : List (JSStr × Json) :=
  let created := members.foldl
    (fun acc e => if acc.any (fun p => p.1 = e.1) then acc.map (fun p => if p.1 = e.1 then e else p)
                  else acc ++ [e]) []
  (created.filter (fun p => (arrayIndex p.1).isSome)).insertionSort
      (fun a b => (arrayIndex a.1).getD 0 ≤ (arrayIndex b.1).getD 0)
    ++ created.filter (fun p => (arrayIndex p.1).isNone)

mutual
/-- The value that a frame carries for a value handed to `JSON.stringify`,
which is what `JSON.parse` reads off the text written: an infinite number is
written as `null` and the negative zero as `0`, and an object is written by
its own properties.  Strings, booleans, `null` and all other numbers are
carried as they are. -/
def Json.stringified : Json → Json
  | .null => .null
  | .bool b => .bool b
  | .num (.zero _) => .num (.zero false)
  | .num (.finite negative significand exponent) => .num (.finite negative significand exponent)
  | .num (.infinity _) => .null
  | .str s => .str s
  | .arr items => .arr (stringifiedItems items)
  | .obj members => .obj (JsonMembers.ofList (ownProperties (stringifiedMembers members)))
/-- The elements of an array, each as `JSON.stringify` writes it. -/
def stringifiedItems : JsonList → JsonList
  | .nil => .nil
  | .cons v rest => .cons v.stringified (stringifiedItems rest)
/-- The members of an object, each value as `JSON.stringify` writes it. -/
def stringifiedMembers : JsonMembers → List (JSStr × Json)
  | .nil => []
  | .cons k v rest => (k, v.stringified) :: stringifiedMembers rest
end

/-- Lines 383-388 of the controller on parsed `data`: the token to forward, if
any, as the value read at `choices[0].delta.content`.  `data.choices` on
`null` throws, which the enclosing `try` swallows. -/
def deltaToken (data : Json) : Option Json :=
  match data with
  | .null => none
  | _ =>
    match data.prop (u16 "choices") with
    | none => none
    | some choices =>
      if !choices.truthy then none
      else
        match choices.first with
        | none => none
        | some c0 =>
          if !c0.truthy then none
          else
            match c0.prop (u16 "delta") with
            | none => none
            | some delta =>
              if !delta.truthy then none
              else
                match delta.prop (u16 "content") with
                | none => none
                | some content => if content.truthy then some content else none

/-- What one line of a chunk does inside the `for` loop. -/
inductive LineEffect where
  | skip
  | stop
  | token (t : Json)
deriving DecidableEq, Repr

/-- The body of the `for (const line of lines)` loop (lines 378-404), up to the
write of the token. -/
def lineEffect (line : JSStr) : LineEffect :=
  if (trim line).isEmpty then .skip
  else if line = u16 "data: [DONE]" then .stop
  else if startsWith line (u16 "data: ") then
    match JSON_parse (line.drop 6) with
    | none => .skip
    | some data =>
      match deltaToken data with
      | some t => .token t
      | none => .skip
  else .skip

/-- The tokens the loop forwards for a list of lines: it leaves the loop at the
sentinel line. -/
def linesTokens : List JSStr → List Json
  | [] => []
  | line :: rest =>
    match lineEffect line with
    | .skip => linesTokens rest
    | .stop => []
    | .token t => t :: linesTokens rest

/-- The tokens forwarded for one decoded chunk, in order. -/
def chunkTokens (chunk : JSStr) : List Json := linesTokens (splitLines chunk)

/-! ## Data model (`src/models/Chat.js`) -/

/-- Identifier of a user (`req.user.id`). -/
abbrev UserId := Nat

/-- Identifier of a conversation (`req.params.id`). -/
abbrev ChatId := Nat

/-- An attached file, as `FileSchema` keeps it. -/
structure FileRec where
  filename : JSStr
  mimeType : JSStr := []
  size : Nat := 0
  fileType : JSStr := []
  extractedText : JSStr := []
deriving DecidableEq, Repr

/-- A reaction, as `ReactionSchema` keeps it. -/
structure Reaction where
  userId : UserId
  type : JSStr
  dislikeReason : Option JSStr := none
  customReason : JSStr := []
deriving DecidableEq, Repr

/-- A turn of a conversation: the document handed to `$push`.  `stopped` and
`isPartial` are the `stopped` and `partial` keys of that document; what the
store keeps of it is `MessageSchema`. -/
structure Message where
  role : JSStr
  text : JSStr
  files : List FileRec := []
  reactions : List Reaction := []
  stopped : Bool := false
  isPartial : Bool := false
deriving DecidableEq, Repr

/-- A conversation document. -/
structure Chat where
  id : ChatId
  userId : UserId
  title : JSStr
  messages : List Message
deriving DecidableEq, Repr

/-- The constant `MAX_MESSAGES_PER_CHAT` (line 18). -/
def MAX_MESSAGES_PER_CHAT : Nat := 50

/-- The query `Chat.findOne({ _id: chatId, userId })`. -/
def findOne (chats : List Chat) (chatId : ChatId) (userId : UserId) : Option Chat :=
  chats.find? (fun c => c.id = chatId && c.userId = userId)

/-- The query `Chat.findOneAndUpdate({ _id: chatId, userId }, update, { new: true })`: the
first matching document is updated and returned; without a match nothing
changes and the result is `null`. -/
def findOneAndUpdate (update : Chat → Chat) (chatId : ChatId) (userId : UserId) :
    List Chat → List Chat × Option Chat
  | [] => ([], none)
  | c :: cs =>
    if c.id = chatId && c.userId = userId then (update c :: cs, some (update c))
    else (c :: (findOneAndUpdate update chatId userId cs).1,
          (findOneAndUpdate update chatId userId cs).2)

/-- What `MessageSchema` (lines 68-98 of `Chat.js`) keeps of a document.  The
schema declares `role`, `text`, `files`, `reactions`, the two counters and
`createdAt`; it sets no `strict: false`, so Mongoose casts every pushed
subdocument in strict mode and drops the keys the schema does not declare.
`stopped` and `partial` are not declared: they are not stored and read back
as `undefined`. -/
def MessageSchema (m : Message) : Message := { m with stopped := false, isPartial := false }

/-- The update `{ $push: { messages: m } }`, cast through the schema of the
`messages` array. -/
def pushMessage (m : Message) (c : Chat) : Chat :=
  { c with messages := c.messages ++ [MessageSchema m] }

/-- The update `{ $set: { title } }`. -/
def setTitle (title : JSStr) (c : Chat) : Chat := { c with title := title }

/-- The document pushed by `savePartialResponse`. -/
def partialMessage (responseText : JSStr) : Message :=
  { role := u16 "assistant", text := responseText, stopped := true, isPartial := true }

/-- The document pushed when a stream completes (line 419). -/
def assistantMessage (fullResponse : JSStr) : Message :=
  { role := u16 "assistant", text := fullResponse }

/-! ## Connection registry -/

/-- A registry entry (lines 145-151); `controller` names its `AbortController`. -/
structure Connection where
  controller : Nat
  userId : UserId
  chatId : ChatId
  responseText : JSStr
  createdAt : Nat
deriving DecidableEq, Repr

/-- The `activeConnections` map, in insertion order. -/
abbrev Registry := List (JSStr × Connection)

/-- The lookup `activeConnections.get(id)`. -/
def Registry.get (reg : Registry) (id : JSStr) : Option Connection :=
  (reg.find? (fun e => e.1 = id)).map (fun e => e.2)

/-- The insertion `activeConnections.set(id, conn)`: an existing key keeps its place. -/
def Registry.set : Registry → JSStr → Connection → Registry
  | [], id, conn => [(id, conn)]
  | e :: rest, id, conn =>
    if e.1 = id then (id, conn) :: rest else e :: Registry.set rest id conn

/-- The removal `activeConnections.delete(id)`. -/
def Registry.delete (reg : Registry) (id : JSStr) : Registry :=
  reg.filter (fun e => !(e.1 = id))

/-- The relay's write-back `if (connection) connection.responseText = fullResponse`
on whatever entry the map holds under the id. -/
def Registry.setText (reg : Registry) (id : JSStr) (text : JSStr) : Registry :=
  reg.map (fun e => if e.1 = id then (e.1, { e.2 with responseText := text }) else e)

/-! ## Client-facing wire protocol -/

/-- A frame written to the event stream by `res.write`. -/
inductive Event where
  | connection (connectionId : JSStr)
  | token (token : Json) (connectionId : JSStr)
  | complete (fullResponse : JSStr) (connectionId : JSStr)
  | aborted (connectionId : JSStr)
  | error (error : JSStr) (connectionId : Option JSStr)
  | heartbeat
deriving DecidableEq, Repr

/-- The terminal events of the protocol. -/
def Event.isTerminal : Event → Bool
  | .complete _ _ => true
  | .aborted _ => true
  | .error _ _ => true
  | _ => false

/-- A JSON body sent with `res.json`. -/
inductive Body where
  | error (error : JSStr)
  | message (message : JSStr)
  | limitReached
  | chat (chat : Option Chat)
  | stopped
deriving DecidableEq, Repr

/-- What a handler has sent on its response object so far. -/
structure Response where
  status : Option Nat := none
  body : Option Body := none
  headersSent : Bool := false
  frames : List Event := []
  ended : Nat := 0
deriving DecidableEq, Repr

/-- The call `res.status(code).json(body)`. -/
def Response.json (res : Response) (code : Nat) (body : Body) : Response :=
  { res with status := some code, body := some body, headersSent := true, ended := res.ended + 1 }

/-- The call `res.write(frame)`. -/
def Response.write (res : Response) (e : Event) : Response :=
  { res with frames := res.frames ++ [e] }

/-- The call `res.end()`. -/
def Response.finish (res : Response) : Response := { res with ended := res.ended + 1 }

/-- The terminal events written so far. -/
def Response.terminals (res : Response) : List Event := res.frames.filter Event.isTerminal

/-- The concatenation of the text tokens written so far. -/
def forwardedText : List Event → JSStr
  | [] => []
  | .token (.str t) _ :: rest => t ++ forwardedText rest
  | _ :: rest => forwardedText rest

/-! ## Environment -/

/-- A thrown JavaScript error. -/
structure JsError where
  name : JSStr
  message : JSStr
deriving DecidableEq, Repr

/-- A snippet returned by `searchMemory`. -/
structure Memory where
  type : JSStr
  content : JSStr
deriving DecidableEq, Repr

/-- What an awaited operation answered. -/
inductive Outcome where
  | ok
  | threw (err : JsError)
  | memories (found : List Memory)
  | response (status : Nat) (hasBody : Bool)
  | text (body : JSStr)
  | chunk (value : JSStr)
  | done
  | timer
deriving DecidableEq, Repr

/-- A line written by `logger`. -/
inductive LogEntry where
  | titleSaved (title : JSStr)
  | titleError (err : JsError)
  | ragFailed (err : JsError)
  | streamError (err : JsError)
  | serverError (err : JsError)
  | partialSaveError (err : JsError)
deriving DecidableEq, Repr

/-- The `fetch` call of line 337: the cancellation handle it is tied to and
what the prompt is built from. -/
structure FetchCall where
  controller : Nat
  userId : UserId
  history : List Message
  userText : JSStr
  files : List FileRec
  memories : List Memory
deriving DecidableEq, Repr

/-! ## Handlers as threads -/

/-- The request of `addMessageToChat`: `req.body`, `req.params.id`,
`req.user.id` and the `x-connection-id` header.  `none` is an absent key. -/
structure AddReq where
  chatId : ChatId
  userId : UserId
  role : JSStr
  userText : Option JSStr
  files : Option (List FileRec) := none
  clientConnectionId : Option JSStr := none
  headerConnectionId : Option JSStr := none
deriving DecidableEq, Repr

/-- The `await` a suspended `addMessageToChat` is waiting at. -/
inductive RelayPC where
  /-- Line 110, `Chat.findOne`. -/
  | findChat
  /-- Line 132, the title update. -/
  | saveTitle (chatTitle : JSStr)
  /-- Line 154, the push of the user turn. -/
  | pushUser
  /-- Line 243, `searchMemory`. -/
  | searchMemory (history : List Message)
  /-- Line 337, `fetch`. -/
  | fetch
  /-- Line 358, `response.text()` of a non-2xx answer. -/
  | errorBody (status : Nat)
  /-- Line 371, `reader.read()`. -/
  | read
  /-- Line 395, the 10 ms timer; `pending` are the tokens of the lines of the
  current chunk that the `for` loop has not reached yet. -/
  | delay (pending : List Json)
  /-- Line 417, the push of the assistant turn. -/
  | saveFull
  /-- The handler has returned. -/
  | finished
deriving DecidableEq, Repr

/-- The local variables of one `addMessageToChat` call. -/
structure Relay where
  req : AddReq
  connectionId : JSStr
  controller : Nat
  heartbeat : Bool := false
  fullResponse : JSStr := []
  res : Response := {}
  pc : RelayPC
deriving DecidableEq, Repr

/-- The `await` of `stopGeneration`. -/
inductive StopPC where
  /-- Line 472, `savePartialResponse`. -/
  | saving (chatId : ChatId) (responseText : JSStr)
  | finished
deriving DecidableEq, Repr

/-- The local variables of one `stopGeneration` call. -/
structure Stop where
  connectionId : JSStr
  userId : UserId
  res : Response := {}
  pc : StopPC
deriving DecidableEq, Repr

/-- A handler in flight.  `save` is a `savePartialResponse` started by the
reaper without `await`: it is waiting for its store write. -/
inductive Thread where
  | relay (r : Relay)
  | stop (t : Stop)
  | save (chatId : ChatId) (userId : UserId) (responseText : JSStr) (settled : Bool)
deriving DecidableEq, Repr

/-- The process: the document store, the module-level registry, the
`AbortController`s created so far (`true` once aborted), the handlers, the
`fetch` calls made and the log. -/
structure State where
  clock : Nat := 0
  chats : List Chat := []
  activeConnections : Registry := []
  controllers : List Bool := []
  threads : List Thread := []
  fetchCalls : List FetchCall := []
  log : List LogEntry := []
deriving DecidableEq, Repr

/-- The call `controller.abort()`. -/
def abort (controllers : List Bool) (c : Nat) : List Bool := controllers.set c true

/-- The flag `controller.signal.aborted`. -/
def isAborted (controllers : List Bool) (c : Nat) : Bool := controllers.getD c false

/-- The rejection of an awaited `fetch`, body read or `reader.read()` whose
signal was aborted. -/
def abortError : JsError := { name := u16 "AbortError", message := u16 "This operation was aborted" }

/-- Lines 127-130: the title derived from the first user message. -/
def deriveTitle (userText : JSStr) : JSStr :=
  trim ((if userText.length ≤ 25 then userText else userText.take 25 ++ u16 "...").filter
    (fun c => !(c = 35 || c = 42 || c = 96 || c = 126 || c = 95)))

/-- Lines 188-190: `chat.messages.filter(msg => !(msg.stopped === true)).slice(-10)`.
The turns are subdocuments of the Mongoose document `chat`, so `msg.stopped`
is read through `MessageSchema`: the schema declares no such path and the
read gives `undefined`, whatever the stored turn holds. -/
def last10messages (messages : List Message) : List Message :=
  (messages.filter (fun msg => !((MessageSchema msg).stopped = true))).drop
    ((messages.filter (fun msg => !((MessageSchema msg).stopped = true))).length - 10)

/-- The `finally` block of the stream (lines 436-440). -/
def finallyBlock (s : State) (r : Relay) : State × Relay :=
  ({ s with activeConnections := s.activeConnections.delete r.connectionId },
   { r with heartbeat := false, res := r.res.finish, pc := .finished })

/-- The `catch` block of the stream (lines 423-435), followed by `finally`. -/
def streamCatch (s : State) (r : Relay) (err : JsError) : State × Relay :=
  if err.name = u16 "AbortError" then
    finallyBlock s { r with res := r.res.write (.aborted r.connectionId) }
  else
    finallyBlock { s with log := s.log ++ [.streamError err] }
      { r with res := r.res.write (.error (u16 "AI service unavailable") (some r.connectionId)) }

/-- The outer `catch` block (lines 441-455). -/
def serverCatch (s : State) (r : Relay) (err : JsError) : State × Relay :=
  let s1 := { s with activeConnections :=
                       if truthy r.connectionId then s.activeConnections.delete r.connectionId
                       else s.activeConnections,
                     log := s.log ++ [.serverError err] }
  if !r.res.headersSent then
    (s1, { r with heartbeat := false, res := r.res.json 500 (.error err.message), pc := .finished })
  else
    (s1, { r with heartbeat := false,
                  res := (r.res.write (.error (u16 "Internal server error") none)).finish,
                  pc := .finished })

/-- Lines 145-166: register the session, then start the push of the user turn. -/
def registerSession (s : State) (r : Relay) : State × Relay :=
  ({ s with activeConnections := s.activeConnections.set r.connectionId
              { controller := r.controller, userId := r.req.userId, chatId := r.req.chatId,
                responseText := [], createdAt := s.clock } },
   { r with pc := .pushUser })

/-- The token loop from one token to the `await` after it (lines 388-395), or
back to `reader.read()` when the chunk holds no further token.  The token is
written inside the text of `JSON.stringify`; `fullResponse += token` then
converts it to a string, and when that conversion throws, the `catch` of
line 402 goes on to the next line without the `await`. -/
def forwardTokens (r : Relay) : List Json → Relay
  | [] => { r with pc := .read }
  | t :: pending =>
    let written := { r with res := r.res.write (.token t.stringified r.connectionId) }
    match t.toJSStr with
    | some text =>
      { written with fullResponse := written.fullResponse ++ text, pc := .delay pending }
    | none => forwardTokens written pending

/-- Lines 407-422 up to the `await` of the save: the `complete` event, then the
push of the assistant turn unless the text is blank. -/
def streamComplete (s : State) (r : Relay) : State × Relay :=
  let r1 := { r with res := r.res.write (.complete r.fullResponse r.connectionId) }
  if truthy (trim r1.fullResponse) then (s, { r1 with pc := .saveFull })
  else finallyBlock s r1

/-- The id generated on line 106 from `Date.now()` and the digits taken from
`Math.random()`. -/
def generatedId (now : Nat) (random : JSStr) : JSStr :=
  u16 "conn_" ++ decimal now ++ u16 "_" ++ random

/-- The arrival of an `addMessageToChat` request: lines 92-110, up to the first
`await`.  `random` is `Math.random().toString(36).substr(2, 9)`.  Before line
106 `connectionId` is `undefined`, written as the empty string. -/
def startRelay (s : State) (req : AddReq) (random : JSStr) : State :=
  match req.userText with
  | none =>
    { s with threads := s.threads ++ [.relay
        { req := req, connectionId := [], controller := 0,
          res := ({} : Response).json 400 (.error (u16 "Message text is required")),
          pc := .finished }] }
  | some userText =>
    if !truthy userText || (trim userText).isEmpty then
      { s with threads := s.threads ++ [.relay
          { req := req, connectionId := [], controller := 0,
            res := ({} : Response).json 400 (.error (u16 "Message text is required")),
            pc := .finished }] }
    else
      let fromBody := (req.clientConnectionId.filter truthy)
      let fromHeader := (req.headerConnectionId.filter truthy)
      let connectionId := (fromBody.orElse (fun _ => fromHeader)).getD (generatedId s.clock random)
      { s with controllers := s.controllers ++ [false],
               threads := s.threads ++ [.relay
                 { req := req, connectionId := connectionId,
                   controller := s.controllers.length, pc := .findChat }] }

/-- An `addMessageToChat` call continues from the `await` it was suspended at,
with the outcome of the awaited operation, and runs to its next `await` or to
its return.  An outcome that the awaited operation cannot produce leaves the
call suspended.

Cancellation: a pending `fetch` or `response.text()` whose signal is aborted
rejects with an `AbortError`, and an aborted body stream delivers no further
chunk.  A body stream that had already closed or failed while the relay was
sitting in the 10 ms timer keeps that state, so `done` and a rejection of
`reader.read()` are taken from the environment as they come (the rejection
caused by an abort is `abortError`). -/
def resumeRelay (s : State) (r : Relay) (o : Outcome) : State × Relay :=
  match r.pc, o with
  | .findChat, .threw err => serverCatch s r err
  | .findChat, .ok =>
    match findOne s.chats r.req.chatId r.req.userId with
    | none => (s, { r with res := r.res.json 404 (.message (u16 "Chat not found")), pc := .finished })
    | some existingChat =>
      if existingChat.messages.length ≥ MAX_MESSAGES_PER_CHAT then
        (s, { r with res := r.res.json 400 .limitReached, pc := .finished })
      else
        let userMessagesBefore := existingChat.messages.filter (fun msg => msg.role = u16 "user")
        let isFirstUserMessage := userMessagesBefore.length = 0 && r.req.role = u16 "user"
        if isFirstUserMessage then
          (s, { r with pc := .saveTitle (deriveTitle (r.req.userText.getD [])) })
        else registerSession s r
  | .saveTitle chatTitle, .ok =>
    registerSession
      { s with chats := (findOneAndUpdate (setTitle chatTitle) r.req.chatId r.req.userId s.chats).1,
               log := s.log ++ [.titleSaved chatTitle] } r
  | .saveTitle _, .threw err => registerSession { s with log := s.log ++ [.titleError err] } r
  | .pushUser, .threw err => serverCatch s r err
  | .pushUser, .ok =>
    let pushed := findOneAndUpdate
      (pushMessage { role := r.req.role, text := r.req.userText.getD [],
                     files := r.req.files.getD [] })
      r.req.chatId r.req.userId s.chats
    let s1 := { s with chats := pushed.1 }
    if r.req.role ≠ u16 "user" then
      (s1, { r with res := r.res.json 201 (.chat pushed.2), pc := .finished })
    else
      let r1 := { r with res := { r.res with headersSent := true }.write (.connection r.connectionId),
                         heartbeat := true }
      match pushed.2 with
      | none =>
        serverCatch s1 r1 { name := u16 "TypeError",
                            message := u16 "Cannot read properties of null (reading 'messages')" }
      | some chat => (s1, { r1 with pc := .searchMemory chat.messages })
  | .searchMemory history, .memories found =>
    ({ s with fetchCalls := s.fetchCalls ++ [
         { controller := r.controller, userId := r.req.userId, history := history,
           userText := r.req.userText.getD [],
           files := r.req.files.getD [], memories := found }] },
     { r with pc := .fetch })
  | .searchMemory history, .threw err =>
    ({ s with log := s.log ++ [.ragFailed err],
              fetchCalls := s.fetchCalls ++ [
         { controller := r.controller, userId := r.req.userId, history := history,
           userText := r.req.userText.getD [],
           files := r.req.files.getD [], memories := [] }] },
     { r with pc := .fetch })
  | .fetch, .threw err =>
    streamCatch s r (if isAborted s.controllers r.controller then abortError else err)
  | .fetch, .response status hasBody =>
    if isAborted s.controllers r.controller then streamCatch s r abortError
    else if !(200 ≤ status && status ≤ 299) then (s, { r with pc := .errorBody status })
    else if !hasBody then
      streamCatch s r { name := u16 "Error", message := u16 "No streaming body from Gemini" }
    else (s, { r with fullResponse := [], pc := .read })
  | .errorBody _, .threw err =>
    streamCatch s r (if isAborted s.controllers r.controller then abortError else err)
  | .errorBody status, .text errorText =>
    if isAborted s.controllers r.controller then streamCatch s r abortError
    else streamCatch s r
      { name := u16 "Error",
        message := u16 "Gemini API error: " ++ decimal status ++ u16 " - " ++ errorText }
  | .read, .threw err => streamCatch s r err
  | .read, .done => streamComplete s r
  | .read, .chunk value =>
    if isAborted s.controllers r.controller then streamCatch s r abortError
    else (s, forwardTokens r (chunkTokens value))
  | .delay pending, .timer =>
    ({ s with activeConnections := s.activeConnections.setText r.connectionId r.fullResponse },
     forwardTokens r pending)
  | .saveFull, .ok =>
    finallyBlock
      { s with chats := (findOneAndUpdate (pushMessage (assistantMessage r.fullResponse))
                           r.req.chatId r.req.userId s.chats).1 } r
  | .saveFull, .threw err => streamCatch s r err
  | _, _ => (s, r)

/-- The request of `stopGeneration`. -/
structure StopReq where
  userId : UserId
  connectionId : Option JSStr
deriving DecidableEq, Repr

/-- The arrival of a `stopGeneration` request (lines 459-482), up to the `await`
of `savePartialResponse` or, when nothing is to be saved, to its return. -/
def startStop (s : State) (req : StopReq) : State :=
  match req.connectionId.filter truthy with
  | none =>
    { s with threads := s.threads ++ [.stop
        { connectionId := [], userId := req.userId,
          res := ({} : Response).json 400 (.error (u16 "Connection ID required")),
          pc := .finished }] }
  | some connectionId =>
    match s.activeConnections.get connectionId with
    | none =>
      { s with threads := s.threads ++ [.stop
          { connectionId := connectionId, userId := req.userId,
            res := ({} : Response).json 404 (.error (u16 "Connection not found")),
            pc := .finished }] }
    | some connection =>
      if connection.userId = req.userId then
        let s1 := { s with controllers := abort s.controllers connection.controller }
        if truthy connection.responseText then
          { s1 with threads := s1.threads ++ [.stop
              { connectionId := connectionId, userId := req.userId,
                pc := .saving connection.chatId connection.responseText }] }
        else
          { s1 with activeConnections := s1.activeConnections.delete connectionId,
                    threads := s1.threads ++ [.stop
              { connectionId := connectionId, userId := req.userId,
                res := ({} : Response).json 200 .stopped, pc := .finished }] }
      else
        { s with threads := s.threads ++ [.stop
            { connectionId := connectionId, userId := req.userId,
              res := ({} : Response).json 404 (.error (u16 "Connection not found")),
              pc := .finished }] }

/-- The store write of `savePartialResponse` (lines 21-40) settles: the turn is
pushed, or the error is logged and swallowed. -/
def savePartialResponse (s : State) (chatId : ChatId) (userId : UserId) (responseText : JSStr)
    (o : Outcome) : State :=
  match o with
  | .threw dbError => { s with log := s.log ++ [.partialSaveError dbError] }
  | _ =>
    { s with chats := (findOneAndUpdate (pushMessage (partialMessage responseText))
                         chatId userId s.chats).1 }

/-- A `stopGeneration` call continues after `savePartialResponse` (lines 474-475). -/
def resumeStop (s : State) (t : Stop) (o : Outcome) : State × Stop :=
  match t.pc, o with
  | .saving chatId responseText, .ok =>
    let s1 := savePartialResponse s chatId t.userId responseText o
    ({ s1 with activeConnections := s1.activeConnections.delete t.connectionId },
     { t with res := t.res.json 200 .stopped, pc := .finished })
  | .saving chatId responseText, .threw err =>
    let s1 := savePartialResponse s chatId t.userId responseText (.threw err)
    ({ s1 with activeConnections := s1.activeConnections.delete t.connectionId },
     { t with res := t.res.json 200 .stopped, pc := .finished })
  | _, _ => (s, t)

/-- The reaper's loop (lines 45-53) over the entries of the registry. -/
def sweepEntries (now : Nat) : List (JSStr × Connection) → State → State
  | [], s => s
  | (connectionId, connection) :: rest, s =>
    if (now : Int) - (connection.createdAt : Int) > 300000 then
      let s1 := { s with controllers := abort s.controllers connection.controller }
      let s2 := if truthy connection.responseText then
          { s1 with threads := s1.threads ++
              [.save connection.chatId connection.userId connection.responseText false] }
        else s1
      sweepEntries now rest { s2 with activeConnections := s2.activeConnections.delete connectionId }
    else sweepEntries now rest s

/-- One firing of the reaper's interval (lines 43-54). -/
def sweep (s : State) : State := sweepEntries s.clock s.activeConnections s

/-- The request of `updateChatWithMessage`: `message` is `req.body.message`. -/
structure UpdateReq where
  chatId : ChatId
  userId : UserId
  message : Option Message
deriving DecidableEq, Repr

/-- The handler `updateChatWithMessage` (lines 521-544), whose only `await` is
its store write: the new store and the response. -/
def updateChatWithMessage (chats : List Chat) (req : UpdateReq) (o : Outcome) :
    List Chat × Response :=
  match req.message with
  | none => (chats, ({} : Response).json 400 (.error (u16 "Message text is required")))
  | some message =>
    if !truthy message.text || (trim message.text).isEmpty then
      (chats, ({} : Response).json 400 (.error (u16 "Message text is required")))
    else
      match o with
      | .threw err => (chats, ({} : Response).json 500 (.error err.message))
      | _ =>
        match findOneAndUpdate (pushMessage message) req.chatId req.userId chats with
        | (_, none) => (chats, ({} : Response).json 404 (.message (u16 "Chat not found")))
        | (chats1, some chat) => (chats1, ({} : Response).json 200 (.chat (some chat)))

/-! ## The event loop -/

/-- What the event loop runs next. -/
inductive Action where
  /-- Time passes. -/
  | tick (ms : Nat)
  /-- A request reaches `addMessageToChat`. -/
  | addMessageToChat (req : AddReq) (random : JSStr)
  /-- A request reaches `stopGeneration`. -/
  | stopGeneration (req : StopReq)
  /-- The reaper's interval fires. -/
  | sweep
  /-- The keep-alive interval of a relay fires. -/
  | heartbeat (tid : Nat)
  /-- The operation awaited by a handler settles. -/
  | resume (tid : Nat) (o : Outcome)
deriving DecidableEq, Repr

/-- The callback of the keep-alive interval (lines 183-185). -/
def heartbeatTick (t : Thread) : Thread :=
  match t with
  | .relay r => if r.heartbeat then .relay { r with res := r.res.write .heartbeat } else t
  | _ => t

/-- One handler continues. -/
def resumeThread (s : State) (tid : Nat) (o : Outcome) : State :=
  match s.threads.get? tid with
  | some (.relay r) =>
    let next := resumeRelay s r o
    { next.1 with threads := next.1.threads.set tid (.relay next.2) }
  | some (.stop t) =>
    let next := resumeStop s t o
    { next.1 with threads := next.1.threads.set tid (.stop next.2) }
  | some (.save chatId userId responseText false) =>
    match o with
    | .ok =>
      { savePartialResponse s chatId userId responseText o with
        threads := s.threads.set tid (.save chatId userId responseText true) }
    | .threw err =>
      { savePartialResponse s chatId userId responseText (.threw err) with
        threads := s.threads.set tid (.save chatId userId responseText true) }
    | _ => s
  | _ => s

/-- One turn of the event loop. -/
def step (s : State) : Action → State
  | .tick ms => { s with clock := s.clock + ms }
  | .addMessageToChat req random => startRelay s req random
  | .stopGeneration req => startStop s req
  | .sweep => sweep s
  | .heartbeat tid =>
    match s.threads.get? tid with
    | some t => { s with threads := s.threads.set tid (heartbeatTick t) }
    | none => s
  | .resume tid o => resumeThread s tid o

/-- A run of the event loop. -/
def run (s : State) (schedule : List Action) : State := schedule.foldl step s

/-! ## Context assembler (lines 187-333) -/

/-- The method `Array.prototype.join` on strings. -/
def joinWith (sep : JSStr) : List JSStr → JSStr
  | [] => []
  | [x] => x
  | x :: y :: rest => x ++ sep ++ joinWith sep (y :: rest)

/-- One entry of `files.map(...)` (lines 220-222 and 234-236). -/
def fileLine (file : FileRec) : JSStr :=
  u16 "[File: " ++ file.filename ++ u16 "] " ++
    (if truthy file.extractedText then file.extractedText else u16 "No text extracted")

/-- The text of the dislike annotation after its opening words (lines 208-214). -/
def dislikeDetail (userReaction : Reaction) : JSStr :=
  match userReaction.dislikeReason with
  | none => []
  | some dislikeReason =>
    if truthy dislikeReason then
      u16 " - Reason: " ++ dislikeReason ++
        (if truthy userReaction.customReason then
          u16 " (" ++ userReaction.customReason ++ u16 ")"
         else [])
    else []

/-- The feedback indicator put in front of a turn (lines 197-217). -/
def feedbackIndicator (userId : UserId) (msg : Message) : JSStr :=
  if msg.role = u16 "assistant" && decide (msg.reactions.length > 0) then
    match msg.reactions.find? (fun r => r.userId = userId) with
    | none => []
    | some userReaction =>
      if userReaction.type = u16 "like" then u16 "[User liked this response 👍]\n"
      else if userReaction.type = u16 "dislike" then
        u16 "[User disliked this response 👎" ++ dislikeDetail userReaction ++ u16 "]\n"
      else []
  else []

/-- The role, file content and text of a turn (lines 218-226). -/
def messageBody (msg : Message) : JSStr :=
  if msg.files.length > 0 then
    msg.role ++ u16 ": " ++ joinWith (u16 "\n") (msg.files.map fileLine) ++
      u16 "\nUser question: " ++ msg.text
  else msg.role ++ u16 ": " ++ msg.text

/-- The callback of `last10messages.map` (lines 194-228): one turn as text. -/
def renderMessage (userId : UserId) (msg : Message) : JSStr :=
  feedbackIndicator userId msg ++ messageBody msg

/-- The string `conversationHistory` (lines 193-229). -/
def conversationHistory (userId : UserId) (messages : List Message) : JSStr :=
  joinWith (u16 "\n") ((last10messages messages).map (renderMessage userId))

/-- The string `currentMessagePrompt` (lines 232-238). -/
def currentMessagePrompt (userText : JSStr) (files : List FileRec) : JSStr :=
  if files.length > 0 then
    joinWith (u16 "\n") (files.map fileLine) ++ u16 "\nUser question: " ++ userText
  else userText

/-- The string `ragContextText` (lines 239-251). -/
def ragContextText (memories : List Memory) : JSStr :=
  if memories.length > 0 then
    joinWith (u16 "\n\n---\n\n")
      (memories.map (fun m => u16 "[" ++ m.type ++ u16 "] " ++ m.content))
  else []

/-- The fixed system-instructions block that opens the prompt (lines 253-330). -/
def systemInstructions : JSStr :=
  u16 (
    "SYSTEM INSTRUCTIONS — CAREER AI ASSISTANT\n" ++
    "\n" ++
    "1. ROLE & PURPOSE\n" ++
    "You are a professional Career and Interview AI Assistant built to help users:\n" ++
    "- prepare for upcoming interviews\n" ++
    "- understand job descriptions\n" ++
    "- practice mock interviews\n" ++
    "- improve resumes and professional skills\n" ++
    "- learn any technical concept with clear, calm explanations.\n" ++
    "\n" ++
    "2. BEHAVIOR RULES\n" ++
    "- Always be polite, respectful, calm, and supportive.\n" ++
    "- NEVER use rude, harsh, aggressive, or risky language.\n" ++
    "- Maintain a human-like, friendly mentor tone.\n" ++
    "- Address the user by name only when appropriate (not every message).\n" ++
    "- Provide structured, concise, and helpful answers.\n" ++
    "\n" ++
    "3. MEMORY USAGE RULES\n" ++
    "You can ONLY use stored memory when:\n" ++
    "- the user directly asks for their saved personal data (bio, resume, skills, experience, goals, job preferences).\n" ++
    "If user asks for memory that does not exist, reply:\n" ++
    "  “I don’t have that saved yet.”\n" ++
    "\n" ++
    "Never block conversation if memory is empty.\n" ++
    "\n" ++
    "4. RAG CONTEXT RULES (VERY IMPORTANT)\n" ++
    "When RAG sends a “current_job_application” or “interview_context”:\n" ++
    "- Treat it as the user's actual active interview.\n" ++
    "- Use it to guide preparation, questions, answers, and learning material.\n" ++
    "- Never hallucinate missing details; use only what is provided.\n" ++
    "- Always adjust difficulty to user's experience level.\n" ++
    "\n" ++
    "If RAG includes:\n" ++
    "\x7b\n" ++
    "  \"role\": \"...\",\n" ++
    "  \"company\": \"...\",\n" ++
    "  \"skills\": [...],\n" ++
    "  \"jd_text\": \"...\",\n" ++
    "  \"interview_stage\": \"...\"\n" ++
    "\x7d\n" ++
    "Then automatically:\n" ++
    "- generate tailored interview questions\n" ++
    "- explain key concepts from the JD\n" ++
    "- provide salary expectations\n" ++
    "- break down required skills\n" ++
    "- and simulate mock interview rounds.\n" ++
    "\n" ++
    "5. WHEN USER ENTERS FROM \"AI PREP BUTTON\"\n" ++
    "If RAG provides a new job application (because user pressed \"track-prep\"):\n" ++
    "- Assume user is preparing for that specific interview *right now*.\n" ++
    "- Immediately switch into “Interview-Preparation Mode”.\n" ++
    "- Begin by offering:\n" ++
    "  - Role summary\n" ++
    "  - What to expect in interview\n" ++
    "  - Top 10 questions for this exact job\n" ++
    "  - Skill gaps the user should fix\n" ++
    "  - Mini mock interview (optional)\n" ++
    "\n" ++
    "6. RESPONSE STYLE GUIDELINES\n" ++
    "- Use headers, bullet points, and short paragraphs.\n" ++
    "- Ask a clarifying question if the prompt is unclear.\n" ++
    "- Provide examples when explaining anything technical.\n" ++
    "- For coding questions: provide optimal + simple solution with explanation.\n" ++
    "\n" ++
    "7. SAFETY & PROFESSIONALISM\n" ++
    "- No medical, legal, or harmful instructions.\n" ++
    "- Avoid making definitive claims—use \"typically\", \"usually\", \"industry range\", etc.\n" ++
    "- For salary or company-sensitive info, give general market estimates.\n" ++
    "\n" ++
    "8. CORE OBJECTIVE\n" ++
    "Your mission:\n" ++
    "Help the user grow in their career, become confident in interviews, and\n" ++
    "master the skills required for their dream job—with clarity, respect,\n" ++
    "professionalism, and real usefulness.\n" ++
    "\n" ++
    "**IMPORTANT: If you see [User disliked previous response], apologize briefly and improve. and mostly use the emojis like chatgpt/deepseek/google ai on each response**\n" ++
    "\n" ++
    "    ")

/-- The string `fullPrompt` (lines 252-333) sent by a `fetch` call. -/
def fullPrompt (call : FetchCall) : JSStr :=
  systemInstructions ++
    (if truthy (ragContextText call.memories) then
      u16 "Relevant user memory:\n" ++ ragContextText call.memories ++ u16 "\n\n"
     else []) ++
    (if truthy (conversationHistory call.userId call.history) then
      conversationHistory call.userId call.history ++ u16 "\n\n"
     else []) ++
    (u16 "user: " ++ currentMessagePrompt call.userText call.files)

/-! ## Scenarios -/

/-- A conversation of user 7 with no turn yet. -/
def demoChat : Chat := { id := 1, userId := 7, title := u16 "Untitled Chat", messages := [] }

/-- A process holding `demoChat` and nothing in flight. -/
def demoState : State := { chats := [demoChat] }

/-- User 7 sends "Hi" to `demoChat` under the connection id `c1`. -/
def demoReq : AddReq :=
  { chatId := 1, userId := 7, role := u16 "user", userText := some (u16 "Hi"),
    clientConnectionId := some (u16 "c1") }

/-- The line the completion provider sends for one text delta. -/
def frame (delta : String) : JSStr :=
  u16 "data: \x7b\"choices\":[\x7b\"delta\":\x7b\"content\":\"" ++ u16 delta ++ u16 "\"\x7d\x7d]\x7d\n"

/-- The line of a frame whose delta has the given JSON text as its `content`. -/
def valueFrame (content : String) : JSStr :=
  u16 "data: \x7b\"choices\":[\x7b\"delta\":\x7b\"content\":" ++ u16 content ++ u16 "\x7d\x7d]\x7d\n"

/-- The request runs up to its first `reader.read()`: the conversation is
found, the title and the user turn are stored, the memory search finds
nothing and the provider answers 200 with a body. -/
def openStream : List Action :=
  [.addMessageToChat demoReq [], .resume 0 .ok, .resume 0 .ok, .resume 0 .ok,
   .resume 0 (.memories []), .resume 0 (.response 200 true)]

/-- The relay's thread in a state, when thread `tid` is one. -/
def relayAt (s : State) (tid : Nat) : Option Relay :=
  match s.threads.get? tid with
  | some (.relay r) => some r
  | _ => none

/-- The response object of thread `tid`. -/
def responseAt (s : State) (tid : Nat) : Option Response :=
  match s.threads.get? tid with
  | some (.relay r) => some r.res
  | some (.stop t) => some t.res
  | _ => none

/-- The turns of a conversation in the store. -/
def turnsOf (s : State) (chatId : ChatId) (userId : UserId) : List Message :=
  ((findOne s.chats chatId userId).map (fun c => c.messages)).getD []

/-- The assistant turns of a conversation in the store. -/
def assistantTurns (s : State) (chatId : ChatId) (userId : UserId) : List Message :=
  (turnsOf s chatId userId).filter (fun m => m.role = u16 "assistant")

/-- The stream delivers "Full answer." and ends, and the store rejects the
write of the assistant turn. -/
def saveFails : List Action :=
  openStream ++ [.resume 0 (.chunk (frame "Full answer.")), .resume 0 .timer, .resume 0 .done,
    .resume 0 (.threw { name := u16 "MongoNetworkError", message := u16 "connection closed" })]

/-- The stream delivers "Full answer." and ends; while the relay awaits its
store write, the owner's stop request for `c1` arrives and is served; then the
relay's write settles. -/
def stopDuringSave : List Action :=
  openStream ++ [.resume 0 (.chunk (frame "Full answer.")), .resume 0 .timer, .resume 0 .done,
    .stopGeneration { userId := 7, connectionId := some (u16 "c1") }, .resume 1 .ok,
    .resume 0 .ok]

/-- The relay forwards "Hello wor" and sits in the 10 ms timer when the owner's
stop request for `c1` arrives; the timer fires and the aborted read rejects. -/
def stopDuringDelay : List Action :=
  openStream ++ [.resume 0 (.chunk (frame "Hello wor")),
    .stopGeneration { userId := 7, connectionId := some (u16 "c1") },
    .resume 0 .timer, .resume 0 (.threw abortError)]

/-- One chunk carries the deltas "Hello " and "wor"; the timer after the first
has fired and the relay sits in the timer after the second. -/
def secondDelay : List Action :=
  openStream ++ [.resume 0 (.chunk (frame "Hello " ++ frame "wor")), .resume 0 .timer]

/-- The relay forwards "Hello", then the read of the body fails. -/
def readFails : List Action :=
  openStream ++ [.resume 0 (.chunk (frame "Hello")), .resume 0 .timer,
    .resume 0 (.threw { name := u16 "TypeError", message := u16 "terminated" })]

/-- The stream delivers the single delta " " and ends. -/
def blankAnswer : List Action :=
  openStream ++ [.resume 0 (.chunk (frame " ")), .resume 0 .timer, .resume 0 .done]

/-- A conversation of user 7 that holds 49 turns. -/
def longChat : Chat :=
  { id := 2, userId := 7, title := u16 "Interview prep",
    messages := List.replicate 49 { role := u16 "user", text := u16 "more" } }

/-- One request on `longChat`, answered in full by the provider and saved. -/
def answerOnLongChat : List Action :=
  [.addMessageToChat { chatId := 2, userId := 7, role := u16 "user", userText := some (u16 "Hi") } [],
   .resume 0 .ok, .resume 0 .ok, .resume 0 (.memories []), .resume 0 (.response 200 true),
   .resume 0 (.chunk (frame "Full answer.")), .resume 0 .timer, .resume 0 .done, .resume 0 .ok]

/-- A conversation of user 7 that holds 50 turns. -/
def fullChat : Chat :=
  { id := 3, userId := 7, title := u16 "Salary talk",
    messages := List.replicate 50 { role := u16 "user", text := u16 "more" } }

/-- User 7 sends "One more" to `fullChat`. -/
def fullReq : AddReq := { chatId := 3, userId := 7, role := u16 "user", userText := some (u16 "One more") }

/-- A state with its log forgotten: everything a client can come to observe. -/
def forgetLog (s : State) : State := { s with log := [] }

/-- The turns a suspended `addMessageToChat` may still append: its user turn
and its assistant turn. -/
def credit : RelayPC → Nat
  | .findChat => 2
  | .saveTitle _ => 2
  | .pushUser => 2
  | .finished => 0
  | _ => 1

/-- The number of turns of a conversation in the store. -/
def turnCount (chats : List Chat) (chatId : ChatId) (userId : UserId) : Nat :=
  (((findOne chats chatId userId).map (fun c => c.messages)).getD []).length

/-- The process after "Full answer." was forwarded and its timer fired: the
relay of `demoReq` is suspended at `reader.read()`. -/
def answered : State :=
  run demoState (openStream ++ [.resume 0 (.chunk (frame "Full answer.")), .resume 0 .timer])

/-- The relay of `demoReq` suspended at `reader.read()` in `answered`. -/
def answeredRelay : Relay :=
  { req := demoReq, connectionId := u16 "c1", controller := 0, heartbeat := true,
    fullResponse := u16 "Full answer.",
    res := { headersSent := true,
             frames := [.connection (u16 "c1"), .token (.str (u16 "Full answer.")) (u16 "c1")] },
    pc := .read }

/-- The relay of `demoReq` awaiting the store write of "Full answer.". -/
def savingRelay : Relay :=
  { answeredRelay with
    res := answeredRelay.res.write (.complete (u16 "Full answer.") (u16 "c1")), pc := .saveFull }

/-- The conversation `demoChat` once the title and the user turn are stored. -/
def askedChat : Chat :=
  { id := 1, userId := 7, title := u16 "Hi", messages := [{ role := u16 "user", text := u16 "Hi" }] }

/-- The process while the relay of `demoReq` awaits `fetch`. -/
def fetching : State := run demoState openStream.dropLast

/-- The relay of `demoReq` suspended at `fetch` in `fetching`. -/
def fetchingRelay : Relay :=
  { req := demoReq, connectionId := u16 "c1", controller := 0, heartbeat := true,
    res := { headersSent := true, frames := [.connection (u16 "c1")] }, pc := .fetch }

/-- Fifteen turns, "t1" to "t15", alternately of the user and the assistant. -/
def fifteenTurns : List Message :=
  (List.range 15).map (fun i =>
    { role := if i % 2 = 0 then u16 "user" else u16 "assistant",
      text := u16 "t" ++ decimal (i + 1) })

/-- A conversation of user 7 that holds `fifteenTurns`. -/
def fifteenChat : Chat := { id := 4, userId := 7, title := u16 "Mock interview", messages := fifteenTurns }

/-- User 7 sends "Hi" to `fifteenChat`; the request runs up to its `fetch`. -/
def askFifteen : List Action :=
  [.addMessageToChat { chatId := 4, userId := 7, role := u16 "user", userText := some (u16 "Hi") } [],
   .resume 0 .ok, .resume 0 .ok, .resume 0 (.memories [])]

/-- The relay forwards "Hello wor" and its timer fires; the owner's stop request
for `c1` is served and saves the text; the aborted read rejects.  Then user 7
sends "Again" to the same conversation, up to the `fetch`. -/
def stopThenAsk : List Action :=
  openStream ++ [.resume 0 (.chunk (frame "Hello wor")), .resume 0 .timer,
    .stopGeneration { userId := 7, connectionId := some (u16 "c1") }, .resume 1 .ok,
    .resume 0 (.threw abortError),
    .addMessageToChat { chatId := 1, userId := 7, role := u16 "user", userText := some (u16 "Again") } [],
    .resume 2 .ok, .resume 2 .ok, .resume 2 (.memories [])]

/-- The replacement `.replace(/[#*`~_]/g, "")` of line 130. -/
def stripMarkdown (s : JSStr) : JSStr :=
  s.filter (fun c => !(c = 35 || c = 42 || c = 96 || c = 126 || c = 95))

/-- The title as C14 words it: the text with the markdown characters removed
when it has at most 25 characters, otherwise its first 25 characters followed
by "...", with the markdown characters removed. -/
def claimedTitle (s : JSStr) : JSStr :=
  if s.length ≤ 25 then stripMarkdown s else stripMarkdown (s.take 25 ++ u16 "...")

/-- User 7 opens `demoChat` with the text " Hi"; the title update is stored. -/
def askWithLeadingSpace : List Action :=
  [.addMessageToChat { chatId := 1, userId := 7, role := u16 "user", userText := some (u16 " Hi") } [],
   .resume 0 .ok, .resume 0 .ok]

/-- The relay of a first message about a Google interview, suspended at
`Chat.findOne`. -/
def interviewRelay : Relay :=
  { req := { chatId := 1, userId := 7, role := u16 "user",
             userText := some (u16 "Can you help me prepare for a Google SWE interview next week") },
    connectionId := u16 "c2", controller := 0, pc := .findChat }

/-- Two turns that the prompt of user `userId` cannot tell apart by the words
of C16: they agree on everything but reactions, and on an assistant turn they
agree on the reactions made by `userId`. -/
def sameForUser (userId : UserId) (a b : Message) : Prop :=
  a.role = b.role ∧ a.text = b.text ∧ a.files = b.files ∧ a.stopped = b.stopped ∧
  (a.role = u16 "assistant" →
    a.reactions.filter (fun r => r.userId = userId) = b.reactions.filter (fun r => r.userId = userId))

/-- An assistant turn that user 7 disliked as too short, after a like by user 8. -/
def dislikedTurn : Message :=
  { role := u16 "assistant", text := u16 "Sure.",
    reactions := [{ userId := 8, type := u16 "like" },
                  { userId := 7, type := u16 "dislike", dislikeReason := some (u16 "too_short") }] }

/-- The turn `dislikedTurn` without the reaction of user 8. -/
def dislikedTurnAlone : Message :=
  { role := u16 "assistant", text := u16 "Sure.",
    reactions := [{ userId := 7, type := u16 "dislike", dislikeReason := some (u16 "too_short") }] }

/-- The sentinel line that ends the provider's stream. -/
def doneLine : JSStr := u16 "data: [DONE]"

/-- The token that the loop forwards for a line it reaches. -/
def lineDelta (line : JSStr) : Option Json :=
  match lineEffect line with
  | .token t => some t
  | _ => none

/-- The value at `choices[0].delta` of a parsed frame, read the way JavaScript
reads the path: `data.choices`, then its entry `0`, then the key `delta`. -/
def frameDelta (data : Json) : Option Json :=
  match data.prop (u16 "choices") with
  | none => none
  | some choices =>
    match choices.first with
    | none => none
    | some c0 => c0.prop (u16 "delta")

/-- The non-empty text delta of a well-formed `data: ` frame, as C19 words it:
the line starts with "data: ", the rest is JSON, and the `content` of its
delta is a string that is not empty. -/
def textDelta (line : JSStr) : Option JSStr :=
  if startsWith line (u16 "data: ") then
    match JSON_parse (line.drop 6) with
    | none => none
    | some data =>
      match frameDelta data with
      | none => none
      | some delta =>
        match delta.prop (u16 "content") with
        | some (.str t) => if t.isEmpty then none else some t
        | _ => none
  else none

/-- The tokens that C19 words for a sequence of chunks of whole lines: the
non-empty text deltas of all their lines, in order. -/
def claimedTokens (chunks : List JSStr) : List JSStr :=
  (chunks.flatMap splitLines).filterMap textDelta

/-- The environment delivers one chunk and lets the timer after each of its
tokens fire, one timer for each token that the relay could accumulate. -/
def feedChunk (tid : Nat) (chunk : JSStr) : List Action :=
  .resume tid (.chunk chunk) ::
    List.replicate ((chunkTokens chunk).filterMap Json.toJSStr).length (.resume tid .timer)

/-- The environment delivers the chunks in order and then the end of the
stream. -/
def feedStream (tid : Nat) (chunks : List JSStr) : List Action :=
  chunks.flatMap (feedChunk tid) ++ [.resume tid .done]

/-- The process while the relay of `demoReq` awaits its first `reader.read()`. -/
def reading : State := run demoState openStream

/-- The relay of `demoReq` suspended at its first `reader.read()`. -/
def readingRelay : Relay :=
  { req := demoReq, connectionId := u16 "c1", controller := 0, heartbeat := true,
    res := { headersSent := true, frames := [.connection (u16 "c1")] }, pc := .read }

/-- The relay back at `reader.read()` once it has forwarded the given tokens:
each is written, and those that have a string conversion are accumulated. -/
def afterTokens (r : Relay) (tokens : List Json) : Relay :=
  { r with res := { r.res with frames := r.res.frames ++
                      tokens.map (fun t => Event.token t.stringified r.connectionId) },
           fullResponse := r.fullResponse ++ (tokens.filterMap Json.toJSStr).flatten,
           pc := .read }

/-- The reaper's test of line 46 on one registry entry. -/
def expired (now : Nat) (e : JSStr × Connection) : Bool :=
  decide ((now : Int) - (e.2.createdAt : Int) > 300000)

/-- The `savePartialResponse` call the reaper starts for a registry entry
(line 49), waiting for its store write. -/
def reaperSave (e : JSStr × Connection) : Thread :=
  .save e.2.chatId e.2.userId e.2.responseText false

/-- One session of user 7 on conversation 1, registered at time 0 under the
id c9 with the accumulated text "xyz", seen at time 300001. -/
def staleState : State :=
  { clock := 300001, chats := [demoChat], controllers := [false],
    activeConnections :=
      [(u16 "c9", { controller := 0, userId := 7, chatId := 1,
                    responseText := u16 "xyz", createdAt := 0 })] }

/-- The owner of the session c9 of `staleState` asks to stop it. -/
def ownerStop : StopReq := { userId := 7, connectionId := some (u16 "c9") }

/-- Another user asks to stop the session c9 of `staleState`. -/
def strangerStop : StopReq := { userId := 8, connectionId := some (u16 "c9") }

/-- The suspension points of `addMessageToChat` that lie after the opening of
the event stream (lines 172-185). -/
def RelayPC.streaming : RelayPC → Bool
  | .searchMemory _ => true
  | .fetch => true
  | .errorBody _ => true
  | .read => true
  | .delay _ => true
  | .saveFull => true
  | _ => false

/-- A relay that has opened its event stream and has not returned: the
keep-alive timer runs and the response has not been ended. -/
def streamOpen (r : Relay) : Prop :=
  r.pc.streaming = true ∧ r.heartbeat = true ∧ r.res.headersSent = true ∧ r.res.ended = 0 ∧
    truthy r.connectionId = true

instance (r : Relay) : Decidable (streamOpen r) := by
  unfold streamOpen
  infer_instance

/-- A relay that has returned: the keep-alive timer is cleared and the response
has been ended once. -/
def streamClosed (r : Relay) : Prop :=
  r.pc = .finished ∧ r.heartbeat = false ∧ r.res.ended = 1

instance (r : Relay) : Decidable (streamClosed r) := by
  unfold streamClosed
  infer_instance

/-- The text argument of the `savePartialResponse` call a handler is in: a stop
waiting at line 472, or a call started by the reaper on line 49. -/
def Thread.savingText : Thread → Option JSStr
  | .save _ _ responseText _ => some responseText
  | .stop t =>
    match t.pc with
    | .saving _ responseText => some responseText
    | .finished => none
  | .relay _ => none

/-- Every `savePartialResponse` call in flight was given a non-empty text. -/
def savesHaveText (s : State) : Prop :=
  ∀ t ∈ s.threads, ∀ text, t.savingText = some text → truthy text = true

/-- The store changes a handler can make: none, a title update, or the push of
one turn, which has a non-empty text when it carries `partial: true`. -/
def pushesOnlyTexted (before after : List Chat) : Prop :=
  after = before ∨
  (∃ title chatId userId, after = (findOneAndUpdate (setTitle title) chatId userId before).1) ∨
  (∃ m chatId userId, (m.isPartial = true → truthy m.text = true) ∧
    after = (findOneAndUpdate (pushMessage m) chatId userId before).1)

/-- User 7 stores a note with the role assistant in `demoChat`, under the
connection id c1. -/
def noteReq : AddReq :=
  { chatId := 1, userId := 7, role := u16 "assistant", userText := some (u16 "Note"),
    clientConnectionId := some (u16 "c1") }

/-- The request `noteReq` runs to its return: the conversation is found and
the turn is pushed. -/
def storeNote : List Action :=
  [.addMessageToChat noteReq [], .resume 0 .ok, .resume 0 .ok]

/-- A conversation of user 8 with no turn yet. -/
def strangerChat : Chat := { id := 2, userId := 8, title := u16 "Untitled Chat", messages := [] }

/-- A process holding a conversation of user 7 and one of user 8. -/
def sharedState : State := { chats := [demoChat, strangerChat] }

/-- User 8 sends "Hello" to their own conversation and names the connection
id c1, under which user 7 is streaming. -/
def intruderReq : AddReq :=
  { chatId := 2, userId := 8, role := u16 "user", userText := some (u16 "Hello"),
    clientConnectionId := some (u16 "c1") }

/-- User 7 opens a stream under c1; then the request of user 8 arrives, finds
its conversation and stores its title. -/
def reuseId : List Action :=
  openStream ++ [.addMessageToChat intruderReq [], .resume 1 .ok, .resume 1 .ok]

/-- User 7 opens a stream under c1; then the request of user 8 arrives and its
`Chat.findOne` fails. -/
def reuseIdAndFail : List Action :=
  openStream ++ [.addMessageToChat intruderReq [],
    .resume 1 (.threw { name := u16 "CastError", message := u16 "Cast to ObjectId failed" })]

/-! ## The reaction endpoint (`src/routes/chatRoutes.js`, lines 22-181) -/

/-- The authenticated user and the three keys that line 27 reads off the
parsed JSON body; `none` is an absent key. -/
structure ReactReq where
  userId : UserId
  reactionType : JsVal := none
  dislikeReason : JsVal := none
  customReason : JsVal := none
deriving DecidableEq, Repr

/-- What a block of the handler leaves: the status of the response it has
sent, or the value it goes on with. -/
inductive Checked (α : Type) where
  | status (code : Nat)
  | pass (value : α)
deriving DecidableEq, Repr

/-- The own keys of the object `reasonMap` (lines 46-63). -/
def reasonTable : List (JSStr × JSStr) :=
  [(u16 "inaccurate", u16 "inaccurate"), (u16 "Inaccurate", u16 "inaccurate"),
   (u16 "not_helpful", u16 "unhelpful"), (u16 "not helpful", u16 "unhelpful"),
   (u16 "Not helpful", u16 "unhelpful"), (u16 "unhelpful", u16 "unhelpful"),
   (u16 "irrelevant", u16 "irrelevant"), (u16 "Irrelevant", u16 "irrelevant"),
   (u16 "too_vague", u16 "irrelevant"), (u16 "Too vague", u16 "irrelevant"),
   (u16 "too_short", u16 "too_short"), (u16 "Too short", u16 "too_short"),
   (u16 "too_long", u16 "too_long"), (u16 "Too long", u16 "too_long"),
   (u16 "other", u16 "other"), (u16 "Other", u16 "other")]

/-- The property names of `Object.prototype`, which the object literal
`reasonMap` inherits. -/
def prototypeKeys : List JSStr :=
  [u16 "constructor", u16 "__defineGetter__", u16 "__defineSetter__", u16 "hasOwnProperty",
   u16 "__lookupGetter__", u16 "__lookupSetter__", u16 "isPrototypeOf",
   u16 "propertyIsEnumerable", u16 "toString", u16 "valueOf", u16 "__proto__",
   u16 "toLocaleString"]

/-- The values that `finalDislikeReason` takes: `null` (line 41), a string of
the table, or the member of `Object.prototype` of the given name (a function,
or the prototype itself under `__proto__`), which is truthy and no string. -/
inductive ReasonValue where
  | null
  | code (c : JSStr)
  | inherited (key : JSStr)
deriving DecidableEq, Repr

/-- The lookup `reasonMap[dislikeReason]` on the property key that the value
of `dislikeReason` converts to; `none` is `undefined`. -/
def reasonMap (key : JSStr) : Option ReasonValue :=
  match reasonTable.find? (fun e => e.1 = key) with
  | some e => some (.code e.2)
  | none => if key ∈ prototypeKeys then some (.inherited key) else none

/-- Lines 31-84: the checks of the body.  The result is `reactionType`,
`finalDislikeReason` and `finalCustomReason`, or the status of the answer:
400 from the checks themselves, 500 when a check throws (a `dislikeReason`
that cannot be converted to a property key, a truthy `customReason` without
a method `trim`) and the `catch` of line 173 answers. -/
def finalReasons (req : ReactReq) : Checked (JSStr × ReasonValue × JSStr) :=
  match req.reactionType with
  | some (.str reactionType) =>
    if reactionType = u16 "like" then .pass (reactionType, .null, [])
    else if reactionType = u16 "dislike" then
      match req.dislikeReason.filter Json.truthy with
      | none => .status 400
      | some dislikeReason =>
        match dislikeReason.toJSStr with
        | none => .status 500
        | some key =>
          match reasonMap key with
          | none => .status 400
          | some finalDislikeReason =>
            if finalDislikeReason = .code (u16 "other") then
              match req.customReason.filter Json.truthy with
              | none => .status 400
              | some (.str customReason) =>
                if (trim customReason).length < 3 then .status 400
                else .pass (reactionType, finalDislikeReason, trim customReason)
              | some _ => .status 500
            else .pass (reactionType, finalDislikeReason, [])
    else .status 400
  | _ => .status 400

/-- The method `Array.prototype.findIndex`; `none` is -1. -/
def findIndex {α : Type} (p : α → Bool) : List α → Option Nat
  | [] => none
  | x :: xs => if p x then some 0 else (findIndex p xs).map (fun i => i + 1)

/-- The reaction that `ReactionSchema` makes of the object the handler puts
into the array, or `none` when the validation of `chat.save()` rejects it: the
`type` is one of the two of its enum, and the `dislikeReason` is `null` or one
of the six codes of its enum.  A member of `Object.prototype` is neither. -/
def ReactionSchema (userId : UserId) (type : JSStr) (dislikeReason : ReasonValue)
    (customReason : JSStr) : Option Reaction :=
  if type = u16 "like" ∨ type = u16 "dislike" then
    match dislikeReason with
    | .null => some { userId := userId, type := type, dislikeReason := none,
                      customReason := customReason }
    | .code c =>
      if c ∈ [u16 "inaccurate", u16 "irrelevant", u16 "unhelpful", u16 "too_short",
              u16 "too_long", u16 "other"] then
        some { userId := userId, type := type, dislikeReason := some c,
               customReason := customReason }
      else none
    | .inherited _ => none
  else none

/-- Lines 105-142: the reaction array of the addressed turn as `chat.save()`
stores it, or `none` when the handler throws: `chat.save()` rejects a reaction
that `ReactionSchema` does not accept, once it has been put into the array
(`push` and the assignment to an index both cast the object to a reaction of
the schema and mark the array as changed).  The repeated reaction type only
removes an entry, so there the reasons of the request are never validated. -/
def reactTo (reactions : List Reaction) (userId : UserId) (reactionType : JSStr)
    (finalDislikeReason : ReasonValue) (finalCustomReason : JSStr) : Option (List Reaction) :=
  match findIndex (fun r => r.userId = userId) reactions with
  | some existingReactionIndex =>
    match reactions.get? existingReactionIndex with
    | some existingReaction =>
      if existingReaction.type = reactionType then
        some (reactions.eraseIdx existingReactionIndex)
      else
        (ReactionSchema userId reactionType finalDislikeReason finalCustomReason).map
          (fun reaction => reactions.set existingReactionIndex reaction)
    | none => none
  | none =>
    (ReactionSchema userId reactionType finalDislikeReason finalCustomReason).map
      (fun reaction => reactions ++ [reaction])

/-- The reaction endpoint on the turn it addresses (found by `Chat.findById` and
`chat.messages.id`, lines 86-101): the turn as `chat.save()` stores it when the
answer is 200, and the status of the answer otherwise.  `saveError` is the
error with which the store rejects `chat.save()`, if it does, for a reason
other than the reaction put into the array. -/
def reactionEndpoint (message : Message) (req : ReactReq) (saveError : Option JsError) :
    Checked Message :=
  match finalReasons req with
  | .status code => .status code
  | .pass (reactionType, finalDislikeReason, finalCustomReason) =>
    match reactTo message.reactions req.userId reactionType finalDislikeReason
            finalCustomReason with
    | none => .status 500
    | some reactions =>
      match saveError with
      | some _ => .status 500
      | none => .pass { message with reactions := reactions }

/-- A turn that user 7 has liked and user 8 has disliked as too short. -/
def ratedTurn : Message :=
  { role := u16 "assistant", text := u16 "Use a hash map.",
    reactions := [{ userId := 7, type := u16 "like" },
                  { userId := 8, type := u16 "dislike", dislikeReason := some (u16 "too_short") }] }

/-- User 7 dislikes a turn as "Not helpful". -/
def dislikeReq : ReactReq :=
  { userId := 7, reactionType := some (.str (u16 "dislike")),
    dislikeReason := some (.str (u16 "Not helpful")) }

/-- A dislike whose reason is the name of a member of `Object.prototype`. -/
def inheritedReq (userId : UserId) : ReactReq :=
  { userId := userId, reactionType := some (.str (u16 "dislike")),
    dislikeReason := some (.str (u16 "constructor")) }

/-- A dislike for another reason, explained in the given words. -/
def otherReq (userId : UserId) (customReason : Json) : ReactReq :=
  { userId := userId, reactionType := some (.str (u16 "dislike")),
    dislikeReason := some (.str (u16 "Other")), customReason := some customReason }

/-- A registry that holds one entry per id (it is a `Map`) and whose handles
are among the first `n` created. -/
def registryOk (reg : Registry) (n : Nat) : Prop :=
  (reg.map Prod.fst).Nodup ∧ ∀ e ∈ reg, e.2.controller < n

/-- Handlers whose relays, as long as they have not returned, hold a handle
among the first `n` created. -/
def threadsOk (threads : List Thread) (n : Nat) : Prop :=
  ∀ t ∈ threads, ∀ r, t = .relay r → r.pc ≠ .finished → r.controller < n

/-- The shape of the process that every step keeps. -/
def wellFormed (s : State) : Prop :=
  registryOk s.activeConnections s.controllers.length ∧
  threadsOk s.threads s.controllers.length

/-- The window as C12 words it: the last ten of the turns whose `stopped` flag
is not true. -/
def claimedWindow (L : List Message) : List Message :=
  (L.filter (fun msg => !(msg.stopped = true))).drop
    ((L.filter (fun msg => !(msg.stopped = true))).length - 10)

/-- Eleven turns t1 ... t11, the fifth being the document that
`savePartialResponse` pushes for the text "cut off". -/
def stoppedHistory : List Message :=
  [{ role := u16 "user", text := u16 "t1" }, { role := u16 "assistant", text := u16 "t2" },
   { role := u16 "user", text := u16 "t3" }, { role := u16 "assistant", text := u16 "t4" },
   partialMessage (u16 "cut off"),
   { role := u16 "user", text := u16 "t6" }, { role := u16 "assistant", text := u16 "t7" },
   { role := u16 "user", text := u16 "t8" }, { role := u16 "assistant", text := u16 "t9" },
   { role := u16 "user", text := u16 "t10" }, { role := u16 "assistant", text := u16 "t11" }]

/-! ## The claims, evaluated and proved -/

/-- C1, on the path where the store write of the assistant turn fails after
`complete` was written: the client receives two terminal events, `complete`
and then `error`, before the response ends (once). -/
theorem C1_save_failure_writes_two_terminal_events :
    (responseAt (run demoState saveFails) 0).map (fun res => (res.terminals, res.ended))
      = some ([.complete (u16 "Full answer.") (u16 "c1"),
               .error (u16 "AI service unavailable") (some (u16 "c1"))], 1) := by
  decide

/-- C2, on the interleaving where the owner's stop request is served while the
relay awaits the store write of the completed answer: the session appends two
assistant turns with the same text, the one pushed by `savePartialResponse`
and the one pushed by the relay. -/
theorem C2_stop_during_save_appends_two_turns :
    assistantTurns (run demoState stopDuringSave) 1 7
      = [MessageSchema (partialMessage (u16 "Full answer.")),
         MessageSchema (assistantMessage (u16 "Full answer."))] := by
  decide

/-- C3, for a stop request that arrives while the relay sits in the 10 ms
timer after forwarding "Hello wor": the session is live and owned by the
caller, the client has received "Hello wor", the stop is answered 200 and the
relay ends with `aborted`, yet no assistant turn is appended. -/
theorem C3_stop_during_delay_saves_nothing :
    ((run demoState (openStream ++ [.resume 0 (.chunk (frame "Hello wor"))])).activeConnections.get
        (u16 "c1")).map (fun conn => conn.userId) = some 7 ∧
    (relayAt (run demoState (openStream ++ [.resume 0 (.chunk (frame "Hello wor"))])) 0).map
        (fun r => forwardedText r.res.frames) = some (u16 "Hello wor") ∧
    (responseAt (run demoState stopDuringDelay) 1).map (fun res => res.status) = some (some 200) ∧
    (responseAt (run demoState stopDuringDelay) 0).map Response.terminals
      = some [.aborted (u16 "c1")] ∧
    assistantTurns (run demoState stopDuringDelay) 1 7 = [] := by
  decide

/-- C4, at the 10 ms timer after the second token of a chunk: the relay is
suspended, the client has been sent "Hello wor", and the registry entry still
holds "Hello ". -/
theorem C4_registry_lags_during_delay :
    (relayAt (run demoState secondDelay) 0).map (fun r => (r.pc, forwardedText r.res.frames))
      = some (.delay [], u16 "Hello wor") ∧
    ((run demoState secondDelay).activeConnections.get (u16 "c1")).map
        (fun conn => conn.responseText) = some (u16 "Hello ") := by
  decide

/-- C5 as stated fails for a blank answer: the stream completes normally with
the non-empty text " ", the client receives `complete` carrying it, and no
assistant turn is appended. -/
theorem C5_blank_answer_is_not_saved :
    (responseAt (run demoState blankAnswer) 0).map Response.terminals
      = some [.complete (u16 " ") (u16 "c1")] ∧
    u16 " " ≠ [] ∧
    assistantTurns (run demoState blankAnswer) 1 7 = [] := by
  decide

/-- C6, for a read failure after "Hello" was forwarded: the client receives the
`error` event and no turn with the accumulated text is persisted. -/
theorem C6_read_failure_drops_accumulated_text :
    (relayAt (run demoState readFails) 0).map (fun r => (r.fullResponse, r.res.terminals))
      = some (u16 "Hello", [.error (u16 "AI service unavailable") (some (u16 "c1"))]) ∧
    assistantTurns (run demoState readFails) 1 7 = [] ∧
    (run demoState readFails).activeConnections = [] := by
  decide

/-- C9 as stated fails: a conversation of 49 turns holds 51 after one
`addMessageToChat` request whose answer is saved. -/
theorem C9_cap_exceeded_from_49_turns :
    (turnsOf { chats := [longChat] } 2 7).length = 49 ∧
    (turnsOf (run { chats := [longChat] } answerOnLongChat) 2 7).length = 51 := by
  decide

/-- C10: a request whose `userText` is missing, empty or blank is answered 400
at once: the handler has returned without reaching any `await` (no later
outcome moves it), and the store, the registry, the cancellation handles, the
`fetch` calls and the log are as before. -/
theorem C10_blank_text_is_rejected_without_effect (s : State) (req : AddReq) (random : JSStr)
    (hblank : req.userText = none ∨ ∃ t, req.userText = some t ∧ trim t = []) :
    responseAt (step s (.addMessageToChat req random)) s.threads.length
      = some (({} : Response).json 400 (.error (u16 "Message text is required"))) ∧
    (relayAt (step s (.addMessageToChat req random)) s.threads.length).map (fun r => r.pc)
      = some .finished ∧
    (∀ o, step (step s (.addMessageToChat req random)) (.resume s.threads.length o)
      = step s (.addMessageToChat req random)) ∧
    (step s (.addMessageToChat req random)).chats = s.chats ∧
    (step s (.addMessageToChat req random)).activeConnections = s.activeConnections ∧
    (step s (.addMessageToChat req random)).controllers = s.controllers ∧
    (step s (.addMessageToChat req random)).fetchCalls = s.fetchCalls ∧
    (step s (.addMessageToChat req random)).log = s.log := by
  have hstart : step s (.addMessageToChat req random) =
      { s with threads := s.threads ++ [.relay
          { req := req, connectionId := [], controller := 0,
            res := ({} : Response).json 400 (.error (u16 "Message text is required")),
            pc := .finished }] } := by
    rcases hblank with h | ⟨t, h, ht⟩
    · simp [step, startRelay, h]
    · simp [step, startRelay, h, ht]
  rw [hstart]
  refine ⟨?_, ?_, ?_, rfl, rfl, rfl, rfl, rfl⟩
  · simp [responseAt]
  · simp [relayAt]
  · intro o
    simp [step, resumeThread, resumeRelay]

/-- C10 at the request of user 7 whose text is three spaces. -/
theorem C10_blank_text_witness :
    (({ chatId := 1, userId := 7, role := u16 "user", userText := some (u16 "   ") } : AddReq).userText
        = none ∨
      ∃ t, ({ chatId := 1, userId := 7, role := u16 "user",
              userText := some (u16 "   ") } : AddReq).userText = some t ∧ trim t = []) ∧
    responseAt (step demoState (.addMessageToChat
        { chatId := 1, userId := 7, role := u16 "user", userText := some (u16 "   ") } []))
        demoState.threads.length
      = some (({} : Response).json 400 (.error (u16 "Message text is required"))) :=
  ⟨Or.inr ⟨u16 "   ", rfl, by decide⟩,
   (C10_blank_text_is_rejected_without_effect demoState
      { chatId := 1, userId := 7, role := u16 "user", userText := some (u16 "   ") } []
      (Or.inr ⟨u16 "   ", rfl, by decide⟩)).1⟩

/-- What the arrival of an `addMessageToChat` request leaves behind: one new
handler, either returned with 400 or suspended at `Chat.findOne` with nothing
sent, and an unchanged store, registry, `fetch` list and log. -/
theorem startRelay_spec (s : State) (req : AddReq) (random : JSStr) :
    ∃ r, (startRelay s req random).threads = s.threads ++ [.relay r] ∧ r.req = req ∧
      ((r.pc = .finished ∧
          r.res = ({} : Response).json 400 (.error (u16 "Message text is required"))) ∨
       (r.pc = .findChat ∧ r.res = ({} : Response))) ∧
      (startRelay s req random).chats = s.chats ∧
      (startRelay s req random).activeConnections = s.activeConnections ∧
      (startRelay s req random).fetchCalls = s.fetchCalls ∧
      (startRelay s req random).log = s.log := by
  unfold startRelay
  cases req.userText with
  | none => exact ⟨_, rfl, rfl, Or.inl ⟨rfl, rfl⟩, rfl, rfl, rfl, rfl⟩
  | some userText =>
    by_cases hblank : (!truthy userText || (trim userText).isEmpty) = true
    · dsimp only
      rw [if_pos hblank]
      exact ⟨_, rfl, rfl, Or.inl ⟨rfl, rfl⟩, rfl, rfl, rfl, rfl⟩
    · dsimp only
      rw [if_neg hblank]
      exact ⟨_, rfl, rfl, Or.inr ⟨rfl, rfl⟩, rfl, rfl, rfl, rfl⟩

/-- A relay's step never touches the list of handlers. -/
theorem resumeRelay_threads (s : State) (r : Relay) (o : Outcome) :
    (resumeRelay s r o).1.threads = s.threads := by
  unfold resumeRelay serverCatch streamCatch finallyBlock registerSession streamComplete
  repeat' (first | split | (dsimp only; split))
  all_goals rfl

/-- A step that resumes a relay is the relay's own step, written back in place. -/
theorem step_resume_relay (s : State) (tid : Nat) (r : Relay) (o : Outcome)
    (h : s.threads.get? tid = some (.relay r)) :
    step s (.resume tid o)
      = { (resumeRelay s r o).1 with
          threads := s.threads.set tid (.relay (resumeRelay s r o).2) } := by
  simp only [step, resumeThread, h, resumeRelay_threads]

/-- After a relay's step, its thread holds the relay's new locals. -/
theorem relayAt_step_resume (s : State) (tid : Nat) (r : Relay) (o : Outcome)
    (h : s.threads.get? tid = some (.relay r)) :
    relayAt (step s (.resume tid o)) tid = some (resumeRelay s r o).2 := by
  have hlt : tid < s.threads.length := by
    rcases Nat.lt_or_ge tid s.threads.length with h1 | h1
    · exact h1
    · rw [List.get?_eq_none.mpr h1] at h
      cases h
  rw [step_resume_relay s tid r o h]
  simp [relayAt, hlt]

/-- The relay's step at `Chat.findOne` on a conversation at the cap. -/
theorem resumeRelay_findChat_full (s : State) (r : Relay) (c : Chat)
    (hpc : r.pc = .findChat)
    (hc : findOne s.chats r.req.chatId r.req.userId = some c)
    (hfull : 50 ≤ c.messages.length) :
    resumeRelay s r .ok = (s, { r with res := r.res.json 400 .limitReached, pc := .finished }) := by
  obtain ⟨req, connectionId, controller, heartbeat, fullResponse, res, pc⟩ := r
  dsimp only at hpc hc
  subst hpc
  have hfull2 : c.messages.length ≥ MAX_MESSAGES_PER_CHAT := hfull
  simp only [resumeRelay, hc, hfull2, if_true]

/-- C8: a request on a conversation that holds 50 or more turns when it is
read is answered 400 with no event written; neither the arrival of the request
nor the step that reads the conversation changes the store (no turn, no
title), the registry or the list of `fetch` calls, and the handler has
returned.  `s1` is any later state in which the handler is still where its
arrival left it. -/
theorem C8_full_conversation_is_rejected (s0 s1 : State) (req : AddReq) (random : JSStr)
    (c : Chat)
    (hthread : s1.threads.get? s0.threads.length
      = (step s0 (.addMessageToChat req random)).threads.get? s0.threads.length)
    (hc : findOne s1.chats req.chatId req.userId = some c)
    (hfull : 50 ≤ c.messages.length) :
    ((step s0 (.addMessageToChat req random)).chats = s0.chats ∧
     (step s0 (.addMessageToChat req random)).activeConnections = s0.activeConnections ∧
     (step s0 (.addMessageToChat req random)).fetchCalls = s0.fetchCalls) ∧
    (relayAt (step s1 (.resume s0.threads.length .ok)) s0.threads.length).map
        (fun r => (r.res.status, r.res.frames, r.pc)) = some (some 400, [], .finished) ∧
    (step s1 (.resume s0.threads.length .ok)).chats = s1.chats ∧
    (step s1 (.resume s0.threads.length .ok)).activeConnections = s1.activeConnections ∧
    (step s1 (.resume s0.threads.length .ok)).controllers = s1.controllers ∧
    (step s1 (.resume s0.threads.length .ok)).fetchCalls = s1.fetchCalls := by
  obtain ⟨r, hthreads, hreq, hr, hchats, hreg, hfetch, _⟩ := startRelay_spec s0 req random
  have hget : s1.threads.get? s0.threads.length = some (.relay r) := by
    rw [hthread]
    simp [step, hthreads]
  refine ⟨⟨hchats, hreg, hfetch⟩, ?_⟩
  rw [relayAt_step_resume s1 _ r .ok hget, step_resume_relay s1 _ r .ok hget]
  rcases hr with ⟨hpc, hres⟩ | ⟨hpc, hres⟩
  · have hstay : resumeRelay s1 r .ok = (s1, r) := by
      obtain ⟨req, connectionId, controller, heartbeat, fullResponse, res, pc⟩ := r
      dsimp only at hpc
      subst hpc
      simp only [resumeRelay]
    rw [hstay]
    simp [hpc, hres, Response.json]
  · rw [resumeRelay_findChat_full s1 r c hpc (by rw [hreq]; exact hc) hfull]
    simp [hres, Response.json]

/-- C8 at `fullChat`, which holds 50 turns: the request is answered 400 and the
store is unchanged. -/
theorem C8_full_conversation_witness :
    (findOne (step { chats := [fullChat] } (.addMessageToChat fullReq [])).chats 3 7 = some fullChat ∧
      50 ≤ fullChat.messages.length) ∧
    (relayAt (step (step { chats := [fullChat] } (.addMessageToChat fullReq [])) (.resume 0 .ok)) 0).map
        (fun r => (r.res.status, r.res.frames, r.pc)) = some (some 400, [], .finished) ∧
    (step (step { chats := [fullChat] } (.addMessageToChat fullReq [])) (.resume 0 .ok)).chats
      = [fullChat] :=
  ⟨⟨by decide, by decide⟩,
   (C8_full_conversation_is_rejected { chats := [fullChat] }
      (step { chats := [fullChat] } (.addMessageToChat fullReq [])) fullReq [] fullChat rfl
      (by decide) (by decide)).2.1,
   (C8_full_conversation_is_rejected { chats := [fullChat] }
      (step { chats := [fullChat] } (.addMessageToChat fullReq [])) fullReq [] fullChat rfl
      (by decide) (by decide)).2.2.1⟩

/-- The conversation addressed by an update is found afterwards with the update
applied, when the update keeps its id and owner. -/
theorem findOne_findOneAndUpdate (update : Chat → Chat) (chatId : ChatId) (userId : UserId)
    (hkeep : ∀ c, (update c).id = c.id ∧ (update c).userId = c.userId) (chats : List Chat) :
    findOne (findOneAndUpdate update chatId userId chats).1 chatId userId
      = (findOne chats chatId userId).map update := by
  induction chats with
  | nil => rfl
  | cons c cs ih =>
    unfold findOneAndUpdate
    by_cases hmatch : (c.id = chatId && c.userId = userId) = true
    · have hmatch2 : ((update c).id = chatId && (update c).userId = userId) = true := by
        rw [(hkeep c).1, (hkeep c).2]; exact hmatch
      rw [if_pos hmatch]
      simp only [findOne, List.find?_cons, hmatch, hmatch2, Option.map_some']
    · rw [if_neg hmatch]
      have hmatch2 : (c.id = chatId && c.userId = userId) = false := by simpa using hmatch
      simp only [findOne, List.find?_cons, hmatch2] at ih ⊢
      exact ih

/-- After a relay's step, the list of handlers holds the relay's new locals. -/
theorem threads_step_resume (s : State) (tid : Nat) (r : Relay) (o : Outcome)
    (h : s.threads.get? tid = some (.relay r)) :
    (step s (.resume tid o)).threads.get? tid = some (.relay (resumeRelay s r o).2) := by
  have hlt : tid < s.threads.length := by
    rcases Nat.lt_or_ge tid s.threads.length with h1 | h1
    · exact h1
    · rw [List.get?_eq_none.mpr h1] at h
      cases h
  rw [step_resume_relay s tid r o h]
  simp [hlt]

/-- C5 (amended): when `reader.read()` reports the end of the stream, the relay
writes one `complete` event carrying the accumulated text `t`; if `t` has a
non-blank character it then awaits the store, and when that write settles
exactly one turn with role assistant, text `t` and neither flag set is
appended to the conversation, with no further event; if `t` is empty or blank
the handler returns with the store unchanged. -/
theorem C5_complete_event_then_one_full_turn (s : State) (tid : Nat) (r : Relay)
    (s1 : State) (r1 : Relay) (c : Chat)
    (hthread : s.threads.get? tid = some (.relay r)) (hpc : r.pc = .read)
    (hthread1 : s1.threads.get? tid = some (.relay r1)) (hpc1 : r1.pc = .saveFull)
    (hc : findOne s1.chats r1.req.chatId r1.req.userId = some c) :
    ((relayAt (step s (.resume tid .done)) tid).map (fun x => (x.res.frames, x.fullResponse, x.pc))
        = some (r.res.frames ++ [.complete r.fullResponse r.connectionId], r.fullResponse,
                if truthy (trim r.fullResponse) then .saveFull else .finished) ∧
      (step s (.resume tid .done)).chats = s.chats) ∧
    (findOne (step s1 (.resume tid .ok)).chats r1.req.chatId r1.req.userId
        = some { c with messages := c.messages ++
            [{ role := u16 "assistant", text := r1.fullResponse, files := [], reactions := [],
               stopped := false, isPartial := false }] } ∧
      (relayAt (step s1 (.resume tid .ok)) tid).map (fun x => (x.res.frames, x.pc))
        = some (r1.res.frames, .finished)) := by
  constructor
  · rw [relayAt_step_resume s tid r .done hthread, step_resume_relay s tid r .done hthread]
    obtain ⟨req, connectionId, controller, heartbeat, fullResponse, res, pc⟩ := r
    dsimp only at hpc
    subst hpc
    by_cases hblank : truthy (trim fullResponse) = true
    · simp [resumeRelay, streamComplete, hblank, Response.write]
    · simp [resumeRelay, streamComplete, hblank, Response.write, finallyBlock, Response.finish]
  · rw [relayAt_step_resume s1 tid r1 .ok hthread1, step_resume_relay s1 tid r1 .ok hthread1]
    obtain ⟨req, connectionId, controller, heartbeat, fullResponse, res, pc⟩ := r1
    dsimp only at hpc1 hc
    subst hpc1
    constructor
    · simp only [resumeRelay, finallyBlock]
      rw [findOne_findOneAndUpdate (pushMessage (assistantMessage fullResponse)) _ _
        (fun c => ⟨rfl, rfl⟩), hc]
      rfl
    · simp [resumeRelay, finallyBlock, Response.finish]

/-- A non-2xx answer followed by its error body: the two steps of the relay,
for a session that was not aborted and for one that was. -/
theorem run_bad_status (s : State) (tid : Nat) (r : Relay) (st : Nat) (b : Bool) (t : JSStr)
    (hthread : s.threads.get? tid = some (.relay r)) (hpc : r.pc = .fetch)
    (hst : (200 ≤ st && st ≤ 299) = false) :
    run s [.resume tid (.response st b), .resume tid (.text t)]
      = if isAborted s.controllers r.controller = true then
          { (streamCatch s r abortError).1 with
            threads := s.threads.set tid (.relay (streamCatch s r abortError).2) }
        else
          { (streamCatch s { r with pc := .errorBody st }
                { name := u16 "Error",
                  message := u16 "Gemini API error: " ++ decimal st ++ u16 " - " ++ t }).1 with
            threads := s.threads.set tid (.relay
              (streamCatch s { r with pc := .errorBody st }
                { name := u16 "Error",
                  message := u16 "Gemini API error: " ++ decimal st ++ u16 " - " ++ t }).2) } := by
  have hlt : tid < s.threads.length := by
    rcases Nat.lt_or_ge tid s.threads.length with h1 | h1
    · exact h1
    · rw [List.get?_eq_none.mpr h1] at hthread
      cases hthread
  obtain ⟨req, connectionId, controller, heartbeat, fullResponse, res, pc⟩ := r
  dsimp only at hpc
  subst hpc
  simp only [run, List.foldl]
  have hfirst := threads_step_resume s tid _ (.response st b) hthread
  rw [step_resume_relay _ tid _ (.text t) hfirst]
  rw [step_resume_relay s tid _ _ hthread]
  have hne : ¬ (u16 "Error" = u16 "AbortError") := by decide
  cases hab : isAborted s.controllers controller
  · simp [resumeRelay, hab, hst, streamCatch, finallyBlock, abortError, hne]
  · simp [resumeRelay, hab, hst, streamCatch, finallyBlock, abortError]

/-- C7: two upstream failures that differ only in the exception message (a
rejected `fetch`, body read or `reader.read()`), or only in the status code,
the presence of a body and the error body (a non-2xx answer), leave the
process in the same state up to the server log: every response, the store
and the registry agree.  Unless the session had been aborted, the frame
written is the `error` event with the fixed text and the connection id. -/
theorem C7_upstream_failure_leaks_nothing (s : State) (tid : Nat) (r : Relay)
    (name m1 m2 : JSStr) (st1 st2 : Nat) (b1 b2 : Bool) (t1 t2 : JSStr)
    (hthread : s.threads.get? tid = some (.relay r))
    (hname : name ≠ u16 "AbortError")
    (hst1 : ¬ (200 ≤ st1 ∧ st1 ≤ 299)) (hst2 : ¬ (200 ≤ st2 ∧ st2 ≤ 299)) :
    ((r.pc = .fetch ∨ r.pc = .read ∨ (∃ st, r.pc = .errorBody st)) →
      forgetLog (step s (.resume tid (.threw { name := name, message := m1 })))
        = forgetLog (step s (.resume tid (.threw { name := name, message := m2 }))) ∧
      (isAborted s.controllers r.controller = false →
        (relayAt (step s (.resume tid (.threw { name := name, message := m1 }))) tid).map
            (fun x => x.res.frames)
          = some (r.res.frames ++ [.error (u16 "AI service unavailable") (some r.connectionId)]))) ∧
    (r.pc = .fetch →
      forgetLog (run s [.resume tid (.response st1 b1), .resume tid (.text t1)])
        = forgetLog (run s [.resume tid (.response st2 b2), .resume tid (.text t2)]) ∧
      (isAborted s.controllers r.controller = false →
        (relayAt (run s [.resume tid (.response st1 b1), .resume tid (.text t1)]) tid).map
            (fun x => x.res.frames)
          = some (r.res.frames ++ [.error (u16 "AI service unavailable") (some r.connectionId)]))) := by
  have hlt : tid < s.threads.length := by
    rcases Nat.lt_or_ge tid s.threads.length with h1 | h1
    · exact h1
    · rw [List.get?_eq_none.mpr h1] at hthread
      cases hthread
  have hok1 : (200 ≤ st1 && st1 ≤ 299) = false := by simpa using hst1
  have hok2 : (200 ≤ st2 && st2 ≤ 299) = false := by simpa using hst2
  have hname2 : (name = u16 "AbortError") = False := by simpa using hname
  have habort : ¬ (abortError.name = u16 "AbortError") = False := by simp [abortError]
  obtain ⟨req, connectionId, controller, heartbeat, fullResponse, res, pc⟩ := r
  dsimp only
  constructor
  · rintro (hpc | hpc | ⟨st, hpc⟩) <;> subst hpc
    all_goals
      rw [relayAt_step_resume s tid _ _ hthread, step_resume_relay s tid _ _ hthread,
        step_resume_relay s tid _ _ hthread]
      cases hab : isAborted s.controllers controller <;>
        simp [resumeRelay, streamCatch, finallyBlock, forgetLog, hname, hab, abortError,
          Response.write, Response.finish]
  · intro hpc
    subst hpc
    rw [run_bad_status s tid _ st1 b1 t1 hthread rfl hok1,
      run_bad_status s tid _ st2 b2 t2 hthread rfl hok2]
    have hne : ¬ (u16 "Error" = u16 "AbortError") := by decide
    cases hab : isAborted s.controllers controller <;>
      simp [streamCatch, finallyBlock, forgetLog, abortError, relayAt, hlt, hne,
        Response.write, Response.finish]

/-- A push adds at most one turn to the conversation it addresses. -/
theorem turnCount_push (m : Message) (chatId : ChatId) (userId : UserId) (chats : List Chat) :
    turnCount (findOneAndUpdate (pushMessage m) chatId userId chats).1 chatId userId
      ≤ turnCount chats chatId userId + 1 := by
  unfold turnCount
  rw [findOne_findOneAndUpdate (pushMessage m) _ _ (fun c => ⟨rfl, rfl⟩)]
  cases findOne chats chatId userId <;> simp [pushMessage]

/-- A title update leaves the number of turns as it is. -/
theorem turnCount_setTitle (title : JSStr) (chatId : ChatId) (userId : UserId)
    (chats : List Chat) :
    turnCount (findOneAndUpdate (setTitle title) chatId userId chats).1 chatId userId
      = turnCount chats chatId userId := by
  unfold turnCount
  rw [findOne_findOneAndUpdate (setTitle title) _ _ (fun c => ⟨rfl, rfl⟩)]
  cases findOne chats chatId userId <;> simp [setTitle]

/-- Forwarding tokens keeps the request and leaves one turn to append. -/
theorem forwardTokens_credit (r : Relay) (tokens : List Json) :
    (forwardTokens r tokens).req = r.req ∧ credit (forwardTokens r tokens).pc = 1 := by
  induction tokens generalizing r with
  | nil => exact ⟨rfl, rfl⟩
  | cons t rest ih =>
    unfold forwardTokens
    dsimp only
    cases t.toJSStr with
    | some text => exact ⟨rfl, rfl⟩
    | none => exact ih _

/-- One step of a relay: the turns of its conversation plus the turns it may
still append do not grow, and at the cap it changes nothing. -/
theorem resumeRelay_turns (s : State) (r : Relay) (o : Outcome) :
    (resumeRelay s r o).2.req = r.req ∧
    turnCount (resumeRelay s r o).1.chats r.req.chatId r.req.userId
        + credit (resumeRelay s r o).2.pc
      ≤ turnCount s.chats r.req.chatId r.req.userId + credit r.pc ∧
    ((r.pc = .findChat ∨ r.pc = .finished) →
      50 ≤ turnCount s.chats r.req.chatId r.req.userId →
      (resumeRelay s r o).1.chats = s.chats ∧
      ((resumeRelay s r o).2.pc = .findChat ∨ (resumeRelay s r o).2.pc = .finished)) := by
  obtain ⟨req, connectionId, controller, heartbeat, fullResponse, res, pc⟩ := r
  cases pc <;> cases o <;>
    simp [resumeRelay, serverCatch, streamCatch, finallyBlock, registerSession, streamComplete,
      credit, forwardTokens_credit]
  all_goals (repeat' split)
  all_goals (try simp_all [credit, forwardTokens_credit, turnCount_setTitle, MAX_MESSAGES_PER_CHAT])
  all_goals
    first
    | exact le_trans (turnCount_push _ _ _ _) (by omega)
    | simp_all [turnCount]
    | (rename_i h
       have h2 := congrArg credit h
       rw [(forwardTokens_credit _ _).2] at h2
       simp [credit] at h2)

/-- The document returned by an update is the addressed conversation with the
update applied. -/
theorem findOneAndUpdate_snd (update : Chat → Chat) (chatId : ChatId) (userId : UserId)
    (chats : List Chat) :
    (findOneAndUpdate update chatId userId chats).2 = (findOne chats chatId userId).map update := by
  induction chats with
  | nil => rfl
  | cons c cs ih =>
    unfold findOneAndUpdate
    by_cases hmatch : (c.id = chatId && c.userId = userId) = true
    · rw [if_pos hmatch]
      simp only [findOne, List.find?_cons, hmatch, Option.map_some']
    · rw [if_neg hmatch]
      have hmatch2 : (c.id = chatId && c.userId = userId) = false := by simpa using hmatch
      simp only [findOne, List.find?_cons, hmatch2] at ih ⊢
      exact ih

/-- A request that runs alone: whatever its awaited operations answer, the
turns of its conversation plus the turns it may still append stay within two
of the count `chats0` held, and a conversation at the cap is left as it was. -/
theorem run_alone_turns (req : AddReq) (chats0 : List Chat) (outcomes : List Outcome) :
    ∀ (s : State) (r : Relay), s.threads = [.relay r] → r.req = req →
      turnCount s.chats req.chatId req.userId + credit r.pc
        ≤ turnCount chats0 req.chatId req.userId + 2 →
      (50 ≤ turnCount chats0 req.chatId req.userId →
        s.chats = chats0 ∧ (r.pc = .findChat ∨ r.pc = .finished)) →
      turnCount (run s (outcomes.map (Action.resume 0))).chats req.chatId req.userId
          ≤ turnCount chats0 req.chatId req.userId + 2 ∧
      (50 ≤ turnCount chats0 req.chatId req.userId →
        (run s (outcomes.map (Action.resume 0))).chats = chats0) := by
  induction outcomes with
  | nil =>
    intro s r _ _ hle hcap
    exact ⟨le_trans (Nat.le_add_right _ _) hle, fun h => (hcap h).1⟩
  | cons o rest ih =>
    intro s r hthreads hreq hle hcap
    have hget : s.threads.get? 0 = some (.relay r) := by rw [hthreads]; rfl
    obtain ⟨hreq2, hle2, hcap2⟩ := resumeRelay_turns s r o
    rw [hreq] at hle2 hcap2
    simp only [List.map_cons, run, List.foldl_cons]
    rw [step_resume_relay s 0 r o hget]
    refine ih _ (resumeRelay s r o).2 ?_ (hreq2.trans hreq) (le_trans hle2 hle) ?_
    · simp [hthreads]
    · intro h50
      obtain ⟨hchats, hpc⟩ := hcap h50
      have h50s : 50 ≤ turnCount s.chats req.chatId req.userId := by rw [hchats]; exact h50
      obtain ⟨hkeep, hpc2⟩ := hcap2 hpc h50s
      exact ⟨hkeep.trans hchats, hpc2⟩

/-- C9 (amended): the cap is checked once, when `addMessageToChat` reads the
conversation.  A request that runs alone on a conversation of `n` turns leaves
at most `n + 2` turns whatever its awaited operations answer (so at most 51
from fewer than 50), and leaves the store untouched when `n` is 50 or more;
`savePartialResponse` and `updateChatWithMessage` append their turn to a
conversation of any length. -/
theorem C9_cap_is_checked_on_admission_only (s : State) (req : AddReq) (random : JSStr)
    (outcomes : List Outcome) (hidle : s.threads = []) :
    turnCount (run s (.addMessageToChat req random :: outcomes.map (Action.resume 0))).chats
        req.chatId req.userId ≤ turnCount s.chats req.chatId req.userId + 2 ∧
    (50 ≤ turnCount s.chats req.chatId req.userId →
      (run s (.addMessageToChat req random :: outcomes.map (Action.resume 0))).chats = s.chats) ∧
    (∀ chatId userId responseText c, findOne s.chats chatId userId = some c →
      findOne (savePartialResponse s chatId userId responseText .ok).chats chatId userId
        = some { c with messages := c.messages ++ [MessageSchema (partialMessage responseText)] }) ∧
    (∀ (upd : UpdateReq) (message : Message) c, upd.message = some message →
      trim message.text ≠ [] → findOne s.chats upd.chatId upd.userId = some c →
      findOne (updateChatWithMessage s.chats upd .ok).1 upd.chatId upd.userId
        = some { c with messages := c.messages ++ [MessageSchema message] }) := by
  obtain ⟨r, hthreads, hreq, hr, hchats, _, _, _⟩ := startRelay_spec s req random
  rw [hidle, List.nil_append] at hthreads
  have hrun := run_alone_turns req s.chats outcomes (startRelay s req random) r hthreads hreq
    (by
      rw [hchats]
      rcases hr with ⟨hpc, _⟩ | ⟨hpc, _⟩ <;> simp [hpc, credit])
    (fun _ => ⟨hchats, by rcases hr with ⟨hpc, _⟩ | ⟨hpc, _⟩ <;> simp [hpc]⟩)
  refine ⟨hrun.1, hrun.2, ?_, ?_⟩
  · intro chatId userId responseText c hc
    simp only [savePartialResponse]
    rw [findOne_findOneAndUpdate (pushMessage (partialMessage responseText)) _ _
      (fun c => ⟨rfl, rfl⟩), hc]
    rfl
  · intro upd message c hmsg htext hc
    have hfound := findOne_findOneAndUpdate (pushMessage message) upd.chatId upd.userId
      (fun c => ⟨rfl, rfl⟩) s.chats
    have hsnd := findOneAndUpdate_snd (pushMessage message) upd.chatId upd.userId s.chats
    rw [hc] at hfound hsnd
    have hne : (!truthy message.text || (trim message.text).isEmpty) = false := by
      have h1 : message.text ≠ [] := by
        intro h
        apply htext
        rw [h]
        rfl
      simp [truthy, List.isEmpty_iff, h1, htext]
    unfold updateChatWithMessage
    rw [hmsg]
    dsimp only
    rw [hne]
    cases hpair : findOneAndUpdate (pushMessage message) upd.chatId upd.userId s.chats with
    | mk chats1 found =>
      rw [hpair] at hfound hsnd
      dsimp only at hfound hsnd
      subst hsnd
      exact hfound

/-- C5 (amended) at "Full answer.": after the end of the stream and the store
write, `askedChat` holds its user turn and one full assistant turn. -/
theorem C5_full_answer_witness :
    (answered.threads.get? 0 = some (.relay answeredRelay) ∧ answeredRelay.pc = .read ∧
      (step answered (.resume 0 .done)).threads.get? 0 = some (.relay savingRelay) ∧
      savingRelay.pc = .saveFull ∧
      findOne (step answered (.resume 0 .done)).chats savingRelay.req.chatId
        savingRelay.req.userId = some askedChat) ∧
    findOne (step (step answered (.resume 0 .done)) (.resume 0 .ok)).chats
        savingRelay.req.chatId savingRelay.req.userId
      = some { askedChat with messages := askedChat.messages ++
          [{ role := u16 "assistant", text := savingRelay.fullResponse, files := [],
             reactions := [], stopped := false, isPartial := false }] } :=
  ⟨⟨by decide, rfl, by decide, rfl, by decide⟩,
   (C5_complete_event_then_one_full_turn answered 0 answeredRelay
      (step answered (.resume 0 .done)) savingRelay askedChat
      (by decide) rfl (by decide) rfl (by decide)).2.1⟩

/-- C7 at a relay awaiting `fetch`: a 500 with the body "quota exceeded" and a
429 without a body and the text "slow down" leave the same state up to the
log. -/
theorem C7_upstream_failure_witness :
    (fetching.threads.get? 0 = some (.relay fetchingRelay) ∧
      u16 "TypeError" ≠ u16 "AbortError" ∧ ¬ (200 ≤ 500 ∧ 500 ≤ 299) ∧ ¬ (200 ≤ 429 ∧ 429 ≤ 299)) ∧
    forgetLog (run fetching [.resume 0 (.response 500 true), .resume 0 (.text (u16 "quota exceeded"))])
      = forgetLog (run fetching [.resume 0 (.response 429 false), .resume 0 (.text (u16 "slow down"))]) :=
  ⟨⟨by decide, by decide, by decide, by decide⟩,
   ((C7_upstream_failure_leaks_nothing fetching 0 fetchingRelay (u16 "TypeError")
      (u16 "fetch failed") (u16 "socket hang up") 500 429 true false (u16 "quota exceeded")
      (u16 "slow down") (by decide) (by decide) (by decide) (by decide)).2 rfl).1⟩

/-- C9 (amended) at `longChat` with 49 turns and the schedule of
`answerOnLongChat`: the run ends within 51 turns. -/
theorem C9_admission_witness :
    (({ chats := [longChat] } : State).threads = []) ∧
    turnCount (run { chats := [longChat] }
        (.addMessageToChat { chatId := 2, userId := 7, role := u16 "user",
                             userText := some (u16 "Hi") } [] ::
          [Outcome.ok, .ok, .memories [], .response 200 true, .chunk (frame "Full answer."),
            .timer, .done, .ok].map (Action.resume 0))).chats 2 7
      ≤ turnCount [longChat] 2 7 + 2 :=
  ⟨rfl,
   (C9_cap_is_checked_on_admission_only { chats := [longChat] }
      { chatId := 2, userId := 7, role := u16 "user", userText := some (u16 "Hi") } []
      [Outcome.ok, .ok, .memories [], .response 200 true, .chunk (frame "Full answer."),
        .timer, .done, .ok] rfl).1⟩

/-- C11, for the conversation of fifteen turns "t1" to "t15" and the new message
"Hi": the window of the prompt holds the nine prior turns "t7" to "t15" and,
as its tenth entry, the new message itself, which then appears again as the
new user line. -/
theorem C11_window_holds_nine_prior_turns_and_the_new_message :
    (run { chats := [fifteenChat] } askFifteen).fetchCalls.map
        (fun call => (last10messages call.history).map (fun m => m.text))
      = [[u16 "t7", u16 "t8", u16 "t9", u16 "t10", u16 "t11", u16 "t12", u16 "t13", u16 "t14",
          u16 "t15", u16 "Hi"]] ∧
    (run { chats := [fifteenChat] } askFifteen).fetchCalls.map
        (fun call => (conversationHistory call.userId call.history,
                      currentMessagePrompt call.userText call.files))
      = [(u16 ("user: t7\nassistant: t8\nuser: t9\nassistant: t10\nuser: t11\n" ++
               "assistant: t12\nuser: t13\nassistant: t14\nuser: t15\nuser: Hi"),
          u16 "Hi")] := by
  decide

/-- The filter of line 189 removes no turn: the window is the last ten turns. -/
theorem last10messages_eq_drop (L : List Message) :
    last10messages L = L.drop (L.length - 10) := by
  have hall : L.filter (fun msg => !((MessageSchema msg).stopped = true)) = L := by
    rw [List.filter_eq_self]
    intro msg _
    rfl
  unfold last10messages
  rw [hall]

/-- C12: of eleven stored turns whose fifth is the document that
`savePartialResponse` pushes (`stopped: true`), the claim's window is the ten
other turns, first turn included; the window of the code is the last ten
turns, the stopped one among them and the first turn left out.  Through the
store: after a stop has saved "Hello wor", the window of the next request
holds that turn. -/
theorem C12_stopped_turn_takes_a_window_slot :
    (claimedWindow stoppedHistory).map (fun m => m.text)
      = [u16 "t1", u16 "t2", u16 "t3", u16 "t4", u16 "t6", u16 "t7", u16 "t8", u16 "t9",
         u16 "t10", u16 "t11"] ∧
    (last10messages stoppedHistory).map (fun m => (m.text, m.stopped))
      = [(u16 "t2", false), (u16 "t3", false), (u16 "t4", false), (u16 "cut off", true),
         (u16 "t6", false), (u16 "t7", false), (u16 "t8", false), (u16 "t9", false),
         (u16 "t10", false), (u16 "t11", false)] ∧
    (run demoState stopThenAsk).fetchCalls.map
        (fun call => (last10messages call.history).map (fun m => m.text))
      = [[u16 "Hi"], [u16 "Hi", u16 "Hello wor", u16 "Again"]] := by
  decide

/-- C13, for a stop that saves "Hello wor" and a later request "Again": the
turn read back from the store carries neither `stopped` nor `partial`, and
the window of the later request holds it. -/
theorem C13_saved_partial_turn_loses_its_flags :
    (turnsOf (run demoState stopThenAsk) 1 7).map (fun m => (m.text, m.stopped, m.isPartial))
      = [(u16 "Hi", false, false), (u16 "Hello wor", false, false), (u16 "Again", false, false)] ∧
    (run demoState stopThenAsk).fetchCalls.map
        (fun call => conversationHistory call.userId call.history)
      = [u16 "user: Hi", u16 "user: Hi\nassistant: Hello wor\nuser: Again"] := by
  decide

/-- C14 as stated fails for a text with a leading blank: for " Hi" the words
of the claim give " Hi", and the stored title is "Hi". -/
theorem C14_title_of_padded_text_is_trimmed :
    claimedTitle (u16 " Hi") = u16 " Hi" ∧
    (findOne (run demoState askWithLeadingSpace).chats 1 7).map (fun c => c.title)
      = some (u16 "Hi") := by
  decide

/-- Trimming a text that ends in a character `trim` keeps removes nothing at
its end. -/
theorem trim_append_kept (s : JSStr) (c : Nat) (hc : isTrimUnit c = false) :
    trim (s ++ [c]) = (s ++ [c]).dropWhile isTrimUnit := by
  unfold trim
  have hne : (s ++ [c]).dropWhile isTrimUnit ≠ [] := by
    induction s with
    | nil => simp [List.dropWhile, hc]
    | cons a s ih =>
      by_cases ha : isTrimUnit a = true
      · simpa [List.dropWhile, ha] using ih
      · simp [List.dropWhile, ha]
  have hlast : ((s ++ [c]).dropWhile isTrimUnit).getLast? = some c := by
    have hsuffix : (s ++ [c]).dropWhile isTrimUnit <:+ s ++ [c] := List.dropWhile_suffix _
    obtain ⟨pre, hpre⟩ := hsuffix
    have h1 : (pre ++ (s ++ [c]).dropWhile isTrimUnit).getLast? = some c := by
      rw [hpre]; simp
    rwa [List.getLast?_append_of_ne_nil _ hne] at h1
  obtain ⟨front, hfront⟩ : ∃ front, (s ++ [c]).dropWhile isTrimUnit = front ++ [c] := by
    have := List.dropLast_append_getLast? c hlast
    exact ⟨_, this.symm⟩
  rw [hfront]
  simp [List.reverse_append, List.dropWhile, hc]

/-- The relay's step at `Chat.findOne` for the first user message of a
conversation below the cap: it goes on to store the derived title. -/
theorem resumeRelay_findChat_first (s : State) (r : Relay) (c : Chat) (text : JSStr)
    (hpc : r.pc = .findChat)
    (hc : findOne s.chats r.req.chatId r.req.userId = some c)
    (hroom : c.messages.length < 50)
    (hfirst : ∀ m ∈ c.messages, m.role ≠ u16 "user")
    (hrole : r.req.role = u16 "user") (htext : r.req.userText = some text) :
    resumeRelay s r .ok = (s, { r with pc := .saveTitle (deriveTitle text) }) := by
  obtain ⟨req, connectionId, controller, heartbeat, fullResponse, res, pc⟩ := r
  dsimp only at hpc hc hrole htext
  subst hpc
  have hroom2 : ¬ c.messages.length ≥ MAX_MESSAGES_PER_CHAT := by
    simp only [MAX_MESSAGES_PER_CHAT]; omega
  have hnone : (c.messages.filter (fun msg => msg.role = u16 "user")).length = 0 := by
    rw [List.length_eq_zero, List.filter_eq_nil_iff]
    intro m hm
    simpa using hfirst m hm
  simp [resumeRelay, hc, hroom2, hnone, hrole, htext]

/-- C14 (amended): for the first user message `text` of a conversation, the
stored title is the title the claim words, with leading and trailing
whitespace removed by `trim()`: for a text of more than 25 code units it is
the first 25 code units without the markdown characters and without leading
whitespace, followed by "...". -/
theorem C14_stored_title_is_trimmed (s : State) (tid : Nat) (r : Relay) (c : Chat)
    (text : JSStr)
    (hthread : s.threads.get? tid = some (.relay r)) (hpc : r.pc = .findChat)
    (hc : findOne s.chats r.req.chatId r.req.userId = some c)
    (hroom : c.messages.length < 50)
    (hfirst : ∀ m ∈ c.messages, m.role ≠ u16 "user")
    (hrole : r.req.role = u16 "user") (htext : r.req.userText = some text) :
    (findOne (run s [.resume tid .ok, .resume tid .ok]).chats r.req.chatId r.req.userId).map
        (fun chat => chat.title) = some (trim (claimedTitle text)) ∧
    (text.length ≤ 25 → trim (claimedTitle text) = trim (stripMarkdown text)) ∧
    (25 < text.length →
      trim (claimedTitle text)
        = (stripMarkdown (text.take 25)).dropWhile isTrimUnit ++ u16 "...") := by
  refine ⟨?_, ?_, ?_⟩
  · have hderive : deriveTitle text = trim (claimedTitle text) := by
      unfold deriveTitle claimedTitle stripMarkdown
      split <;> rfl
    simp only [run, List.foldl]
    have hfirstStep := threads_step_resume s tid r .ok hthread
    rw [resumeRelay_findChat_first s r c text hpc hc hroom hfirst hrole htext] at hfirstStep
    rw [step_resume_relay _ tid _ .ok hfirstStep, step_resume_relay s tid r .ok hthread,
      resumeRelay_findChat_first s r c text hpc hc hroom hfirst hrole htext]
    simp only [resumeRelay, registerSession]
    rw [findOne_findOneAndUpdate (setTitle (deriveTitle text)) _ _ (fun c => ⟨rfl, rfl⟩), hc,
      hderive]
    rfl
  · intro hshort
    simp only [claimedTitle, hshort, if_true]
  · intro hlong
    have hnot : ¬ text.length ≤ 25 := by omega
    have hdots : stripMarkdown (text.take 25 ++ u16 "...")
        = (stripMarkdown (text.take 25) ++ [46, 46]) ++ [46] := by
      have h3 : u16 "..." = [46, 46, 46] := by decide
      simp [stripMarkdown, h3]
    simp only [claimedTitle, hnot, if_false]
    rw [hdots, trim_append_kept _ 46 (by decide)]
    have h3 : u16 "..." = [46, 46, 46] := by decide
    rw [h3, List.append_assoc, List.dropWhile_append]
    split
    · rename_i hempty
      have hnil : (stripMarkdown (text.take 25)).dropWhile isTrimUnit = [] := by
        simpa using hempty
      rw [hnil]
      decide
    · simp

/-- C14 (amended) at the text of the specification: the stored title is
"Can you help me prepare f...". -/
theorem C14_title_witness :
    (({ demoState with threads := [.relay interviewRelay] } : State).threads.get? 0
        = some (.relay interviewRelay) ∧
      findOne demoState.chats interviewRelay.req.chatId interviewRelay.req.userId = some demoChat ∧
      demoChat.messages.length < 50) ∧
    (findOne (run { demoState with threads := [.relay interviewRelay] }
        [.resume 0 .ok, .resume 0 .ok]).chats 1 7).map (fun chat => chat.title)
      = some (trim (claimedTitle
          (u16 "Can you help me prepare for a Google SWE interview next week"))) ∧
    trim (claimedTitle (u16 "Can you help me prepare for a Google SWE interview next week"))
      = u16 "Can you help me prepare f..." :=
  ⟨⟨rfl, by decide, by decide⟩,
   (C14_stored_title_is_trimmed { demoState with threads := [.relay interviewRelay] } 0
      interviewRelay demoChat (u16 "Can you help me prepare for a Google SWE interview next week")
      rfl rfl (by decide) (by decide) (by intro m hm; cases hm) rfl rfl).1,
   by decide⟩

/-- The reaction that the assembler picks for a user who has exactly one
reaction on the turn. -/
theorem find_own_reaction (userId : UserId) (reactions : List Reaction) (x : Reaction)
    (hmem : x ∈ reactions) (huser : x.userId = userId)
    (hone : ∀ y ∈ reactions, y.userId = userId → y = x) :
    reactions.find? (fun r => r.userId = userId) = some x := by
  cases hfind : reactions.find? (fun r => r.userId = userId) with
  | none =>
    have := List.find?_eq_none.mp hfind x hmem
    simp [huser] at this
  | some y =>
    have hy := List.find?_some hfind
    have hymem := List.mem_of_find?_eq_some hfind
    rw [hone y hymem (by simpa using hy)]

/-- A rendered turn of the window occurs as a whole in the history string. -/
theorem joinWith_mem (sep : JSStr) (items : List JSStr) (x : JSStr) (hx : x ∈ items) :
    ∃ before after, joinWith sep items = before ++ x ++ after := by
  induction items with
  | nil => cases hx
  | cons a rest ih =>
    cases rest with
    | nil =>
      have hxa : x = a := by simpa using hx
      exact ⟨[], [], by simp [joinWith, hxa]⟩
    | cons b rest2 =>
      rcases List.mem_cons.mp hx with hxa | hrest
      · exact ⟨[], sep ++ joinWith sep (b :: rest2), by simp [joinWith, hxa]⟩
      · obtain ⟨before, after, hjoin⟩ := ih hrest
        exact ⟨a ++ sep ++ before, after, by simp [joinWith, hjoin]⟩

/-- C15: an assistant turn on which the requesting user has one reaction, a
dislike with reason code `reason` and no custom text, is rendered as the line
"[User disliked this response 👎 - Reason: reason]" followed by the turn's own
text, and when the turn is in the window that rendering is part of the
assembled history. -/
theorem C15_dislike_reason_is_rendered (userId : UserId) (msg : Message) (x : Reaction)
    (reason : JSStr) (history : List Message)
    (hrole : msg.role = u16 "assistant")
    (hmem : x ∈ msg.reactions) (huser : x.userId = userId)
    (hone : ∀ y ∈ msg.reactions, y.userId = userId → y = x)
    (htype : x.type = u16 "dislike") (hreason : x.dislikeReason = some reason)
    (hcode : reason ≠ []) (hcustom : x.customReason = []) :
    renderMessage userId msg
      = u16 "[User disliked this response 👎 - Reason: " ++ reason ++ u16 "]\n" ++ messageBody msg ∧
    (msg ∈ last10messages history →
      ∃ before after, conversationHistory userId history
        = before ++ (u16 "[User disliked this response 👎 - Reason: " ++ reason ++ u16 "]\n" ++
            messageBody msg) ++ after) := by
  have hrender : renderMessage userId msg
      = u16 "[User disliked this response 👎 - Reason: " ++ reason ++ u16 "]\n" ++ messageBody msg := by
    have hfind := find_own_reaction userId msg.reactions x hmem huser hone
    have hlen : msg.reactions.length > 0 := List.length_pos_of_mem hmem
    have hne : ¬ (u16 "dislike" = u16 "like") := by decide
    have hopen : u16 "[User disliked this response 👎 - Reason: "
        = u16 "[User disliked this response 👎" ++ u16 " - Reason: " := by decide
    simp [renderMessage, feedbackIndicator, hrole, hlen, hfind, htype, hne, dislikeDetail, hreason,
      truthy, hcode, hcustom, hopen]
  refine ⟨hrender, ?_⟩
  intro hwindow
  rw [← hrender]
  exact joinWith_mem _ _ _ (List.mem_map_of_mem _ hwindow)

/-- C15 at the reason code `too_short`: the turn disliked by user 7 is rendered
with the line "[User disliked this response 👎 - Reason: too_short]". -/
theorem C15_too_short_witness :
    (dislikedTurn.role = u16 "assistant" ∧
      ({ userId := 7, type := u16 "dislike", dislikeReason := some (u16 "too_short") } : Reaction)
        ∈ dislikedTurn.reactions) ∧
    renderMessage 7 dislikedTurn
      = u16 "[User disliked this response 👎 - Reason: " ++ u16 "too_short" ++ u16 "]\n" ++
          messageBody dislikedTurn :=
  ⟨⟨rfl, by decide⟩,
   (C15_dislike_reason_is_rendered 7 dislikedTurn
      { userId := 7, type := u16 "dislike", dislikeReason := some (u16 "too_short") }
      (u16 "too_short") [] rfl (by decide) rfl (by decide) rfl rfl (by decide) rfl).1⟩

/-- The annotation of a turn is decided by its role and by the first reaction
of the requesting user: the test `reactions.length > 0` adds nothing. -/
theorem feedbackIndicator_eq (userId : UserId) (msg : Message) :
    feedbackIndicator userId msg
      = if msg.role = u16 "assistant" then
          match (msg.reactions.filter (fun r => r.userId = userId)).head? with
          | none => []
          | some userReaction =>
            if userReaction.type = u16 "like" then u16 "[User liked this response 👍]\n"
            else if userReaction.type = u16 "dislike" then
              u16 "[User disliked this response 👎" ++ dislikeDetail userReaction ++ u16 "]\n"
            else []
        else [] := by
  unfold feedbackIndicator
  rw [List.filter_head?]
  by_cases hrole : msg.role = u16 "assistant"
  · cases hreactions : msg.reactions with
    | nil => simp [hrole]
    | cons a rest => simp [hrole]
  · simp [hrole]

/-- Turns that agree for the user are rendered alike. -/
theorem renderMessage_sameForUser (userId : UserId) (a b : Message)
    (h : sameForUser userId a b) : renderMessage userId a = renderMessage userId b := by
  obtain ⟨hrole, htext, hfiles, _, hreactions⟩ := h
  have hbody : messageBody a = messageBody b := by
    simp only [messageBody, hrole, htext, hfiles]
  have hann : feedbackIndicator userId a = feedbackIndicator userId b := by
    rw [feedbackIndicator_eq, feedbackIndicator_eq, ← hrole]
    by_cases hassistant : a.role = u16 "assistant"
    · rw [hreactions hassistant]
    · simp [hassistant]
  rw [renderMessage, renderMessage, hbody, hann]

/-- Histories that agree turn by turn for the user have the same rendered
turns. -/
theorem rendered_sameForUser (userId : UserId) (h1 h2 : List Message)
    (h : List.Forall₂ (sameForUser userId) h1 h2) :
    h1.map (renderMessage userId) = h2.map (renderMessage userId) := by
  induction h with
  | nil => rfl
  | @cons a b l1 l2 hab _ ih =>
    have hrender := renderMessage_sameForUser userId a b hab
    simp only [List.map_cons, hrender, ih]

/-- The history string is a function of the rendered turns. -/
theorem conversationHistory_eq (userId : UserId) (history : List Message) :
    conversationHistory userId history
      = joinWith (u16 "\n")
          ((history.map (renderMessage userId)).drop
            ((history.map (renderMessage userId)).length - 10)) := by
  simp [conversationHistory, last10messages_eq_drop, List.map_drop]

/-- C16: a rendered turn carries a reaction annotation exactly when it is an
assistant turn and the reaction the assembler finds for the requesting user is
a like or a dislike; and two histories that agree turn by turn except for
reactions of other users and reactions on turns of another role give the same
prompt. -/
theorem C16_indicator_depends_on_own_reaction_only (userId : UserId) (msg : Message)
    (call : FetchCall) (h1 h2 : List Message)
    (hsame : List.Forall₂ (sameForUser call.userId) h1 h2) :
    (feedbackIndicator userId msg ≠ [] ↔
      msg.role = u16 "assistant" ∧
      ∃ x, msg.reactions.find? (fun r => r.userId = userId) = some x ∧
        (x.type = u16 "like" ∨ x.type = u16 "dislike")) ∧
    fullPrompt { call with history := h1 } = fullPrompt { call with history := h2 } := by
  constructor
  · rw [feedbackIndicator_eq, List.filter_head?]
    by_cases hrole : msg.role = u16 "assistant"
    · cases hfind : msg.reactions.find? (fun r => r.userId = userId) with
      | none => simp [hrole]
      | some x =>
        by_cases hlike : x.type = u16 "like"
        · have hne : u16 "[User liked this response 👍]\n" ≠ [] := by decide
          simp [hrole, hlike, hne]
        · by_cases hdislike : x.type = u16 "dislike"
          · have hne : u16 "[User disliked this response 👎" ≠ [] := by decide
            have hne2 : ¬ (u16 "dislike" = u16 "like") := by decide
            simp [hrole, hdislike, hne, hne2]
          · simp [hrole, hlike, hdislike]
    · simp [hrole]
  · have hhistory : conversationHistory call.userId h1 = conversationHistory call.userId h2 := by
      rw [conversationHistory_eq, conversationHistory_eq,
        rendered_sameForUser call.userId h1 h2 hsame]
    simp only [fullPrompt, hhistory]

/-- C16 at the turn disliked by user 7: with or without the like of user 8
the prompt of user 7 is the same. -/
theorem C16_foreign_reaction_witness :
    List.Forall₂ (sameForUser 7) [dislikedTurn] [dislikedTurnAlone] ∧
    fullPrompt { controller := 0, userId := 7, history := [dislikedTurn], userText := u16 "Hi",
                 files := [], memories := [] }
      = fullPrompt { controller := 0, userId := 7, history := [dislikedTurnAlone],
                     userText := u16 "Hi", files := [], memories := [] } :=
  ⟨List.Forall₂.cons ⟨rfl, rfl, rfl, rfl, fun _ => by decide⟩ List.Forall₂.nil,
   (C16_indicator_depends_on_own_reaction_only 7 dislikedTurn
      { controller := 0, userId := 7, history := [], userText := u16 "Hi", files := [],
        memories := [] }
      [dislikedTurn] [dislikedTurnAlone]
      (List.Forall₂.cons ⟨rfl, rfl, rfl, rfl, fun _ => by decide⟩ List.Forall₂.nil)).2⟩

/-- A join is empty only for no items or a single empty one; with a non-empty
first item it is not empty. -/
theorem joinWith_ne_nil (sep x : JSStr) (rest : List JSStr) (hx : x ≠ []) :
    joinWith sep (x :: rest) ≠ [] := by
  cases rest with
  | nil => simpa [joinWith] using hx
  | cons y rest2 => simp [joinWith, hx]

/-- A rendered turn is never empty: it holds the separator after the role. -/
theorem renderMessage_ne_nil (userId : UserId) (msg : Message) :
    renderMessage userId msg ≠ [] := by
  have hsep : u16 ": " ≠ [] := by decide
  unfold renderMessage messageBody
  split <;> simp [hsep]

/-- C17: the prompt is the system-instructions block, then the memory block,
then the history block, then the new user line.  The memory block is empty
exactly when the search brought no snippet, and otherwise it is the heading,
the snippets and a blank line; the history block is empty exactly when the
window is empty, and otherwise it is the rendered window and a blank line.
So the prompt starts with the system instructions and ends with the new user
line. -/
theorem C17_prompt_order_is_fixed (call : FetchCall) :
    ∃ memoryBlock historyBlock,
      fullPrompt call = systemInstructions ++ memoryBlock ++ historyBlock ++
        (u16 "user: " ++ currentMessagePrompt call.userText call.files) ∧
      (memoryBlock = [] ↔ call.memories = []) ∧
      (memoryBlock = if call.memories = [] then []
        else u16 "Relevant user memory:\n" ++
          joinWith (u16 "\n\n---\n\n")
            (call.memories.map (fun m => u16 "[" ++ m.type ++ u16 "] " ++ m.content)) ++
          u16 "\n\n") ∧
      (historyBlock = [] ↔ last10messages call.history = []) ∧
      (historyBlock = if last10messages call.history = [] then []
        else joinWith (u16 "\n")
          ((last10messages call.history).map (renderMessage call.userId)) ++ u16 "\n\n") ∧
      systemInstructions <+: fullPrompt call ∧
      (u16 "user: " ++ currentMessagePrompt call.userText call.files) <:+ fullPrompt call := by
  have hheading : u16 "Relevant user memory:\n" ≠ [] := by decide
  have hblank : u16 "\n\n" ≠ [] := by decide
  have hbracket : ∀ m : Memory, u16 "[" ++ m.type ++ u16 "] " ++ m.content ≠ [] := by
    intro m
    have h : u16 "[" ≠ [] := by decide
    simp [h]
  have hrag : truthy (ragContextText call.memories) = true ↔ call.memories ≠ [] := by
    cases hmem : call.memories with
    | nil => simp [ragContextText, truthy]
    | cons m rest =>
      have hjoin := joinWith_ne_nil (u16 "\n\n---\n\n") _
        (rest.map (fun m => u16 "[" ++ m.type ++ u16 "] " ++ m.content)) (hbracket m)
      simpa [ragContextText, truthy, List.isEmpty_iff] using hjoin
  have hhist : truthy (conversationHistory call.userId call.history) = true
      ↔ last10messages call.history ≠ [] := by
    unfold conversationHistory
    cases hwin : last10messages call.history with
    | nil => simp [joinWith, truthy]
    | cons msg rest =>
      have hjoin := joinWith_ne_nil (u16 "\n") _ (rest.map (renderMessage call.userId))
        (renderMessage_ne_nil call.userId msg)
      simpa [truthy, List.isEmpty_iff] using hjoin
  refine ⟨if truthy (ragContextText call.memories) then
      u16 "Relevant user memory:\n" ++ ragContextText call.memories ++ u16 "\n\n" else [],
    if truthy (conversationHistory call.userId call.history) then
      conversationHistory call.userId call.history ++ u16 "\n\n" else [],
    rfl, ?_, ?_, ?_, ?_, ?_, ?_⟩
  · by_cases hm : call.memories = []
    · rw [if_neg (fun h => hrag.mp h hm)]
      simp [hm]
    · rw [if_pos (hrag.mpr hm)]
      simp [hm, hheading]
  · by_cases hm : call.memories = []
    · rw [if_neg (fun h => hrag.mp h hm), if_pos hm]
    · have hlen : call.memories.length > 0 := List.length_pos.mpr hm
      rw [if_pos (hrag.mpr hm), if_neg hm]
      simp only [ragContextText, hlen, if_true]
  · by_cases hw : last10messages call.history = []
    · rw [if_neg (fun h => hhist.mp h hw)]
      simp [hw]
    · rw [if_pos (hhist.mpr hw)]
      simp [hw, hblank]
  · by_cases hw : last10messages call.history = []
    · rw [if_neg (fun h => hhist.mp h hw), if_pos hw]
    · rw [if_pos (hhist.mpr hw), if_neg hw]
      rfl
  · unfold fullPrompt
    rw [List.append_assoc, List.append_assoc]
    exact List.prefix_append _ _
  · exact ⟨_, rfl⟩

/-- The join of the controller is the library's `intercalate`: the items in
order with the separator between neighbours. -/
theorem joinWith_eq_intercalate (sep : JSStr) (items : List JSStr) :
    joinWith sep items = List.intercalate sep items := by
  induction items with
  | nil => rfl
  | cons x rest ih =>
    cases rest with
    | nil => simp [joinWith, List.intercalate]
    | cons y rest2 =>
      simp only [joinWith, ih]
      simp [List.intercalate, List.intersperse]

/-- C18: a turn with files is rendered as its annotation, its role, one
"[File: name] text" entry per file in file order on consecutive lines, and
then, on a line of its own, its text; a turn without files is rendered as its
annotation and "role: text".  The new message with files is the same file
lines followed by its text, and without files its text alone.  An entry shows
"No text extracted" when the extracted text is empty. -/
theorem C18_file_lines_precede_the_text (userId : UserId) (msg : Message) (userText : JSStr)
    (files : List FileRec) (file : FileRec) :
    renderMessage userId msg
      = feedbackIndicator userId msg ++
          (if msg.files = [] then msg.role ++ u16 ": " ++ msg.text
           else msg.role ++ u16 ": " ++ List.intercalate (u16 "\n") (msg.files.map fileLine) ++
             u16 "\nUser question: " ++ msg.text) ∧
    currentMessagePrompt userText files
      = (if files = [] then userText
         else List.intercalate (u16 "\n") (files.map fileLine) ++ u16 "\nUser question: " ++
           userText) ∧
    fileLine file
      = u16 "[File: " ++ file.filename ++ u16 "] " ++
          (if file.extractedText = [] then u16 "No text extracted" else file.extractedText) ∧
    (msg.files = [] → feedbackIndicator userId msg = [] →
      renderMessage userId msg = msg.role ++ u16 ": " ++ msg.text) := by
  have hrender : renderMessage userId msg
      = feedbackIndicator userId msg ++
          (if msg.files = [] then msg.role ++ u16 ": " ++ msg.text
           else msg.role ++ u16 ": " ++ List.intercalate (u16 "\n") (msg.files.map fileLine) ++
             u16 "\nUser question: " ++ msg.text) := by
    unfold renderMessage messageBody
    cases hfiles : msg.files with
    | nil => simp
    | cons f rest => simp [joinWith_eq_intercalate]
  refine ⟨hrender, ?_, ?_, ?_⟩
  · unfold currentMessagePrompt
    cases files with
    | nil => simp
    | cons f rest => simp [joinWith_eq_intercalate]
  · unfold fileLine truthy
    cases file.extractedText <;> simp
  · intro hfiles hann
    rw [hrender, hann, if_pos hfiles]
    rfl

/-- C18 at a user turn with two files, the second without extracted text. -/
theorem C18_two_files_witness :
    renderMessage 7
        { role := u16 "user", text := u16 "Compare them",
          files := [{ filename := u16 "cv.pdf", extractedText := u16 "Ten years of Go" },
                    { filename := u16 "scan.png" }] }
      = u16 "user: [File: cv.pdf] Ten years of Go\n[File: scan.png] No text extracted\nUser question: Compare them" ∧
    renderMessage 7 { role := u16 "user", text := u16 "Thanks" } = u16 "user: Thanks" :=
  ⟨by decide,
   (C18_file_lines_precede_the_text 7 { role := u16 "user", text := u16 "Thanks" } []
      [] { filename := [] }).2.2.2 rfl rfl⟩

/-- C19 as stated fails when a frame follows the sentinel inside a chunk of
whole lines: the words of the claim give the token "late", and the relay
forwards no token and completes with the empty text. -/
theorem C19_frame_after_sentinel_is_dropped :
    claimedTokens [doneLine ++ u16 "\n" ++ frame "late"] = [u16 "late"] ∧
    (relayAt (run reading (feedStream 0 [doneLine ++ u16 "\n" ++ frame "late"])) 0).map
        (fun r => r.res.frames)
      = some [.connection (u16 "c1"), .complete [] (u16 "c1")] := by
  decide

/-- The token loop from a list of tokens: either none of them can be
accumulated and the relay is back at `reader.read()` with all of them
written, or it waits in the timer after the first that can, with the tokens
up to that one written. -/
theorem forwardTokens_spec (r : Relay) (tokens : List Json) :
    (tokens.filterMap Json.toJSStr = [] ∧ forwardTokens r tokens = afterTokens r tokens) ∨
    (∃ pending, (forwardTokens r tokens).pc = .delay pending ∧ pending.length < tokens.length ∧
      (tokens.filterMap Json.toJSStr).length = (pending.filterMap Json.toJSStr).length + 1 ∧
      afterTokens (forwardTokens r tokens) pending = afterTokens r tokens) := by
  induction tokens generalizing r with
  | nil =>
    left
    refine ⟨rfl, ?_⟩
    simp [forwardTokens, afterTokens]
  | cons t rest ih =>
    unfold forwardTokens
    dsimp only
    cases ht : t.toJSStr with
    | some text =>
      right
      refine ⟨rest, rfl, by simp, by simp [List.filterMap_cons, ht], ?_⟩
      simp [afterTokens, Response.write, List.filterMap_cons, ht]
    | none =>
      dsimp only
      rcases ih { r with res := r.res.write (.token t.stringified r.connectionId) } with ⟨hnone, heq⟩ | ⟨pending, hpc, hlen, hcount, heq⟩
      · left
        refine ⟨by simp [List.filterMap_cons, ht, hnone], ?_⟩
        rw [heq]
        simp [afterTokens, Response.write, List.filterMap_cons, ht]
      · right
        refine ⟨pending, hpc, by simp; omega, by simp [List.filterMap_cons, ht, hcount], ?_⟩
        rw [heq]
        simp [afterTokens, Response.write, List.filterMap_cons, ht]

/-- The timers after the tokens of a chunk: the relay forwards the pending
tokens in order and is back at `reader.read()`; no cancellation handle
changes. -/
theorem run_timers (tid : Nat) (n : Nat) :
    ∀ (pending : List Json) (s : State) (r : Relay), pending.length ≤ n →
      s.threads.get? tid = some (.relay r) → r.pc = .delay pending →
      (run s (List.replicate ((pending.filterMap Json.toJSStr).length + 1)
          (Action.resume tid .timer))).threads.get? tid
          = some (.relay (afterTokens r pending)) ∧
      (run s (List.replicate ((pending.filterMap Json.toJSStr).length + 1)
          (Action.resume tid .timer))).controllers
          = s.controllers := by
  have hstep : ∀ (pending : List Json) (s : State) (r : Relay),
      s.threads.get? tid = some (.relay r) → r.pc = .delay pending →
      (step s (.resume tid .timer)).threads.get? tid
          = some (.relay (forwardTokens r pending)) ∧
      (step s (.resume tid .timer)).controllers = s.controllers := by
    intro pending s r hthread hpc
    obtain ⟨req, connectionId, controller, heartbeat, fullResponse, res, pc⟩ := r
    dsimp only at hpc
    subst hpc
    constructor
    · rw [threads_step_resume s tid _ .timer hthread]
      simp only [resumeRelay]
    · rw [step_resume_relay s tid _ .timer hthread]
      simp [resumeRelay]
  induction n with
  | zero =>
    intro pending s r hlen hthread hpc
    have hnil : pending = [] := List.length_eq_zero.mp (Nat.le_zero.mp hlen)
    subst hnil
    obtain ⟨h1, h2⟩ := hstep [] s r hthread hpc
    simp only [List.filterMap_nil, List.length_nil, Nat.zero_add, List.replicate, run, List.foldl]
    refine ⟨?_, h2⟩
    rw [h1]
    simp [forwardTokens, afterTokens]
  | succ n ih =>
    intro pending s r hlen hthread hpc
    obtain ⟨h1, h2⟩ := hstep pending s r hthread hpc
    rcases forwardTokens_spec r pending with ⟨hnone, heq⟩ | ⟨pending2, hpc2, hlen2, hcount, heq⟩
    · rw [hnone]
      simp only [List.length_nil, Nat.zero_add, List.replicate, run, List.foldl]
      refine ⟨?_, h2⟩
      rw [h1, heq]
    · rw [hcount]
      obtain ⟨h3, h4⟩ := ih pending2 _ _ (by omega) h1 hpc2
      simp only [List.replicate_succ, run, List.foldl_cons] at h3 h4 ⊢
      refine ⟨?_, h4.trans h2⟩
      rw [h3, heq]

/-- One chunk and its timers: a relay at `reader.read()` that was not aborted
forwards the tokens of the chunk and is back at `reader.read()`. -/
theorem run_feedChunk (tid : Nat) (chunk : JSStr) (s : State) (r : Relay)
    (hthread : s.threads.get? tid = some (.relay r)) (hpc : r.pc = .read)
    (hlive : isAborted s.controllers r.controller = false) :
    (run s (feedChunk tid chunk)).threads.get? tid
        = some (.relay (afterTokens r (chunkTokens chunk))) ∧
    (run s (feedChunk tid chunk)).controllers = s.controllers := by
  have hnext : (step s (.resume tid (.chunk chunk))).threads.get? tid
      = some (.relay (forwardTokens r (chunkTokens chunk))) := by
    rw [threads_step_resume s tid _ (.chunk chunk) hthread]
    obtain ⟨req, connectionId, controller, heartbeat, fullResponse, res, pc⟩ := r
    dsimp only at hpc hlive
    subst hpc
    simp only [resumeRelay, hlive]
    rfl
  have hctl : (step s (.resume tid (.chunk chunk))).controllers = s.controllers := by
    rw [step_resume_relay s tid _ _ hthread]
    obtain ⟨req, connectionId, controller, heartbeat, fullResponse, res, pc⟩ := r
    dsimp only at hpc hlive
    subst hpc
    simp [resumeRelay, hlive]
  simp only [feedChunk, run, List.foldl_cons]
  rcases forwardTokens_spec r (chunkTokens chunk) with ⟨hnone, heq⟩ | ⟨pending, hpc2, _, hcount, heq⟩
  · rw [hnone]
    simp only [List.length_nil, List.replicate, List.foldl_nil]
    refine ⟨?_, hctl⟩
    rw [hnext, heq]
  · rw [hcount]
    obtain ⟨h3, h4⟩ := run_timers tid pending.length pending _ _ (Nat.le_refl _) hnext hpc2
    simp only [run] at h3 h4
    refine ⟨?_, h4.trans hctl⟩
    rw [h3, heq]

/-- Forwarding tokens in two batches is forwarding them in one. -/
theorem afterTokens_append (r : Relay) (a b : List Json) :
    afterTokens (afterTokens r a) b = afterTokens r (a ++ b) := by
  simp [afterTokens]

/-- A sequence of chunks with their timers: the relay forwards the tokens of
all the chunks, in order. -/
theorem run_feedChunks (tid : Nat) (chunks : List JSStr) :
    ∀ (s : State) (r : Relay), s.threads.get? tid = some (.relay r) → r.pc = .read →
      isAborted s.controllers r.controller = false →
      (run s (chunks.flatMap (feedChunk tid))).threads.get? tid
          = some (.relay (afterTokens r (chunks.flatMap chunkTokens))) ∧
      (run s (chunks.flatMap (feedChunk tid))).controllers = s.controllers := by
  induction chunks with
  | nil =>
    intro s r hthread hpc _
    refine ⟨?_, rfl⟩
    obtain ⟨req, connectionId, controller, heartbeat, fullResponse, res, pc⟩ := r
    dsimp only at hpc
    subst hpc
    simpa [run, afterTokens] using hthread
  | cons chunk rest ih =>
    intro s r hthread hpc hlive
    obtain ⟨hthread1, hctl1⟩ := run_feedChunk tid chunk s r hthread hpc hlive
    have hlive1 : isAborted (run s (feedChunk tid chunk)).controllers
        (afterTokens r (chunkTokens chunk)).controller = false := by
      rw [hctl1]; exact hlive
    obtain ⟨hthread2, hctl2⟩ := ih _ _ hthread1 rfl hlive1
    have hrun : run s ((chunk :: rest).flatMap (feedChunk tid))
        = run (run s (feedChunk tid chunk)) (rest.flatMap (feedChunk tid)) := by
      simp [run, List.flatMap_cons, List.foldl_append]
    rw [hrun, List.flatMap_cons, ← afterTokens_append]
    exact ⟨hthread2, hctl2.trans hctl1⟩

/-- A text that ends in a character `trim` keeps is not all whitespace. -/
theorem dropWhile_kept_ne_nil (s : JSStr) (c : Nat) (hc : isTrimUnit c = false) :
    (s ++ [c]).dropWhile isTrimUnit ≠ [] := by
  induction s with
  | nil => simp [List.dropWhile, hc]
  | cons a s ih =>
    by_cases ha : isTrimUnit a = true
    · simpa [List.dropWhile, ha] using ih
    · simp [List.dropWhile, ha]

/-- A line that starts with "data: " is not blank. -/
theorem data_line_not_blank (line : JSStr) (hdata : startsWith line (u16 "data: ") = true) :
    (trim line).isEmpty = false := by
  have hprefix : u16 "data: " <+: line := List.isPrefixOf_iff_prefix.mp hdata
  obtain ⟨rest, hrest⟩ := hprefix
  have hline : line = 100 :: (u16 "ata: " ++ rest) := by
    rw [← hrest]
    have : u16 "data: " = 100 :: u16 "ata: " := by decide
    rw [this]
    rfl
  have hd : isTrimUnit 100 = false := by decide
  have hne := dropWhile_kept_ne_nil (u16 "ata: " ++ rest).reverse 100 hd
  rw [hline]
  simp only [trim, List.dropWhile_cons, hd, List.reverse_cons]
  simpa [List.isEmpty_iff] using hne

/-- The loop leaves at a line exactly when the line is the sentinel. -/
theorem lineEffect_stop_iff (line : JSStr) : lineEffect line = .stop ↔ line = doneLine := by
  have hdoneBlank : (trim doneLine).isEmpty = false := by decide
  unfold lineEffect
  by_cases hblank : (trim line).isEmpty = true
  · have hne : line ≠ doneLine := by
      intro h
      rw [h, hdoneBlank] at hblank
      cases hblank
    simp [hblank, hne]
  · by_cases hdone : line = u16 "data: [DONE]"
    · have hkept : trim (u16 "data: [DONE]") ≠ [] := by decide
      simp [hdone, doneLine, hkept]
    · have hne : line ≠ doneLine := hdone
      rw [if_neg hblank, if_neg hdone]
      constructor
      · intro h
        exfalso
        revert h
        split
        · split
          · simp
          · split <;> simp
        · simp
      · intro h
        exact absurd h hne

/-- The tokens of a list of lines are the tokens of the lines that precede the
first sentinel. -/
theorem linesTokens_eq (lines : List JSStr) :
    linesTokens lines = (lines.takeWhile (fun l => decide (l ≠ doneLine))).filterMap lineDelta := by
  induction lines with
  | nil => rfl
  | cons line rest ih =>
    by_cases hdone : line = doneLine
    · subst hdone
      have hstop := (lineEffect_stop_iff doneLine).mpr rfl
      simp [linesTokens, hstop, List.takeWhile]
    · have hnot : lineEffect line ≠ .stop := fun h => hdone ((lineEffect_stop_iff line).mp h)
      cases heffect : lineEffect line with
      | skip => simp [linesTokens, heffect, List.takeWhile, hdone, lineDelta, ih]
      | stop => exact absurd heffect hnot
      | token t => simp [linesTokens, heffect, List.takeWhile, hdone, lineDelta, ih]

/-- A value with an entry `0` is truthy. -/
theorem first_some_truthy (v c0 : Json) (h : v.first = some c0) : v.truthy = true := by
  cases v with
  | str text =>
    cases text with
    | nil => simp [Json.first] at h
    | cons c rest => simp [Json.truthy]
  | arr items => rfl
  | obj members => rfl
  | _ => simp [Json.first] at h

/-- A value with a key is an object, hence truthy and not `null`. -/
theorem prop_some_obj (v x : Json) (key : JSStr) (h : v.prop key = some x) :
    ∃ members, v = .obj members := by
  cases v with
  | obj members => exact ⟨members, rfl⟩
  | _ => simp [Json.prop] at h

/-- The token of a frame whose path `choices[0].delta.content` leads to a
truthy value. -/
theorem deltaToken_of_path (data choices c0 delta content : Json)
    (h1 : data.prop (u16 "choices") = some choices) (h2 : choices.first = some c0)
    (h3 : c0.prop (u16 "delta") = some delta) (h4 : delta.prop (u16 "content") = some content)
    (h5 : content.truthy = true) :
    deltaToken data = some content := by
  obtain ⟨members, hdata⟩ := prop_some_obj data choices _ h1
  obtain ⟨c0members, hc0⟩ := prop_some_obj c0 delta _ h3
  obtain ⟨dmembers, hd⟩ := prop_some_obj delta content _ h4
  subst hdata
  have hchoices := first_some_truthy choices c0 h2
  have hc0truthy : c0.truthy = true := by rw [hc0]; rfl
  have hdtruthy : delta.truthy = true := by rw [hd]; rfl
  simp only [deltaToken, h1, hchoices, h2, hc0truthy, h3, hdtruthy, h4, h5]
  simp

/-- A frame without a truthy delta at `choices[0].delta` yields no token. -/
theorem deltaToken_none_of_no_delta (data : Json)
    (h : ∀ d, frameDelta data = some d → d.truthy = false) : deltaToken data = none := by
  cases data with
  | obj members =>
    unfold frameDelta at h
    simp only [deltaToken]
    cases hchoices : Json.prop (.obj members) (u16 "choices") with
    | none => rfl
    | some choices =>
      simp only [hchoices] at h
      by_cases hct : choices.truthy = true
      · cases hfirst : choices.first with
        | none => simp [hct, hfirst]
        | some c0 =>
          simp only [hfirst] at h
          by_cases hc0 : c0.truthy = true
          · cases hdelta : c0.prop (u16 "delta") with
            | none => simp [hct, hfirst, hc0, hdelta]
            | some delta =>
              have hfalsy := h delta hdelta
              simp [hct, hfirst, hc0, hdelta, hfalsy]
          · simp [hct, hfirst, hc0]
      · simp [hct]
  | _ => simp [deltaToken, Json.prop]

/-- Every non-empty text delta of a well-formed frame is the token that the
loop forwards for that line. -/
theorem textDelta_lineDelta (line t : JSStr) (h : textDelta line = some t) :
    lineDelta line = some (.str t) := by
  unfold textDelta at h
  by_cases hdata : startsWith line (u16 "data: ") = true
  · rw [if_pos hdata] at h
    have hblank := data_line_not_blank line hdata
    cases hparse : JSON_parse (line.drop 6) with
    | none => simp [hparse] at h
    | some data =>
      have hnotdone : line ≠ u16 "data: [DONE]" := by
        intro hline
        have hnone : JSON_parse ((u16 "data: [DONE]").drop 6) = none := by rfl
        rw [hline, hnone] at hparse
        cases hparse
      simp only [hparse] at h
      have htoken : deltaToken data = some (.str t) := by
        unfold frameDelta at h
        cases hchoices : data.prop (u16 "choices") with
        | none => simp [hchoices] at h
        | some choices =>
          cases hfirst : choices.first with
          | none => simp [hchoices, hfirst] at h
          | some c0 =>
            cases hdelta : c0.prop (u16 "delta") with
            | none => simp [hchoices, hfirst, hdelta] at h
            | some delta =>
              cases hcontent : delta.prop (u16 "content") with
              | none => simp [hchoices, hfirst, hdelta, hcontent] at h
              | some content =>
                simp only [hchoices, hfirst, hdelta, hcontent] at h
                cases content with
                | str text =>
                  by_cases hempty : text.isEmpty = true
                  · simp [hempty] at h
                  · simp only [hempty] at h
                    have ht : text = t := by simpa using h
                    subst ht
                    have htruthy : (Json.str text).truthy = true := by
                      simpa [Json.truthy] using hempty
                    have := deltaToken_of_path data choices c0 delta (.str text) hchoices
                      hfirst hdelta hcontent htruthy
                    exact this
                | _ => simp at h
      simp [lineDelta, lineEffect, hblank, hnotdone, hdata, hparse, htoken]
  · simp [hdata] at h

/-- The string conversion of a list of text tokens gives the texts back. -/
theorem filterMap_toJSStr_str (texts : List JSStr) :
    (texts.map Json.str).filterMap Json.toJSStr = texts := by
  induction texts with
  | nil => rfl
  | cons t rest ih => simp [List.filterMap_cons, Json.toJSStr, ih]

/-- C19 (amended): a relay at `reader.read()` that is not aborted, fed any
sequence of chunks and then the end of the stream, writes one `token` event
per token of the chunks, in order, each carrying the value read from its
frame as `JSON.stringify` writes it, and then `complete` with the text
accumulated before followed by the concatenation of the string conversions of
those tokens (a value that cannot be converted is written and not
accumulated).  The tokens of a chunk are the tokens of its lines that precede
its first sentinel line; every non-empty text delta of a well-formed frame is
the token of its line, so that for chunks without a sentinel whose lines
yield text deltas only, the tokens are the text deltas of all the lines, each
written in a `token` event of its own, and the completed text is their
concatenation. -/
theorem C19_tokens_follow_the_frames_before_the_sentinel (s : State) (tid : Nat) (r : Relay)
    (chunks : List JSStr)
    (hthread : s.threads.get? tid = some (.relay r)) (hpc : r.pc = .read)
    (hlive : isAborted s.controllers r.controller = false) :
    (relayAt (run s (feedStream tid chunks)) tid).map (fun x => x.res.frames)
      = some (r.res.frames ++
          (chunks.flatMap chunkTokens).map (fun t => Event.token t.stringified r.connectionId) ++
          [.complete (r.fullResponse ++
              ((chunks.flatMap chunkTokens).filterMap Json.toJSStr).flatten) r.connectionId]) ∧
    (∀ chunk, chunkTokens chunk
      = ((splitLines chunk).takeWhile (fun l => decide (l ≠ doneLine))).filterMap lineDelta) ∧
    (∀ line t, textDelta line = some t → lineDelta line = some (.str t)) ∧
    ((∀ chunk ∈ chunks, ∀ line ∈ splitLines chunk,
        line ≠ doneLine ∧ lineDelta line = (textDelta line).map Json.str) →
      chunks.flatMap chunkTokens = (claimedTokens chunks).map Json.str ∧
      (chunks.flatMap chunkTokens).map (fun t => Event.token t.stringified r.connectionId)
        = (claimedTokens chunks).map (fun t => Event.token (.str t) r.connectionId) ∧
      ((chunks.flatMap chunkTokens).filterMap Json.toJSStr).flatten
        = (claimedTokens chunks).flatten) := by
  refine ⟨?_, fun chunk => linesTokens_eq _, textDelta_lineDelta, ?_⟩
  · obtain ⟨hthread2, _⟩ := run_feedChunks tid chunks s r hthread hpc hlive
    have hrun : run s (feedStream tid chunks)
        = step (run s (chunks.flatMap (feedChunk tid))) (.resume tid .done) := by
      simp [feedStream, run, List.foldl_append]
    rw [hrun, relayAt_step_resume _ tid _ .done hthread2]
    by_cases hblank : truthy (trim (afterTokens r (chunks.flatMap chunkTokens)).fullResponse) = true
    · simp only [resumeRelay, streamComplete, hblank, if_true]
      simp [afterTokens, Response.write]
    · simp only [resumeRelay, streamComplete, hblank]
      simp [afterTokens, Response.write, finallyBlock, Response.finish]
  · intro hclean
    have htokens : chunks.flatMap chunkTokens = (claimedTokens chunks).map Json.str := by
      unfold claimedTokens
      induction chunks with
      | nil => rfl
      | cons chunk rest ih =>
        have hrest := ih (fun c hc => hclean c (List.mem_cons_of_mem _ hc))
        have hhead : chunkTokens chunk
            = ((splitLines chunk).filterMap textDelta).map Json.str := by
          have hall := hclean chunk (List.mem_cons_self _ _)
          rw [chunkTokens, linesTokens_eq]
          have htake : (splitLines chunk).takeWhile (fun l => decide (l ≠ doneLine))
              = splitLines chunk := by
            rw [List.takeWhile_eq_self_iff]
            intro line hline
            simpa using (hall line hline).1
          rw [htake, List.map_filterMap]
          apply List.filterMap_congr
          intro line hline
          exact (hall line hline).2
        simp only [List.flatMap_cons, List.filterMap_append, List.map_append, hhead, hrest]
    refine ⟨htokens, ?_, ?_⟩
    · rw [htokens, List.map_map]
      apply List.map_congr_left
      intro t _
      simp [Json.stringified]
    · rw [htokens, filterMap_toJSStr_str]

/-- C19 (amended) at two chunks of whole lines carrying "Hello ", "wor" and
"ld": three token events in that order, then `complete` with "Hello world".
And at a chunk whose deltas are no strings: the numbers 1.0 and 1e2 are
written as the numbers 1 and 100 and accumulated as "1" and "100"; 1e-400 is
the number 0 and yields no token; `true` is written and accumulated as
"true"; the object with a member `toString` is written and not accumulated;
the array is written and accumulated as its elements joined by commas; and
1e400, infinite, is written as `null` and accumulated as "Infinity". -/
theorem C19_tokens_witness :
    (reading.threads.get? 0 = some (.relay readingRelay) ∧ readingRelay.pc = .read ∧
      isAborted reading.controllers readingRelay.controller = false) ∧
    (relayAt (run reading (feedStream 0 [frame "Hello " ++ frame "wor", frame "ld"])) 0).map
        (fun x => x.res.frames)
      = some (readingRelay.res.frames ++
          ([frame "Hello " ++ frame "wor", frame "ld"].flatMap chunkTokens).map
            (fun t => Event.token t.stringified readingRelay.connectionId) ++
          [.complete (readingRelay.fullResponse ++
              (([frame "Hello " ++ frame "wor", frame "ld"].flatMap chunkTokens).filterMap
                Json.toJSStr).flatten)
            readingRelay.connectionId]) ∧
    [frame "Hello " ++ frame "wor", frame "ld"].flatMap chunkTokens
      = [.str (u16 "Hello "), .str (u16 "wor"), .str (u16 "ld")] ∧
    (relayAt (run reading (feedStream 0 [frame "Hello " ++ frame "wor", frame "ld"])) 0).map
        (fun x => x.res.frames)
      = some [.connection (u16 "c1"), .token (.str (u16 "Hello ")) (u16 "c1"),
              .token (.str (u16 "wor")) (u16 "c1"), .token (.str (u16 "ld")) (u16 "c1"),
              .complete (u16 "Hello world") (u16 "c1")] ∧
    (relayAt (run reading (feedStream 0
        [valueFrame "1.0" ++ valueFrame "1e2" ++ valueFrame "1e-400" ++ valueFrame "true" ++
         valueFrame "\x7b\"toString\":1\x7d" ++ valueFrame "[1,[2,null],\"x\"]" ++
         valueFrame "1e400"])) 0).map (fun x => x.res.frames)
      = some [.connection (u16 "c1"),
              .token (.num (decimalToDouble false 1 0)) (u16 "c1"),
              .token (.num (decimalToDouble false 100 0)) (u16 "c1"),
              .token (.bool true) (u16 "c1"),
              .token (.obj (.cons (u16 "toString") (.num (decimalToDouble false 1 0)) .nil))
                (u16 "c1"),
              .token (.arr (.cons (.num (decimalToDouble false 1 0))
                (.cons (.arr (.cons (.num (decimalToDouble false 2 0)) (.cons .null .nil)))
                  (.cons (.str (u16 "x")) .nil)))) (u16 "c1"),
              .token .null (u16 "c1"),
              .complete (u16 "1100true1,2,,xInfinity") (u16 "c1")] :=
  ⟨⟨by decide, rfl, by decide⟩,
   (C19_tokens_follow_the_frames_before_the_sentinel reading 0 readingRelay
      [frame "Hello " ++ frame "wor", frame "ld"] (by decide) rfl (by decide)).1,
   by decide, by decide, by decide⟩

/-- C20 as stated fails for the sentinel, a line that starts with "data: " and
carries text that is not valid JSON: the frame that follows it in the chunk
is not processed, though alone it yields its token. -/
theorem C20_sentinel_ends_the_chunk :
    startsWith doneLine (u16 "data: ") = true ∧
    (JSON_parse (doneLine.drop 6)).isNone = true ∧
    chunkTokens (doneLine ++ u16 "\n" ++ frame "more") = [] ∧
    chunkTokens (frame "more") = [.str (u16 "more")] := by
  decide

/-- The first line of a text is what precedes its first line feed. -/
theorem splitLinesAux_line (line tail cur : JSStr) (hline : 10 ∉ line) :
    splitLinesAux (line ++ 10 :: tail) cur = (cur ++ line) :: splitLinesAux tail [] := by
  induction line generalizing cur with
  | nil => simp [splitLinesAux]
  | cons c rest ih =>
    have hc : c ≠ 10 := fun h => hline (by simp [h])
    have hrest : 10 ∉ rest := fun h => hline (List.mem_cons_of_mem _ h)
    simp [splitLinesAux, hc, ih _ hrest]

/-- A chunk acts on the process through its tokens only. -/
theorem step_chunk_congr (s : State) (tid : Nat) (v1 v2 : JSStr)
    (h : chunkTokens v1 = chunkTokens v2) :
    step s (.resume tid (.chunk v1)) = step s (.resume tid (.chunk v2)) := by
  simp only [step, resumeThread]
  cases hthread : s.threads.get? tid with
  | none => rfl
  | some t =>
    cases t with
    | relay r =>
      obtain ⟨req, connectionId, controller, heartbeat, fullResponse, res, pc⟩ := r
      cases pc <;> simp [resumeRelay, h]
    | stop t =>
      obtain ⟨connectionId, userId, res, pc⟩ := t
      cases pc <;> simp [resumeStop]
    | save chatId userId responseText settled =>
      cases settled <;> rfl

/-- C20 (amended): a line other than the sentinel that is blank, or does not
start with "data: ", or carries text that is not valid JSON, or carries JSON
with no truthy value at `choices[0].delta`, is skipped: it yields no token, the
lines after it yield what they yield without it, and a chunk that starts with
this line acts on the process exactly as the chunk without it (no event, the
same accumulated text, the same state of the stream). -/
theorem C20_unrecognized_line_is_skipped (line : JSStr)
    (hnotdone : line ≠ doneLine)
    (hkind : (trim line).isEmpty = true ∨ startsWith line (u16 "data: ") = false ∨
      JSON_parse (line.drop 6) = none ∨
      ∃ data, JSON_parse (line.drop 6) = some data ∧
        ∀ d, frameDelta data = some d → d.truthy = false) :
    lineEffect line = .skip ∧
    (∀ rest, linesTokens (line :: rest) = linesTokens rest) ∧
    (∀ tail, 10 ∉ line → chunkTokens (line ++ 10 :: tail) = chunkTokens tail) ∧
    (∀ (s : State) (tid : Nat) tail, 10 ∉ line →
      step s (.resume tid (.chunk (line ++ 10 :: tail))) = step s (.resume tid (.chunk tail))) := by
  have hskip : lineEffect line = .skip := by
    have hnotdone2 : ¬ line = u16 "data: [DONE]" := hnotdone
    unfold lineEffect
    by_cases hblank : (trim line).isEmpty = true
    · simp [hblank]
    · rw [if_neg hblank, if_neg hnotdone2]
      by_cases hdata : startsWith line (u16 "data: ") = true
      · rw [if_pos hdata]
        rcases hkind with h | h | h | ⟨data, hparse, hdelta⟩
        · exact absurd h hblank
        · rw [hdata] at h; cases h
        · simp [h]
        · simp [hparse, deltaToken_none_of_no_delta data hdelta]
      · rw [if_neg hdata]
  have hlines : ∀ rest, linesTokens (line :: rest) = linesTokens rest := by
    intro rest
    simp [linesTokens, hskip]
  have hchunk : ∀ tail, 10 ∉ line → chunkTokens (line ++ 10 :: tail) = chunkTokens tail := by
    intro tail hline
    simp only [chunkTokens, splitLines, splitLinesAux_line line tail [] hline, List.nil_append,
      hlines]
  exact ⟨hskip, hlines, hchunk, fun s tid tail hline => step_chunk_congr s tid _ _ (hchunk tail hline)⟩

/-- C20 (amended) at a keep-alive comment line and at a frame that carries
JSON `null`: each is skipped, and the frame after it is processed. -/
theorem C20_skipped_line_witness :
    (u16 ": ping" ≠ doneLine ∧ startsWith (u16 ": ping") (u16 "data: ") = false) ∧
    lineEffect (u16 ": ping") = .skip ∧
    chunkTokens (u16 ": ping" ++ 10 :: frame "next") = chunkTokens (frame "next") ∧
    chunkTokens (u16 "data: null\n" ++ frame "next") = [.str (u16 "next")] :=
  ⟨⟨by decide, by decide⟩,
   (C20_unrecognized_line_is_skipped (u16 ": ping") (by decide) (Or.inr (Or.inl (by decide)))).1,
   (C20_unrecognized_line_is_skipped (u16 ": ping") (by decide)
      (Or.inr (Or.inl (by decide)))).2.2.1 (frame "next") (by decide),
   by decide⟩

/-- After a removal the registry holds no entry under the id. -/
theorem get_delete_self (reg : Registry) (id : JSStr) : (reg.delete id).get id = none := by
  induction reg with
  | nil => rfl
  | cons e rest ih =>
    by_cases h : e.1 = id
    · simp [Registry.delete, Registry.get, List.filter_cons, h] at ih ⊢
    · simp [Registry.delete, Registry.get, List.filter_cons, List.find?_cons, h] at ih ⊢

/-- A removal leaves the entries under other ids as they are. -/
theorem get_delete_other (reg : Registry) (id other : JSStr) (hne : other ≠ id) :
    (reg.delete id).get other = reg.get other := by
  induction reg with
  | nil => rfl
  | cons e rest ih =>
    unfold Registry.delete Registry.get at ih ⊢
    by_cases h : e.1 = id
    · have h2 : ¬ e.1 = other := fun h3 => hne (h3.symm.trans h)
      have d1 : decide (e.1 = id) = true := decide_eq_true h
      have d2 : decide (e.1 = other) = false := decide_eq_false h2
      simp only [List.filter_cons, List.find?_cons, d1, d2, Bool.not_true]
      exact ih
    · have d1 : decide (e.1 = id) = false := decide_eq_false h
      by_cases h2 : e.1 = other
      · have d2 : decide (e.1 = other) = true := decide_eq_true h2
        simp only [List.filter_cons, List.find?_cons, d1, d2, Bool.not_false, if_true]
      · have d2 : decide (e.1 = other) = false := decide_eq_false h2
        simp only [List.filter_cons, List.find?_cons, d1, d2, Bool.not_false, if_true]
        exact ih

/-- C25: removing an id twice gives the registry that removing it once gives,
and that registry holds no entry under the id and still holds every other
entry; removing an id under which nothing is registered changes nothing.
Removal is a total function: it cannot throw. -/
theorem C25_removal_is_idempotent (reg : Registry) (id : JSStr) :
    (reg.delete id).delete id = reg.delete id ∧
    (reg.delete id).get id = none ∧
    (∀ e ∈ reg.delete id, e.1 ≠ id) ∧
    (∀ other, other ≠ id → (reg.delete id).get other = reg.get other) ∧
    (reg.get id = none → reg.delete id = reg) := by
  refine ⟨?_, get_delete_self reg id, ?_, fun other h => get_delete_other reg id other h, ?_⟩
  · simp [Registry.delete, List.filter_filter]
  · intro e he
    simpa [Registry.delete] using (List.mem_filter.mp he).2
  · intro hnone
    unfold Registry.get at hnone
    have hfind : reg.find? (fun e => decide (e.1 = id)) = none := by
      cases h : reg.find? (fun e => decide (e.1 = id)) with
      | none => rfl
      | some e => simp [h] at hnone
    unfold Registry.delete
    rw [List.filter_eq_self]
    intro e he
    have := List.find?_eq_none.mp hfind e he
    simpa using this

/-- C25 at a registry of two sessions: removing the unregistered id c3 changes
nothing, and removing c1 twice leaves the entry c2 alone. -/
theorem C25_unregistered_id_witness :
    Registry.get [(u16 "c1", ⟨0, 7, 1, [], 0⟩), (u16 "c2", ⟨1, 8, 2, [], 0⟩)] (u16 "c3") = none ∧
    Registry.delete [(u16 "c1", ⟨0, 7, 1, [], 0⟩), (u16 "c2", ⟨1, 8, 2, [], 0⟩)] (u16 "c3")
      = [(u16 "c1", ⟨0, 7, 1, [], 0⟩), (u16 "c2", ⟨1, 8, 2, [], 0⟩)] :=
  ⟨by decide,
   (C25_removal_is_idempotent [(u16 "c1", ⟨0, 7, 1, [], 0⟩), (u16 "c2", ⟨1, 8, 2, [], 0⟩)]
      (u16 "c3")).2.2.2.2 (by decide)⟩

/-- The reaper's loop, field by field: the expired entries are removed one by
one, their handles aborted, and a save is started for each expired entry
with text. -/
theorem sweepEntries_spec (now : Nat) (entries : List (JSStr × Connection)) (s : State) :
    sweepEntries now entries s =
      { s with
        activeConnections :=
          (entries.filter (expired now)).foldl (fun reg e => Registry.delete reg e.1)
            s.activeConnections,
        controllers :=
          (entries.filter (expired now)).foldl (fun cs e => abort cs e.2.controller) s.controllers,
        threads := s.threads ++
          (entries.filter (fun e => expired now e && truthy e.2.responseText)).map reaperSave } := by
  induction entries generalizing s with
  | nil => simp [sweepEntries]
  | cons e rest ih =>
    obtain ⟨connectionId, connection⟩ := e
    unfold sweepEntries
    by_cases hexp : (now : Int) - (connection.createdAt : Int) > 300000
    · rw [if_pos hexp]
      have h1 : expired now (connectionId, connection) = true := by simp [expired, hexp]
      by_cases ht : truthy connection.responseText = true
      · simp only [ht, if_true]
        rw [ih]
        simp [List.filter_cons, h1, ht, reaperSave]
      · have ht2 : truthy connection.responseText = false := by simpa using ht
        simp only [ht2]
        rw [ih]
        simp [List.filter_cons, h1, ht2]
    · rw [if_neg hexp]
      have h1 : expired now (connectionId, connection) = false := by simp [expired, hexp]
      rw [ih]
      simp [List.filter_cons, h1]

/-- Removing a list of ids one by one keeps the entries under the other ids. -/
theorem foldl_delete (ks : List (JSStr × Connection)) (reg : Registry) :
    ks.foldl (fun reg e => Registry.delete reg e.1) reg
      = reg.filter (fun e => !decide (e.1 ∈ ks.map Prod.fst)) := by
  induction ks generalizing reg with
  | nil => simp
  | cons k rest ih =>
    rw [List.foldl_cons, ih]
    unfold Registry.delete
    rw [List.filter_filter]
    apply List.filter_congr
    intro e _
    by_cases h1 : e.1 = k.1
    · simp [h1]
    · simp [h1]

/-- Two entries of a registry with distinct keys that share a key are equal. -/
theorem entry_unique (reg : Registry) (hkeys : (reg.map Prod.fst).Nodup)
    (e1 e2 : JSStr × Connection) (h1 : e1 ∈ reg) (h2 : e2 ∈ reg) (h : e1.1 = e2.1) : e1 = e2 :=
  List.inj_on_of_nodup_map hkeys h1 h2 h

/-- In a registry with distinct keys, an entry is what its key is looked up to. -/
theorem get_of_mem (reg : Registry) (hkeys : (reg.map Prod.fst).Nodup)
    (e : JSStr × Connection) (he : e ∈ reg) : reg.get e.1 = some e.2 := by
  unfold Registry.get
  cases hfind : reg.find? (fun x => decide (x.1 = e.1)) with
  | none =>
    have := List.find?_eq_none.mp hfind e he
    simp at this
  | some x =>
    have hx : x ∈ reg := List.mem_of_find?_eq_some hfind
    have hkey : x.1 = e.1 := by simpa using List.find?_some hfind
    rw [entry_unique reg hkeys x e hx he hkey]
    rfl

/-- A key under which no entry is held is looked up to nothing. -/
theorem get_none_of_absent (reg : Registry) (id : JSStr) (h : ∀ e ∈ reg, e.1 ≠ id) :
    reg.get id = none := by
  unfold Registry.get
  have : reg.find? (fun x => decide (x.1 = id)) = none := by
    rw [List.find?_eq_none]
    intro e he
    simpa using h e he
  rw [this]
  rfl

/-- Aborting one handle: the handles aborted afterwards. -/
theorem isAborted_abort (cs : List Bool) (c i : Nat) :
    isAborted (abort cs c) i = (isAborted cs i || (decide (i = c) && decide (c < cs.length))) := by
  unfold isAborted abort
  rw [List.getD_eq_getElem?_getD, List.getD_eq_getElem?_getD, List.getElem?_set]
  by_cases h1 : c = i
  · subst h1
    by_cases h2 : c < cs.length
    · simp [h2]
    · simp [h2]
      rw [List.getElem?_eq_none (by omega)]
      rfl
  · have h3 : ¬ i = c := fun h => h1 h.symm
    simp [h1, h3]

/-- Aborting a list of handles: the handles aborted afterwards. -/
theorem isAborted_foldl (ks : List (JSStr × Connection)) (cs : List Bool) (i : Nat) :
    isAborted (ks.foldl (fun cs e => abort cs e.2.controller) cs) i
      = (isAborted cs i || (decide (i ∈ ks.map (fun e => e.2.controller)) && decide (i < cs.length))) := by
  induction ks generalizing cs with
  | nil => simp
  | cons k rest ih =>
    rw [List.foldl_cons, ih, isAborted_abort]
    have hlen : (abort cs k.2.controller).length = cs.length := by simp [abort]
    rw [hlen]
    by_cases h1 : i = k.2.controller
    · subst h1
      by_cases h2 : k.2.controller < cs.length
      · simp [h2]
      · simp [h2]
    · have hb : (i == k.2.controller) = false := by simpa using h1
      simp [h1, hb]

/-- One sweep of the reaper over a registry with distinct ids whose handles
exist, as it is in every process reached from one without sessions
(`run_wellFormed`).  Every session with now - createdAt > 300000 has its handle
aborted and is registered no more; every session of age at most 300000 is
still registered, unchanged, and no handle but those of expired sessions is
touched.  The sweep starts exactly one `savePartialResponse` for each expired
session whose text is non-empty and none for the others, and writes nothing
itself; when the store write of such a call succeeds, the update pushing the
turn (assistant, that text, stopped, partial) is applied to the session's
conversation, which gains exactly that one turn as the schema keeps it, and
the call never writes again. -/
theorem sweep_reaps_exactly_the_expired (s : State)
    (hkeys : (s.activeConnections.map Prod.fst).Nodup)
    (hctl : ∀ e ∈ s.activeConnections, e.2.controller < s.controllers.length) :
    (∀ e ∈ s.activeConnections, expired s.clock e = true →
        isAborted (sweep s).controllers e.2.controller = true ∧
        (sweep s).activeConnections.get e.1 = none) ∧
    (∀ e ∈ s.activeConnections, expired s.clock e = false →
        (sweep s).activeConnections.get e.1 = some e.2) ∧
    (sweep s).activeConnections = s.activeConnections.filter (fun e => !expired s.clock e) ∧
    (sweep s).threads = s.threads ++
        (s.activeConnections.filter
          (fun e => expired s.clock e && truthy e.2.responseText)).map reaperSave ∧
    (∀ c, (∀ e ∈ s.activeConnections, expired s.clock e = true → e.2.controller ≠ c) →
        isAborted (sweep s).controllers c = isAborted s.controllers c) ∧
    (sweep s).chats = s.chats ∧
    (∀ (s1 : State) (tid : Nat) (e : JSStr × Connection),
        s1.threads.get? tid = some (reaperSave e) →
        (step s1 (.resume tid .ok)).chats
          = (findOneAndUpdate (pushMessage (partialMessage e.2.responseText))
              e.2.chatId e.2.userId s1.chats).1 ∧
        findOne (step s1 (.resume tid .ok)).chats e.2.chatId e.2.userId
          = (findOne s1.chats e.2.chatId e.2.userId).map
              (fun c => { c with messages :=
                            c.messages ++ [MessageSchema (partialMessage e.2.responseText)] }) ∧
        ∀ o, step (step s1 (.resume tid .ok)) (.resume tid o) = step s1 (.resume tid .ok)) := by
  have hreg : (sweep s).activeConnections
      = s.activeConnections.filter (fun e => !expired s.clock e) := by
    unfold sweep
    rw [sweepEntries_spec, foldl_delete]
    apply List.filter_congr
    intro e he
    congr 1
    by_cases hexp : expired s.clock e = true
    · have : e.1 ∈ (s.activeConnections.filter (expired s.clock)).map Prod.fst :=
        List.mem_map.mpr ⟨e, List.mem_filter.mpr ⟨he, hexp⟩, rfl⟩
      simp [this, hexp]
    · have hno : e.1 ∉ (s.activeConnections.filter (expired s.clock)).map Prod.fst := by
        intro hmem
        obtain ⟨e2, he2, hkey⟩ := List.mem_map.mp hmem
        have hmem2 := List.mem_filter.mp he2
        rw [entry_unique s.activeConnections hkeys e2 e hmem2.1 he hkey] at hmem2
        exact hexp hmem2.2
      have hexp2 : expired s.clock e = false := by simpa using hexp
      simp [hno, hexp2]
  have hctl2 : ∀ c, isAborted (sweep s).controllers c
      = (isAborted s.controllers c ||
          (decide (c ∈ (s.activeConnections.filter (expired s.clock)).map
              (fun e => e.2.controller)) && decide (c < s.controllers.length))) := by
    intro c
    unfold sweep
    rw [sweepEntries_spec]
    exact isAborted_foldl _ _ _
  have hkeys2 : ((s.activeConnections.filter (fun e => !expired s.clock e)).map Prod.fst).Nodup :=
    hkeys.sublist (List.Sublist.map _ (List.filter_sublist _))
  refine ⟨?_, ?_, hreg, ?_, ?_, ?_, ?_⟩
  · intro e he hexp
    constructor
    · rw [hctl2]
      have : e.2.controller ∈ (s.activeConnections.filter (expired s.clock)).map
          (fun e => e.2.controller) :=
        List.mem_map.mpr ⟨e, List.mem_filter.mpr ⟨he, hexp⟩, rfl⟩
      simp [this, hctl e he]
    · rw [hreg]
      apply get_none_of_absent
      intro e2 he2 hkey
      have hmem2 := List.mem_filter.mp he2
      rw [entry_unique s.activeConnections hkeys e2 e hmem2.1 he hkey] at hmem2
      simp [hexp] at hmem2
  · intro e he hexp
    rw [hreg]
    exact get_of_mem _ hkeys2 e (List.mem_filter.mpr ⟨he, by simp [hexp]⟩)
  · unfold sweep
    rw [sweepEntries_spec]
  · intro c hc
    rw [hctl2]
    have : c ∉ (s.activeConnections.filter (expired s.clock)).map (fun e => e.2.controller) := by
      intro hmem
      obtain ⟨e2, he2, hkey⟩ := List.mem_map.mp hmem
      have hmem2 := List.mem_filter.mp he2
      exact hc e2 hmem2.1 hmem2.2 hkey
    simp [this]
  · unfold sweep
    rw [sweepEntries_spec]
  · intro s1 tid e hthread
    have hstep : step s1 (.resume tid .ok)
        = { savePartialResponse s1 e.2.chatId e.2.userId e.2.responseText .ok with
            threads := s1.threads.set tid (.save e.2.chatId e.2.userId e.2.responseText true) } := by
      simp only [step, resumeThread, hthread, reaperSave]
    have hlt : tid < s1.threads.length := by
      rcases Nat.lt_or_ge tid s1.threads.length with h1 | h1
      · exact h1
      · rw [List.get?_eq_none.mpr h1] at hthread
        cases hthread
    refine ⟨?_, ?_, ?_⟩
    · rw [hstep]
      rfl
    · rw [hstep]
      exact findOne_findOneAndUpdate (pushMessage (partialMessage e.2.responseText)) _ _
        (fun c => ⟨rfl, rfl⟩) s1.chats
    · intro o
      have hsettled : (step s1 (.resume tid .ok)).threads.get? tid
          = some (.save e.2.chatId e.2.userId e.2.responseText true) := by
        rw [hstep]
        simp [hlt]
      simp only [step, resumeThread] at hsettled ⊢
      rw [hsettled]

/-- The sweep at one session of age 300001 with the text "xyz": the registry
is emptied and the handle aborted. -/
theorem sweep_stale_session :
    (staleState.activeConnections.map Prod.fst).Nodup ∧
    (∀ e ∈ staleState.activeConnections, e.2.controller < staleState.controllers.length) ∧
    (sweep staleState).activeConnections
      = staleState.activeConnections.filter (fun e => !expired staleState.clock e) :=
  ⟨by decide, by decide,
   (sweep_reaps_exactly_the_expired staleState (by decide) (by decide)).2.2.1⟩

/-- C21: one session of age 300001 with the text "xyz".  The sweep aborts its
handle, leaves the registry empty and starts one `savePartialResponse`, which
pushes a turn with `partial: true`; when its write has succeeded the
conversation holds one new assistant turn "xyz", and that turn carries
neither `partial` nor `stopped`: what is persisted is not a partial turn. -/
theorem C21_reaped_text_is_stored_unmarked :
    staleState.controllers = [false] ∧
    (sweep staleState).controllers = [true] ∧
    (sweep staleState).activeConnections = [] ∧
    (sweep staleState).threads = [.save 1 7 (u16 "xyz") false] ∧
    (partialMessage (u16 "xyz")).isPartial = true ∧
    turnsOf staleState 1 7 = [] ∧
    (turnsOf (run staleState [.sweep, .resume 0 .ok]) 1 7).map
        (fun m => (m.role, m.text, m.isPartial, m.stopped))
      = [(u16 "assistant", u16 "xyz", false, false)] := by
  decide

/-- C22: a stop request that carries a connection id, followed to its answer
(its store write, when it makes one, succeeds or fails).  The answer is 200
exactly when the registry holds a session under that id whose owner is the
requesting user; then that session's handle is aborted (it reads `true` in
the list of handles, every other handle being as it was) and the registry
holds no entry under the id.  Otherwise the answer is 404 and the registry,
the handles and the store are as they were.  The last part follows a stop
that waits for its store write while other handlers run: whatever they did,
when the write settles the answer is 200 and no entry is left under the id. -/
theorem C22_stop_answers_200_iff_owner (s : State) (req : StopReq) (connectionId : JSStr)
    (o : Outcome) (hid : req.connectionId = some connectionId)
    (htruthy : truthy connectionId = true) (ho : o = .ok ∨ ∃ err, o = .threw err) :
    ((responseAt (run s [.stopGeneration req, .resume s.threads.length o])
          s.threads.length).bind (fun res => res.status) = some 200 ↔
      ∃ connection, s.activeConnections.get connectionId = some connection ∧
        connection.userId = req.userId) ∧
    (∀ connection, s.activeConnections.get connectionId = some connection →
      connection.userId = req.userId →
      (run s [.stopGeneration req, .resume s.threads.length o]).controllers
        = s.controllers.set connection.controller true ∧
      (connection.controller < s.controllers.length →
        (run s [.stopGeneration req, .resume s.threads.length o]).controllers.get?
          connection.controller = some true) ∧
      (run s [.stopGeneration req, .resume s.threads.length o]).activeConnections.get connectionId
        = none ∧
      (responseAt (run s [.stopGeneration req, .resume s.threads.length o])
          s.threads.length).map (fun res => (res.body, res.ended)) = some (some .stopped, 1)) ∧
    ((¬ ∃ connection, s.activeConnections.get connectionId = some connection ∧
        connection.userId = req.userId) →
      (responseAt (run s [.stopGeneration req, .resume s.threads.length o])
          s.threads.length).bind (fun res => res.status) = some 404 ∧
      (run s [.stopGeneration req, .resume s.threads.length o]).activeConnections
        = s.activeConnections ∧
      (run s [.stopGeneration req, .resume s.threads.length o]).controllers = s.controllers ∧
      (run s [.stopGeneration req, .resume s.threads.length o]).chats = s.chats) ∧
    (∀ connection, s.activeConnections.get connectionId = some connection →
      connection.userId = req.userId → truthy connection.responseText = true →
      ∀ s1 : State, s1.threads.get? s.threads.length
          = (step s (.stopGeneration req)).threads.get? s.threads.length →
        (responseAt (step s1 (.resume s.threads.length o)) s.threads.length).bind
            (fun res => res.status) = some 200 ∧
        (step s1 (.resume s.threads.length o)).activeConnections.get connectionId = none) := by
  have hfilter : req.connectionId.filter truthy = some connectionId := by
    rw [hid]
    simp [Option.filter, htruthy]
  have hmain :
        ((responseAt (run s [.stopGeneration req, .resume s.threads.length o])
              s.threads.length).bind (fun res => res.status) = some 200 ↔
          ∃ connection, s.activeConnections.get connectionId = some connection ∧
            connection.userId = req.userId) ∧
        (∀ connection, s.activeConnections.get connectionId = some connection →
          connection.userId = req.userId →
          (run s [.stopGeneration req, .resume s.threads.length o]).controllers
            = abort s.controllers connection.controller ∧
          (run s [.stopGeneration req, .resume s.threads.length o]).activeConnections.get connectionId
            = none ∧
          (responseAt (run s [.stopGeneration req, .resume s.threads.length o])
              s.threads.length).map (fun res => (res.body, res.ended)) = some (some .stopped, 1)) ∧
        ((¬ ∃ connection, s.activeConnections.get connectionId = some connection ∧
            connection.userId = req.userId) →
          (responseAt (run s [.stopGeneration req, .resume s.threads.length o])
              s.threads.length).bind (fun res => res.status) = some 404 ∧
          (run s [.stopGeneration req, .resume s.threads.length o]).activeConnections
            = s.activeConnections ∧
          (run s [.stopGeneration req, .resume s.threads.length o]).controllers = s.controllers ∧
          (run s [.stopGeneration req, .resume s.threads.length o]).chats = s.chats) := by
    cases hget : s.activeConnections.get connectionId with
    | none =>
      have hstart : step s (.stopGeneration req) =
          { s with threads := s.threads ++ [.stop
            { connectionId := connectionId, userId := req.userId,
              res := ({} : Response).json 404 (.error (u16 "Connection not found")),
              pc := .finished }] } := by
        simp only [step, startStop, hfilter, hget]
      simp only [run, List.foldl_cons, List.foldl_nil, hstart]
      simp [step, resumeThread, resumeStop, responseAt, Response.json]
    | some connection =>
      by_cases howner : connection.userId = req.userId
      · by_cases htext : truthy connection.responseText = true
        · have hstart : step s (.stopGeneration req) =
              { s with controllers := abort s.controllers connection.controller,
                       threads := s.threads ++ [.stop
                  { connectionId := connectionId, userId := req.userId,
                    pc := .saving connection.chatId connection.responseText }] } := by
            simp only [step, startStop, hfilter, hget, howner, htext, if_true]
          simp only [run, List.foldl_cons, List.foldl_nil, hstart]
          rcases ho with ho | ⟨err, ho⟩
          · subst ho
            simp [step, resumeThread, resumeStop, responseAt, Response.json, savePartialResponse,
              get_delete_self, howner]
          · subst ho
            simp [step, resumeThread, resumeStop, responseAt, Response.json, savePartialResponse,
              get_delete_self, howner]
        · have htext2 : truthy connection.responseText = false := by simpa using htext
          have hstart : step s (.stopGeneration req) =
              { s with controllers := abort s.controllers connection.controller,
                       activeConnections := s.activeConnections.delete connectionId,
                       threads := s.threads ++ [.stop
                  { connectionId := connectionId, userId := req.userId,
                    res := ({} : Response).json 200 .stopped, pc := .finished }] } := by
            simp only [step, startStop, hfilter, hget, howner, htext2, if_true]
            rfl
          simp only [run, List.foldl_cons, List.foldl_nil, hstart]
          simp [step, resumeThread, resumeStop, responseAt, Response.json, get_delete_self, howner]
      · have hstart : step s (.stopGeneration req) =
            { s with threads := s.threads ++ [.stop
              { connectionId := connectionId, userId := req.userId,
                res := ({} : Response).json 404 (.error (u16 "Connection not found")),
                pc := .finished }] } := by
          simp only [step, startStop, hfilter, hget, howner, if_false]
        simp only [run, List.foldl_cons, List.foldl_nil, hstart]
        simp [step, resumeThread, resumeStop, responseAt, Response.json, howner]
  refine ⟨hmain.1, ?_, hmain.2.2, ?_⟩
  · intro connection hget howner
    obtain ⟨hctl, hreg, hres⟩ := hmain.2.1 connection hget howner
    have hset : (run s [.stopGeneration req, .resume s.threads.length o]).controllers
        = s.controllers.set connection.controller true := hctl
    refine ⟨hset, ?_, hreg, hres⟩
    intro hlt
    rw [hset]
    simp [hlt]
  intro connection hget howner htext s1 hs1
  have hstart : (step s (.stopGeneration req)).threads =
      s.threads ++ [.stop
          { connectionId := connectionId, userId := req.userId,
            pc := .saving connection.chatId connection.responseText }] := by
    simp only [step, startStop, hfilter, hget, howner, htext, if_true]
  have hlast : (step s (.stopGeneration req)).threads.get? s.threads.length
      = some (.stop { connectionId := connectionId, userId := req.userId,
                      pc := .saving connection.chatId connection.responseText }) := by
    rw [hstart]
    simp
  rw [hlast] at hs1
  have hlt : s.threads.length < s1.threads.length := by
    rcases Nat.lt_or_ge s.threads.length s1.threads.length with h1 | h1
    · exact h1
    · rw [List.get?_eq_none.mpr h1] at hs1
      cases hs1
  rcases ho with ho | ⟨err, ho⟩
  · subst ho
    simp only [step, resumeThread, hs1]
    simp [resumeStop, responseAt, Response.json, savePartialResponse, get_delete_self, hlt]
  · subst ho
    simp only [step, resumeThread, hs1]
    simp [resumeStop, responseAt, Response.json, savePartialResponse, get_delete_self, hlt]

/-- C22 at the session c9 of user 7: the owner's stop is answered 200, aborts
the handle and removes the entry; the stop of user 8 is answered 404 and
changes neither the registry nor the handles nor the store. -/
theorem C22_owner_and_stranger_witness :
    ownerStop.connectionId = some (u16 "c9") ∧ truthy (u16 "c9") = true ∧
    ((run staleState [.stopGeneration ownerStop, .resume 0 .ok]).controllers
        = staleState.controllers.set 0 true ∧
      (0 < staleState.controllers.length →
        (run staleState [.stopGeneration ownerStop, .resume 0 .ok]).controllers.get? 0
          = some true) ∧
      (run staleState [.stopGeneration ownerStop, .resume 0 .ok]).activeConnections.get (u16 "c9")
        = none ∧
      (responseAt (run staleState [.stopGeneration ownerStop, .resume 0 .ok]) 0).map
          (fun res => (res.body, res.ended)) = some (some .stopped, 1)) ∧
    (responseAt (run staleState [.stopGeneration ownerStop, .resume 0 .ok]) 0).bind
        (fun res => res.status) = some 200 ∧
    (responseAt (run staleState [.stopGeneration strangerStop, .resume 0 .ok]) 0).bind
        (fun res => res.status) = some 404 ∧
    (run staleState [.stopGeneration strangerStop, .resume 0 .ok]).activeConnections
      = staleState.activeConnections ∧
    (run staleState [.stopGeneration strangerStop, .resume 0 .ok]).controllers = [false] ∧
    (run staleState [.stopGeneration strangerStop, .resume 0 .ok]).chats = [demoChat] ∧
    staleState.controllers = [false] ∧
    (run staleState [.stopGeneration ownerStop, .resume 0 .ok]).controllers = [true] :=
  ⟨rfl, by decide,
   (C22_stop_answers_200_iff_owner staleState ownerStop (u16 "c9") .ok rfl (by decide)
      (Or.inl rfl)).2.1
     { controller := 0, userId := 7, chatId := 1, responseText := u16 "xyz", createdAt := 0 }
     (by decide) (by decide),
   by decide, by decide, by decide, by decide, by decide, by decide, by decide⟩

/-- The handler list after the arrival of a stop request: one new handler,
which waits for a save only with a non-empty text. -/
theorem startStop_threads (s : State) (req : StopReq) :
    ∃ t, (startStop s req).threads = s.threads ++ [.stop t] ∧
      ∀ chatId text, t.pc = .saving chatId text → truthy text = true := by
  unfold startStop
  cases req.connectionId.filter truthy with
  | none => exact ⟨_, rfl, fun _ _ h => by cases h⟩
  | some connectionId =>
    dsimp only
    cases s.activeConnections.get connectionId with
    | none => exact ⟨_, rfl, fun _ _ h => by cases h⟩
    | some connection =>
      dsimp only
      by_cases howner : connection.userId = req.userId
      · rw [if_pos howner]
        by_cases htext : truthy connection.responseText = true
        · rw [if_pos htext]
          refine ⟨_, rfl, ?_⟩
          intro chatId text h
          cases h
          exact htext
        · rw [if_neg htext]
          exact ⟨_, rfl, fun _ _ h => by cases h⟩
      · rw [if_neg howner]
        exact ⟨_, rfl, fun _ _ h => by cases h⟩

/-- A stop's step never touches the list of handlers. -/
theorem resumeStop_threads (s : State) (t : Stop) (o : Outcome) :
    (resumeStop s t o).1.threads = s.threads := by
  unfold resumeStop savePartialResponse
  split <;> rfl

/-- A step that resumes handler `tid2` changes at most the entry `tid2` of the
handler list, and the others append to it. -/
theorem step_threads (s : State) (a : Action) :
    (∃ new, (step s a).threads = s.threads ++ new) ∨
    (∃ tid t, (a = .heartbeat tid ∨ ∃ o, a = .resume tid o) ∧
        (step s a).threads = s.threads.set tid t) := by
  cases a with
  | tick ms => exact Or.inl ⟨[], by simp [step]⟩
  | addMessageToChat req random =>
    obtain ⟨r, hthreads, _⟩ := startRelay_spec s req random
    exact Or.inl ⟨_, hthreads⟩
  | stopGeneration req =>
    obtain ⟨t, hthreads, _⟩ := startStop_threads s req
    exact Or.inl ⟨_, hthreads⟩
  | sweep =>
    refine Or.inl ⟨(s.activeConnections.filter
      (fun e => expired s.clock e && truthy e.2.responseText)).map reaperSave, ?_⟩
    simp only [step, sweep]
    rw [sweepEntries_spec]
  | heartbeat tid =>
    simp only [step]
    cases s.threads.get? tid with
    | none => exact Or.inl ⟨[], by simp⟩
    | some t => exact Or.inr ⟨tid, heartbeatTick t, Or.inl rfl, rfl⟩
  | resume tid o =>
    simp only [step, resumeThread]
    cases hthread : s.threads.get? tid with
    | none => exact Or.inl ⟨[], by simp⟩
    | some t =>
      cases t with
      | relay r =>
        refine Or.inr ⟨tid, .relay (resumeRelay s r o).2, Or.inr ⟨o, rfl⟩, ?_⟩
        simp only [resumeRelay_threads]
      | stop t =>
        refine Or.inr ⟨tid, .stop (resumeStop s t o).2, Or.inr ⟨o, rfl⟩, ?_⟩
        simp only [resumeStop_threads]
      | save chatId userId text settled =>
        cases settled with
        | true => exact Or.inl ⟨[], by simp⟩
        | false =>
          cases o with
          | ok => exact Or.inr ⟨tid, .save chatId userId text true, Or.inr ⟨_, rfl⟩, rfl⟩
          | threw err => exact Or.inr ⟨tid, .save chatId userId text true, Or.inr ⟨_, rfl⟩, rfl⟩
          | _ => exact Or.inl ⟨[], by simp⟩

/-- A handler is left as it is by every step that neither resumes it nor
fires its keep-alive timer. -/
theorem step_get?_other (s : State) (a : Action) (tid : Nat) (t : Thread)
    (h : s.threads.get? tid = some t)
    (hres : ∀ o, a ≠ .resume tid o) (hhb : a ≠ .heartbeat tid) :
    (step s a).threads.get? tid = some t := by
  have hlt : tid < s.threads.length := by
    rcases Nat.lt_or_ge tid s.threads.length with h1 | h1
    · exact h1
    · rw [List.get?_eq_none.mpr h1] at h
      cases h
  rcases step_threads s a with ⟨new, hnew⟩ | ⟨tid2, t2, hact, hset⟩
  · rw [hnew]
    simp only [List.get?_eq_getElem?] at h ⊢
    rw [List.getElem?_append_left hlt]
    exact h
  · have hne : tid2 ≠ tid := by
      intro heq
      subst heq
      rcases hact with hact | ⟨o, hact⟩
      · exact hhb hact
      · exact hres o hact
    rw [hset]
    simp only [List.get?_eq_getElem?] at h ⊢
    rw [List.getElem?_set_ne hne]
    exact h

/-- The token loop keeps an open stream open. -/
theorem forwardTokens_open (r : Relay) (tokens : List Json)
    (h : r.heartbeat = true ∧ r.res.headersSent = true ∧ r.res.ended = 0 ∧
      truthy r.connectionId = true) :
    streamOpen (forwardTokens r tokens) ∧ (forwardTokens r tokens).connectionId = r.connectionId := by
  induction tokens generalizing r with
  | nil => exact ⟨⟨rfl, h.1, h.2.1, h.2.2.1, h.2.2.2⟩, rfl⟩
  | cons t pending ih =>
    unfold forwardTokens
    dsimp only
    cases t.toJSStr with
    | some text => exact ⟨⟨rfl, h.1, h.2.1, h.2.2.1, h.2.2.2⟩, rfl⟩
    | none => exact ih _ ⟨h.1, h.2.1, h.2.2.1, h.2.2.2⟩

/-- The `finally` block closes the stream of a relay that had not ended it. -/
theorem finallyBlock_closed (s : State) (r : Relay) (hend : r.res.ended = 0) :
    (finallyBlock s r).2.connectionId = r.connectionId ∧ streamClosed (finallyBlock s r).2 ∧
      (finallyBlock s r).1.activeConnections.get r.connectionId = none := by
  refine ⟨rfl, ⟨rfl, rfl, ?_⟩, get_delete_self _ _⟩
  simp [finallyBlock, Response.finish, hend]

/-- The stream's `catch` block closes the stream of a relay that had not ended it. -/
theorem streamCatch_closed (s : State) (r : Relay) (err : JsError) (hend : r.res.ended = 0) :
    (streamCatch s r err).2.connectionId = r.connectionId ∧ streamClosed (streamCatch s r err).2 ∧
      (streamCatch s r err).1.activeConnections.get r.connectionId = none := by
  unfold streamCatch
  split
  · exact finallyBlock_closed s _ hend
  · exact finallyBlock_closed _ _ hend

/-- The end of the upstream stream: the relay goes on to save the answer, or
returns through the `finally` block. -/
theorem streamComplete_open (s : State) (r : Relay)
    (h : r.heartbeat = true ∧ r.res.headersSent = true ∧ r.res.ended = 0 ∧
      truthy r.connectionId = true) :
    (streamComplete s r).2.connectionId = r.connectionId ∧
    (streamOpen (streamComplete s r).2 ∨
      (streamClosed (streamComplete s r).2 ∧
        (streamComplete s r).1.activeConnections.get r.connectionId = none)) := by
  unfold streamComplete
  dsimp only
  split
  · exact ⟨rfl, Or.inl ⟨rfl, h.1, h.2.1, h.2.2.1, h.2.2.2⟩⟩
  · exact ⟨(finallyBlock_closed s _ h.2.2.1).1, Or.inr (finallyBlock_closed s _ h.2.2.1).2⟩

/-- One step of a relay whose stream is open: the relay keeps its stream open,
or it returns with the timer cleared, the stream ended once and no registry
entry under its id. -/
theorem resumeRelay_open (s : State) (r : Relay) (o : Outcome) (h : streamOpen r) :
    (resumeRelay s r o).2.connectionId = r.connectionId ∧
    (streamOpen (resumeRelay s r o).2 ∨
      (streamClosed (resumeRelay s r o).2 ∧
        (resumeRelay s r o).1.activeConnections.get r.connectionId = none)) := by
  obtain ⟨hpc, hhb, hhs, hend, hid⟩ := h
  have hin : r.heartbeat = true ∧ r.res.headersSent = true ∧ r.res.ended = 0 ∧
      truthy r.connectionId = true := ⟨hhb, hhs, hend, hid⟩
  have hsame : r.connectionId = r.connectionId ∧
      (streamOpen r ∨ (streamClosed r ∧ s.activeConnections.get r.connectionId = none)) :=
    ⟨rfl, Or.inl ⟨hpc, hhb, hhs, hend, hid⟩⟩
  have hcatch : ∀ (s1 : State) (err : JsError),
      (streamCatch s1 r err).2.connectionId = r.connectionId ∧
      (streamOpen (streamCatch s1 r err).2 ∨
        (streamClosed (streamCatch s1 r err).2 ∧
          (streamCatch s1 r err).1.activeConnections.get r.connectionId = none)) :=
    fun s1 err => ⟨(streamCatch_closed s1 r err hend).1, Or.inr (streamCatch_closed s1 r err hend).2⟩
  unfold resumeRelay
  split
  all_goals first
    | exact hcatch _ _
    | (rename_i heq; rw [heq] at hpc; cases hpc)
    | skip
  all_goals (try split_ifs)
  all_goals first
    | exact hcatch _ _
    | exact hsame
    | exact streamComplete_open s r hin
    | exact ⟨rfl, Or.inl ⟨rfl, hhb, hhs, hend, hid⟩⟩
    | exact ⟨(forwardTokens_open r _ hin).2, Or.inl (forwardTokens_open r _ hin).1⟩
    | exact ⟨(finallyBlock_closed _ r hend).1, Or.inr (finallyBlock_closed _ r hend).2⟩

/-- A relay that has returned stays as it is. -/
theorem resumeRelay_finished (s : State) (r : Relay) (o : Outcome) (h : r.pc = .finished) :
    resumeRelay s r o = (s, r) := by
  unfold resumeRelay
  split
  all_goals first
    | rfl
    | (rename_i heq; rw [heq] at h; cases h)

/-- The push of the user turn of a user-role request opens the stream, or, when
the conversation has gone, ends it through the outer `catch`. -/
theorem resumeRelay_opening (s : State) (r : Relay) (hpc : r.pc = .pushUser)
    (hrole : r.req.role = u16 "user") (hend : r.res.ended = 0)
    (hid : truthy r.connectionId = true) :
    (resumeRelay s r .ok).2.connectionId = r.connectionId ∧
    (streamOpen (resumeRelay s r .ok).2 ∨
      (streamClosed (resumeRelay s r .ok).2 ∧
        (resumeRelay s r .ok).1.activeConnections.get r.connectionId = none)) := by
  obtain ⟨req, connectionId, controller, heartbeat, fullResponse, res, pc⟩ := r
  dsimp only at hpc hrole hend hid
  subst hpc
  simp only [resumeRelay, hrole, ne_eq, not_true_eq_false, if_false]
  split
  · refine ⟨rfl, Or.inr ⟨⟨rfl, rfl, ?_⟩, ?_⟩⟩
    · simp [serverCatch, Response.write, Response.finish, hend]
    · simp [serverCatch, Response.write, hid, get_delete_self]
  · exact ⟨rfl, Or.inl ⟨rfl, rfl, rfl, hend, hid⟩⟩

/-- Across any schedule, a relay whose stream is open keeps it open until it
returns, and once returned it has its timer cleared and its stream ended
exactly once for good. -/
theorem run_stream (schedule : List Action) (s : State) (tid : Nat) (r : Relay)
    (h : s.threads.get? tid = some (.relay r)) (hopen : streamOpen r ∨ streamClosed r) :
    ∃ r2, (run s schedule).threads.get? tid = some (.relay r2) ∧
      r2.connectionId = r.connectionId ∧ (streamOpen r2 ∨ streamClosed r2) := by
  induction schedule generalizing s r with
  | nil => exact ⟨r, h, rfl, hopen⟩
  | cons a rest ih =>
    have hlt : tid < s.threads.length := by
      rcases Nat.lt_or_ge tid s.threads.length with h1 | h1
      · exact h1
      · rw [List.get?_eq_none.mpr h1] at h
        cases h
    have hnext : ∃ r1, (step s a).threads.get? tid = some (.relay r1) ∧
        r1.connectionId = r.connectionId ∧ (streamOpen r1 ∨ streamClosed r1) := by
      by_cases hres : ∃ o, a = .resume tid o
      · obtain ⟨o, ha⟩ := hres
        subst ha
        refine ⟨(resumeRelay s r o).2, threads_step_resume s tid r o h, ?_⟩
        rcases hopen with hopen | hclosed
        · have hstep := resumeRelay_open s r o hopen
          exact ⟨hstep.1, hstep.2.imp id (fun hc => hc.1)⟩
        · rw [resumeRelay_finished s r o hclosed.1]
          exact ⟨rfl, Or.inr hclosed⟩
      · by_cases hhb : a = .heartbeat tid
        · subst hhb
          have hstep : step s (.heartbeat tid)
              = { s with threads := s.threads.set tid (heartbeatTick (.relay r)) } := by
            simp only [step, h]
          by_cases hbeat : r.heartbeat = true
          · refine ⟨{ r with res := r.res.write .heartbeat }, ?_, rfl, ?_⟩
            · rw [hstep]
              simp [heartbeatTick, hbeat, hlt]
            · rcases hopen with hopen | hclosed
              · exact Or.inl ⟨hopen.1, hopen.2.1, hopen.2.2.1, hopen.2.2.2.1, hopen.2.2.2.2⟩
              · rw [hclosed.2.1] at hbeat
                cases hbeat
          · refine ⟨r, ?_, rfl, hopen⟩
            rw [hstep]
            simp [heartbeatTick, hbeat, hlt]
        · exact ⟨r, step_get?_other s a tid _ h (fun o ha => hres ⟨o, ha⟩) hhb, rfl, hopen⟩
    obtain ⟨r1, hthread1, hid1, hopen1⟩ := hnext
    obtain ⟨r2, hthread2, hid2, hopen2⟩ := ih (step s a) r1 hthread1 hopen1
    exact ⟨r2, hthread2, hid2.trans hid1, hopen2⟩

/-- A relay that has returned is left as it is by every step. -/
theorem run_closed (schedule : List Action) (s : State) (tid : Nat) (r : Relay)
    (h : s.threads.get? tid = some (.relay r)) (hclosed : streamClosed r) :
    (run s schedule).threads.get? tid = some (.relay r) := by
  induction schedule generalizing s with
  | nil => exact h
  | cons a rest ih =>
    have hlt : tid < s.threads.length := by
      rcases Nat.lt_or_ge tid s.threads.length with h1 | h1
      · exact h1
      · rw [List.get?_eq_none.mpr h1] at h
        cases h
    apply ih
    by_cases hres : ∃ o, a = .resume tid o
    · obtain ⟨o, ha⟩ := hres
      subst ha
      rw [threads_step_resume s tid r o h, resumeRelay_finished s r o hclosed.1]
    · by_cases hhb : a = .heartbeat tid
      · subst hhb
        have hstep : step s (.heartbeat tid)
            = { s with threads := s.threads.set tid (heartbeatTick (.relay r)) } := by
          simp only [step, h]
        rw [hstep]
        simp [heartbeatTick, hclosed.2.1, hlt]
      · exact step_get?_other s a tid _ h (fun o ha => hres ⟨o, ha⟩) hhb

/-- C23: a relay of `addMessageToChat` for a user turn, from the push of the
user turn on (the step that opens the event stream).  Each of its steps either
leaves the stream open, with the keep-alive timer running and the response
not ended, or is the handler's return, on whichever path: then the timer has
been cleared, the response has been ended exactly once and the registry
holds no entry under the request's connection id.  Whatever else runs in
between, the relay is in one of these two conditions, and after its return no
step writes to its response or ends it again. -/
theorem C23_every_exit_cleans_up (s : State) (tid : Nat) (r : Relay)
    (hthread : s.threads.get? tid = some (.relay r)) :
    (∀ o, (streamOpen r ∨
          (r.pc = .pushUser ∧ r.req.role = u16 "user" ∧ r.res.ended = 0 ∧
            truthy r.connectionId = true ∧ o = .ok)) →
      ∃ r2, relayAt (step s (.resume tid o)) tid = some r2 ∧ r2.connectionId = r.connectionId ∧
        (streamOpen r2 ∨
          (streamClosed r2 ∧
            (step s (.resume tid o)).activeConnections.get r.connectionId = none))) ∧
    (streamOpen r → ∀ schedule, ∃ r2, relayAt (run s schedule) tid = some r2 ∧
        r2.connectionId = r.connectionId ∧ (streamOpen r2 ∨ streamClosed r2)) ∧
    (streamClosed r → ∀ schedule, relayAt (run s schedule) tid = some r) := by
  refine ⟨?_, ?_, ?_⟩
  · intro o hcase
    refine ⟨(resumeRelay s r o).2, relayAt_step_resume s tid r o hthread, ?_⟩
    rw [step_resume_relay s tid r o hthread]
    rcases hcase with hopen | ⟨hpc, hrole, hend, hid, ho⟩
    · exact resumeRelay_open s r o hopen
    · subst ho
      exact resumeRelay_opening s r hpc hrole hend hid
  · intro hopen schedule
    obtain ⟨r2, h2, hid2, hopen2⟩ := run_stream schedule s tid r hthread (Or.inl hopen)
    exact ⟨r2, by simp only [relayAt, h2], hid2, hopen2⟩
  · intro hclosed schedule
    simp only [relayAt, run_closed schedule s tid r hthread hclosed]

/-- C23 at the relay of the demo request waiting for its first chunk: when the
upstream stream ends there, the handler returns with the timer cleared, the
response ended once and the registry empty. -/
theorem C23_stream_end_witness :
    reading.threads.get? 0 = some (.relay readingRelay) ∧ streamOpen readingRelay ∧
    (∃ r2, relayAt (step reading (.resume 0 .done)) 0 = some r2 ∧
        r2.connectionId = readingRelay.connectionId ∧
        (streamOpen r2 ∨
          (streamClosed r2 ∧
            (step reading (.resume 0 .done)).activeConnections.get readingRelay.connectionId
              = none))) ∧
    (relayAt (step reading (.resume 0 .done)) 0).map
        (fun r2 => (r2.pc, r2.heartbeat, r2.res.ended)) = some (.finished, false, 1) ∧
    (step reading (.resume 0 .done)).activeConnections = [] :=
  ⟨by decide, by decide,
   (C23_every_exit_cleans_up reading 0 readingRelay (by decide)).1 .done (Or.inl (by decide)),
   by decide, by decide⟩

/-- The store changes of one step of a relay: a title update or the push of a
turn without the `partial` key. -/
theorem resumeRelay_chats (s : State) (r : Relay) (o : Outcome) :
    pushesOnlyTexted s.chats (resumeRelay s r o).1.chats := by
  unfold resumeRelay serverCatch streamCatch finallyBlock registerSession streamComplete
  repeat' (first | split | (dsimp only; split))
  all_goals first
    | exact Or.inl rfl
    | exact Or.inr (Or.inl ⟨_, _, _, rfl⟩)
    | exact Or.inr (Or.inr ⟨_, _, _, (fun h => by cases h), rfl⟩)

/-- The arrival of a stop request writes nothing to the store. -/
theorem startStop_chats (s : State) (req : StopReq) : (startStop s req).chats = s.chats := by
  unfold startStop
  repeat' split
  all_goals rfl

/-- Each step keeps the texts of the saves in flight non-empty. -/
theorem step_savesHaveText (s : State) (a : Action) (h : savesHaveText s) :
    savesHaveText (step s a) := by
  intro t ht text htext
  cases a with
  | tick ms => exact h t ht text htext
  | addMessageToChat req random =>
    obtain ⟨r, hthreads, _⟩ := startRelay_spec s req random
    simp only [step] at ht
    rw [hthreads] at ht
    rcases List.mem_append.mp ht with ht | ht
    · exact h t ht text htext
    · rw [List.mem_singleton.mp ht] at htext
      cases htext
  | stopGeneration req =>
    obtain ⟨t2, hthreads, hsaving⟩ := startStop_threads s req
    simp only [step] at ht
    rw [hthreads] at ht
    rcases List.mem_append.mp ht with ht | ht
    · exact h t ht text htext
    · rw [List.mem_singleton.mp ht] at htext
      simp only [Thread.savingText] at htext
      split at htext
      · rename_i chatId text2 hpc
        cases htext
        exact hsaving chatId text hpc
      · cases htext
  | sweep =>
    simp only [step, sweep] at ht
    rw [sweepEntries_spec] at ht
    rcases List.mem_append.mp ht with ht | ht
    · exact h t ht text htext
    · obtain ⟨e, he, hte⟩ := List.mem_map.mp ht
      have hcond := (List.mem_filter.mp he).2
      rw [← hte] at htext
      simp only [reaperSave, Thread.savingText] at htext
      cases htext
      simp only [Bool.and_eq_true] at hcond
      exact hcond.2
  | heartbeat tid =>
    simp only [step] at ht
    cases hthread : s.threads.get? tid with
    | none =>
      rw [hthread] at ht
      exact h t ht text htext
    | some t2 =>
      rw [hthread] at ht
      rcases List.mem_or_eq_of_mem_set ht with ht | ht
      · exact h t ht text htext
      · have hmem : t2 ∈ s.threads := List.get?_mem hthread
        rw [ht] at htext
        cases t2 with
        | relay r =>
          simp only [heartbeatTick] at htext
          split at htext <;> cases htext
        | stop t3 => exact h _ hmem text htext
        | save chatId userId text2 settled => exact h _ hmem text htext
  | resume tid o =>
    simp only [step, resumeThread] at ht
    cases hthread : s.threads.get? tid with
    | none =>
      rw [hthread] at ht
      exact h t ht text htext
    | some t2 =>
      rw [hthread] at ht
      have hmem : t2 ∈ s.threads := List.get?_mem hthread
      cases t2 with
      | relay r =>
        dsimp only at ht
        rw [resumeRelay_threads] at ht
        rcases List.mem_or_eq_of_mem_set ht with ht | ht
        · exact h t ht text htext
        · rw [ht] at htext
          cases htext
      | stop t3 =>
        dsimp only at ht
        rw [resumeStop_threads] at ht
        rcases List.mem_or_eq_of_mem_set ht with ht | ht
        · exact h t ht text htext
        · rw [ht] at htext
          unfold resumeStop at htext
          split at htext
          · cases htext
          · cases htext
          · exact h _ hmem text htext
      | save chatId userId text2 settled =>
        have hsame : ∀ b, (Thread.save chatId userId text2 b).savingText = some text →
            truthy text = true := fun b hb => h _ hmem text hb
        cases settled with
        | true => exact h t ht text htext
        | false =>
          cases o with
          | ok =>
            rcases List.mem_or_eq_of_mem_set ht with ht | ht
            · exact h t ht text htext
            · rw [ht] at htext
              exact hsame _ htext
          | threw err =>
            rcases List.mem_or_eq_of_mem_set ht with ht | ht
            · exact h t ht text htext
            · rw [ht] at htext
              exact hsame _ htext
          | _ => exact h t ht text htext

/-- Across any schedule the texts of the saves in flight stay non-empty. -/
theorem run_savesHaveText (schedule : List Action) (s : State) (h : savesHaveText s) :
    savesHaveText (run s schedule) := by
  induction schedule generalizing s with
  | nil => exact h
  | cons a rest ih => exact ih (step s a) (step_savesHaveText s a h)

/-- The store changes of one step of the event loop, given that the saves in
flight have non-empty texts. -/
theorem step_chats (s : State) (a : Action) (h : savesHaveText s) :
    pushesOnlyTexted s.chats (step s a).chats := by
  cases a with
  | tick ms => exact Or.inl rfl
  | addMessageToChat req random =>
    obtain ⟨r, _, _, _, hchats, _⟩ := startRelay_spec s req random
    exact Or.inl hchats
  | stopGeneration req => exact Or.inl (startStop_chats s req)
  | sweep =>
    refine Or.inl ?_
    simp only [step, sweep]
    rw [sweepEntries_spec]
  | heartbeat tid =>
    refine Or.inl ?_
    simp only [step]
    split <;> rfl
  | resume tid o =>
    simp only [step, resumeThread]
    cases hthread : s.threads.get? tid with
    | none => exact Or.inl rfl
    | some t2 =>
      have hmem : t2 ∈ s.threads := List.get?_mem hthread
      cases t2 with
      | relay r => exact resumeRelay_chats s r o
      | stop t3 =>
        dsimp only
        unfold resumeStop savePartialResponse
        split
        · rename_i chatId text hpc
          refine Or.inr (Or.inr ⟨partialMessage text, chatId, t3.userId, fun _ => ?_, rfl⟩)
          exact h _ hmem text (by simp only [Thread.savingText, hpc])
        · exact Or.inl rfl
        · exact Or.inl rfl
      | save chatId userId text settled =>
        cases settled with
        | true => exact Or.inl rfl
        | false =>
          cases o with
          | ok =>
            exact Or.inr (Or.inr ⟨partialMessage text, chatId, userId,
              fun _ => h _ hmem text rfl, rfl⟩)
          | threw err => exact Or.inl rfl
          | _ => exact Or.inl rfl

/-- The store changes of `updateChatWithMessage`: none, or the push of a turn
whose text passed the check of line 526. -/
theorem updateChatWithMessage_chats (chats : List Chat) (req : UpdateReq) (o : Outcome) :
    pushesOnlyTexted chats (updateChatWithMessage chats req o).1 := by
  unfold updateChatWithMessage
  cases hmessage : req.message with
  | none => exact Or.inl rfl
  | some message =>
    dsimp only
    by_cases hblank : (!truthy message.text || (trim message.text).isEmpty) = true
    · rw [if_pos hblank]
      exact Or.inl rfl
    · rw [if_neg hblank]
      have htext : truthy message.text = true := by
        cases ht : truthy message.text
        · simp [ht] at hblank
        · rfl
      cases o with
      | threw err => exact Or.inl rfl
      | _ =>
        dsimp only
        cases hfound : (findOneAndUpdate (pushMessage message) req.chatId req.userId chats).2 with
        | none =>
          refine Or.inl ?_
          split
          · rfl
          · rename_i heq
            rw [heq] at hfound
            cases hfound
        | some chat =>
          refine Or.inr (Or.inr ⟨message, req.chatId, req.userId, fun _ => htext, ?_⟩)
          split
          · rename_i heq
            rw [heq] at hfound
            cases hfound
          · rename_i heq
            rw [heq]

/-- C24: from a process in which every `savePartialResponse` call in flight has
a non-empty text (in particular from one with no handler in flight), over
every schedule: the stop endpoint and the reaper only ever call
`savePartialResponse` with a non-empty text, and every change a step or
`updateChatWithMessage` makes to the store is a title update or the push of
one turn that, when it carries `partial: true`, has a non-empty text. -/
theorem C24_partial_turns_have_text (s : State) (schedule : List Action)
    (h : savesHaveText s) :
    savesHaveText (run s schedule) ∧
    (∀ a, pushesOnlyTexted (run s schedule).chats (step (run s schedule) a).chats) ∧
    (∀ req o, pushesOnlyTexted (run s schedule).chats
        (updateChatWithMessage (run s schedule).chats req o).1) :=
  ⟨run_savesHaveText schedule s h,
   fun a => step_chats _ a (run_savesHaveText schedule s h),
   fun req o => updateChatWithMessage_chats _ req o⟩

/-- C24 at the stale session with the text "xyz": after the sweep the one save
in flight carries "xyz". -/
theorem C24_reaper_save_witness :
    savesHaveText staleState ∧ savesHaveText (run staleState [.sweep]) ∧
    (run staleState [.sweep]).threads.map Thread.savingText = [some (u16 "xyz")] :=
  ⟨(fun _ ht => by cases ht),
   (C24_partial_turns_have_text staleState [.sweep] (fun _ ht => by cases ht)).1,
   by decide⟩

/-- C26: a request with the role assistant is answered 201 with the stored
turn, opens no stream and makes no upstream request, but the registry, empty
before the request, holds an entry under the request's connection id after
the handler has returned. -/
theorem C26_non_user_turn_leaves_a_session_registered :
    (relayAt (run demoState storeNote) 0).map (fun r => (r.pc, r.res.status, r.res.frames))
      = some (.finished, some 201, []) ∧
    (turnsOf (run demoState storeNote) 1 7).map (fun m => (m.role, m.text))
      = [(u16 "assistant", u16 "Note")] ∧
    (run demoState storeNote).fetchCalls = [] ∧
    demoState.activeConnections = [] ∧
    (run demoState storeNote).activeConnections
      = [(u16 "c1", { controller := 0, userId := 7, chatId := 1, responseText := [],
                      createdAt := 0 })] := by
  decide

/-- C28: while user 7 streams under the id c1, a request of user 8 that names
c1 replaces the registry entry of user 7 by one owned by user 8, after which
a stop by user 7 is answered 404; and a request of user 8 whose lookup fails
removes the entry of user 7. -/
theorem C28_foreign_request_replaces_the_session :
    (run sharedState openStream).activeConnections
      = [(u16 "c1", { controller := 0, userId := 7, chatId := 1, responseText := [],
                      createdAt := 0 })] ∧
    (run sharedState reuseId).activeConnections
      = [(u16 "c1", { controller := 1, userId := 8, chatId := 2, responseText := [],
                      createdAt := 0 })] ∧
    (responseAt (run sharedState (reuseId ++
        [.stopGeneration { userId := 7, connectionId := some (u16 "c1") }])) 2).bind
        (fun res => res.status) = some 404 ∧
    (run sharedState reuseIdAndFail).activeConnections = [] ∧
    (relayAt (run sharedState reuseIdAndFail) 0).map (fun r => r.pc) = some .read := by
  decide

/-- C29: a chunk holding the sentinel line is followed by a chunk holding a
frame with the delta "late": the relay forwards "late" as a token and appends
it to the accumulated text. -/
theorem C29_frame_of_a_later_chunk_is_forwarded :
    chunkTokens (doneLine ++ u16 "\n") = [] ∧
    (relayAt (run reading (feedStream 0 [doneLine ++ u16 "\n", frame "late"])) 0).map
        (fun r => (r.res.frames, r.fullResponse))
      = some ([.connection (u16 "c1"), .token (.str (u16 "late")) (u16 "c1"),
               .complete (u16 "late") (u16 "c1")], u16 "late") := by
  decide

/-- C30: the same upstream text, one frame with the delta "Hello", delivered as
one chunk and delivered as two chunks cut after its 20th code unit: the first
delivery forwards the token "Hello", the second forwards nothing. -/
theorem C30_frame_cut_in_two_is_lost :
    (frame "Hello").take 20 ++ (frame "Hello").drop 20 = frame "Hello" ∧
    (relayAt (run reading (feedStream 0 [frame "Hello"])) 0).map
        (fun r => (r.res.frames, r.fullResponse))
      = some ([.connection (u16 "c1"), .token (.str (u16 "Hello")) (u16 "c1"),
               .complete (u16 "Hello") (u16 "c1")], u16 "Hello") ∧
    (relayAt (run reading (feedStream 0 [(frame "Hello").take 20, (frame "Hello").drop 20])) 0).map
        (fun r => (r.res.frames, r.fullResponse))
      = some ([.connection (u16 "c1"), .complete [] (u16 "c1")], []) := by
  decide

/-- The handler's change of the reaction array, entry by entry: the first
entry of the user is removed or replaced, and without one the new reaction is
appended. -/
theorem reactTo_cons (r : Reaction) (rest : List Reaction) (userId : UserId)
    (reactionType : JSStr) (d : ReasonValue) (c : JSStr) :
    reactTo (r :: rest) userId reactionType d c =
      if r.userId = userId then
        (if r.type = reactionType then some rest
         else (ReactionSchema userId reactionType d c).map (fun reaction => reaction :: rest))
      else (reactTo rest userId reactionType d c).map (fun result => r :: result) := by
  by_cases h : r.userId = userId
  · by_cases ht : r.type = reactionType
    · simp [reactTo, findIndex, h, ht]
    · cases hs : ReactionSchema userId reactionType d c <;> simp [reactTo, findIndex, h, ht, hs]
  · rw [if_neg h]
    unfold reactTo
    simp only [findIndex, h, decide_False, Bool.false_eq_true, if_false]
    cases hfind : findIndex (fun r => decide (r.userId = userId)) rest with
    | none =>
      cases hs : ReactionSchema userId reactionType d c <;> simp
    | some i =>
      simp only [Option.map_some', List.get?_cons_succ]
      cases hget : rest.get? i with
      | none => simp
      | some existing =>
        by_cases ht : existing.type = reactionType
        · simp [ht]
        · cases hs : ReactionSchema userId reactionType d c <;> simp [ht]

/-- What `ReactionSchema` accepts is stored under the given user and type,
with the reason code, or without one for `null`. -/
theorem ReactionSchema_some (userId : UserId) (type : JSStr) (d : ReasonValue) (c : JSStr)
    (reaction : Reaction) (h : ReactionSchema userId type d c = some reaction) :
    reaction.userId = userId ∧ reaction.type = type ∧ reaction.customReason = c ∧
    ((reaction.dislikeReason = none ∧ d = .null) ∨
     ∃ code, reaction.dislikeReason = some code ∧ d = .code code) := by
  unfold ReactionSchema at h
  split at h
  · cases d with
    | null =>
      simp only [Option.some.injEq] at h
      subst h
      exact ⟨rfl, rfl, rfl, Or.inl ⟨rfl, rfl⟩⟩
    | code x =>
      dsimp only at h
      split at h
      · simp only [Option.some.injEq] at h
        subst h
        exact ⟨rfl, rfl, rfl, Or.inr ⟨x, rfl, rfl⟩⟩
      · cases h
    | inherited k => cases h
  · cases h

/-- The reactions of the other users are kept, in their order. -/
theorem reactTo_others (reactions result : List Reaction) (userId : UserId)
    (reactionType : JSStr) (d : ReasonValue) (c : JSStr)
    (h : reactTo reactions userId reactionType d c = some result) :
    result.filter (fun r => !decide (r.userId = userId))
      = reactions.filter (fun r => !decide (r.userId = userId)) := by
  induction reactions generalizing result with
  | nil =>
    cases hs : ReactionSchema userId reactionType d c with
    | none => simp [reactTo, findIndex, hs] at h
    | some reaction =>
      have hu := (ReactionSchema_some userId reactionType d c reaction hs).1
      simp [reactTo, findIndex, hs] at h
      subst h
      simp [hu]
  | cons r rest ih =>
    rw [reactTo_cons] at h
    by_cases hr : r.userId = userId
    · rw [if_pos hr] at h
      by_cases ht : r.type = reactionType
      · rw [if_pos ht] at h
        simp only [Option.some.injEq] at h
        subst h
        simp [hr]
      · rw [if_neg ht] at h
        cases hs : ReactionSchema userId reactionType d c with
        | none => simp [hs] at h
        | some reaction =>
          have hu := (ReactionSchema_some userId reactionType d c reaction hs).1
          simp [hs] at h
          subst h
          simp [hr, hu]
    · rw [if_neg hr] at h
      cases hrest : reactTo rest userId reactionType d c with
      | none => simp [hrest] at h
      | some tail =>
        simp [hrest] at h
        subst h
        simp only [List.filter_cons, hr, decide_False, Bool.not_false, if_true]
        rw [ih tail hrest]

/-- The reactions of the requesting user afterwards, when the user had at most
one before. -/
theorem reactTo_own (reactions result : List Reaction) (userId : UserId)
    (reactionType : JSStr) (d : ReasonValue) (c : JSStr)
    (hinv : (reactions.filter (fun r => decide (r.userId = userId))).length ≤ 1)
    (h : reactTo reactions userId reactionType d c = some result) :
    match reactions.find? (fun r => decide (r.userId = userId)) with
    | some existing =>
      if existing.type = reactionType then
        result.filter (fun r => decide (r.userId = userId)) = []
      else ∃ reaction, ReactionSchema userId reactionType d c = some reaction ∧
        result.filter (fun r => decide (r.userId = userId)) = [reaction]
    | none => ∃ reaction, ReactionSchema userId reactionType d c = some reaction ∧
        result.filter (fun r => decide (r.userId = userId)) = [reaction] := by
  induction reactions generalizing result with
  | nil =>
    cases hs : ReactionSchema userId reactionType d c with
    | none => simp [reactTo, findIndex, hs] at h
    | some reaction =>
      have hu := (ReactionSchema_some userId reactionType d c reaction hs).1
      simp [reactTo, findIndex, hs] at h
      subst h
      exact ⟨reaction, rfl, by simp [hu]⟩
  | cons r rest ih =>
    rw [reactTo_cons] at h
    by_cases hr : r.userId = userId
    · have hrest : rest.filter (fun r => decide (r.userId = userId)) = [] := by
        simp only [List.filter_cons, hr, decide_True, if_true, List.length_cons] at hinv
        exact List.length_eq_zero.mp (by omega)
      rw [if_pos hr] at h
      simp only [List.find?_cons, hr, decide_True]
      by_cases ht : r.type = reactionType
      · rw [if_pos ht] at h
        rw [if_pos ht]
        simp only [Option.some.injEq] at h
        subst h
        exact hrest
      · rw [if_neg ht] at h
        rw [if_neg ht]
        cases hs : ReactionSchema userId reactionType d c with
        | none => simp [hs] at h
        | some reaction =>
          have hu := (ReactionSchema_some userId reactionType d c reaction hs).1
          simp [hs] at h
          subst h
          refine ⟨reaction, rfl, ?_⟩
          simp only [List.filter_cons, hu, decide_True, if_true, hrest]
    · have hinv2 : (rest.filter (fun r => decide (r.userId = userId))).length ≤ 1 := by
        simpa only [List.filter_cons, hr, decide_False, Bool.false_eq_true, if_false] using hinv
      rw [if_neg hr] at h
      cases hrest : reactTo rest userId reactionType d c with
      | none => simp [hrest] at h
      | some tail =>
        simp [hrest] at h
        subst h
        simp only [List.filter_cons, List.find?_cons, hr, decide_False, Bool.false_eq_true,
          if_false]
        exact ih tail hinv2 hrest

/-- The first reaction of a user, in a list that holds at most one of that
user, is any reaction of the user in the list. -/
theorem find_own_iff (reactions : List Reaction) (userId : UserId) (existing : Reaction)
    (hinv : (reactions.filter (fun r => decide (r.userId = userId))).length ≤ 1) :
    reactions.find? (fun r => decide (r.userId = userId)) = some existing ↔
      existing ∈ reactions ∧ existing.userId = userId := by
  induction reactions with
  | nil => simp
  | cons r rest ih =>
    by_cases hr : r.userId = userId
    · have hrest : rest.filter (fun r => decide (r.userId = userId)) = [] := by
        simp only [List.filter_cons, hr, decide_True, if_true, List.length_cons] at hinv
        exact List.length_eq_zero.mp (by omega)
      simp only [List.find?_cons, hr, decide_True, Option.some.injEq, List.mem_cons]
      constructor
      · intro h
        subst h
        exact ⟨Or.inl rfl, hr⟩
      · rintro ⟨hmem | hmem, hu⟩
        · exact hmem.symm
        · have : existing ∈ rest.filter (fun r => decide (r.userId = userId)) :=
            List.mem_filter.mpr ⟨hmem, by simpa using hu⟩
          rw [hrest] at this
          cases this
    · have hinv2 : (rest.filter (fun r => decide (r.userId = userId))).length ≤ 1 := by
        simpa only [List.filter_cons, hr, decide_False, Bool.false_eq_true, if_false] using hinv
      simp only [List.find?_cons, hr, decide_False, List.mem_cons]
      rw [ih hinv2]
      constructor
      · rintro ⟨hmem, hu⟩
        exact ⟨Or.inr hmem, hu⟩
      · rintro ⟨hmem | hmem, hu⟩
        · subst hmem
          exact absurd hu hr
        · exact ⟨hmem, hu⟩

/-- What the checks of the body let pass: a like, without reason and text; or
a dislike whose truthy reason converts to a key of `reasonMap`, with the
trimmed text of at least three code units when the code is "other" and
without text otherwise. -/
theorem finalReasons_pass (req : ReactReq) (reactionType : JSStr) (d : ReasonValue) (c : JSStr)
    (h : finalReasons req = .pass (reactionType, d, c)) :
    req.reactionType = some (.str reactionType) ∧
    ((reactionType = u16 "like" ∧ d = .null ∧ c = []) ∨
     (reactionType = u16 "dislike" ∧
      ∃ reason key, req.dislikeReason = some reason ∧ reason.truthy = true ∧
        reason.toJSStr = some key ∧ reasonMap key = some d ∧
        ((d = .code (u16 "other") ∧ ∃ text, req.customReason = some (.str text) ∧
            3 ≤ (trim text).length ∧ c = trim text) ∨
         (d ≠ .code (u16 "other") ∧ c = [])))) := by
  unfold finalReasons at h
  split at h
  · rename_i t heq
    by_cases hl : t = u16 "like"
    · rw [if_pos hl] at h
      simp only [Checked.pass.injEq, Prod.mk.injEq] at h
      obtain ⟨h1, h2, h3⟩ := h
      subst h1
      exact ⟨heq, Or.inl ⟨hl, h2.symm, h3.symm⟩⟩
    · rw [if_neg hl] at h
      by_cases hd : t = u16 "dislike"
      · rw [if_pos hd] at h
        cases hreason : req.dislikeReason with
        | none => simp [hreason, Option.filter] at h
        | some reason =>
          by_cases htruthy : reason.truthy = true
          · simp only [hreason, Option.filter, htruthy, if_true] at h
            cases hkey : reason.toJSStr with
            | none => simp [hkey] at h
            | some key =>
              simp only [hkey] at h
              cases hmap : reasonMap key with
              | none => simp [hmap] at h
              | some final =>
                simp only [hmap] at h
                by_cases hother : final = .code (u16 "other")
                · rw [if_pos hother] at h
                  cases hcustom : req.customReason with
                  | none => simp [hcustom, Option.filter] at h
                  | some custom =>
                    by_cases hct : custom.truthy = true
                    · simp only [hcustom, Option.filter, hct, if_true] at h
                      cases custom with
                      | str text =>
                        dsimp only at h
                        by_cases hlen : (trim text).length < 3
                        · rw [if_pos hlen] at h
                          cases h
                        · rw [if_neg hlen] at h
                          simp only [Checked.pass.injEq, Prod.mk.injEq] at h
                          obtain ⟨h1, h2, h3⟩ := h
                          subst h1
                          subst h2
                          exact ⟨heq, Or.inr ⟨hd, reason, key, rfl, htruthy, hkey, hmap,
                            Or.inl ⟨hother, text, rfl, by omega, h3.symm⟩⟩⟩
                      | null => cases h
                      | bool b => cases h
                      | num n => cases h
                      | arr items => cases h
                      | obj members => cases h
                    · simp [hcustom, Option.filter, hct] at h
                · rw [if_neg hother] at h
                  simp only [Checked.pass.injEq, Prod.mk.injEq] at h
                  obtain ⟨h1, h2, h3⟩ := h
                  subst h1
                  subst h2
                  exact ⟨heq, Or.inr ⟨hd, reason, key, rfl, htruthy, hkey, hmap,
                    Or.inr ⟨hother, h3.symm⟩⟩⟩
          · simp [hreason, Option.filter, htruthy] at h
      · rw [if_neg hd] at h
        cases h
  · cases h

/-- The users of a reaction list are pairwise distinct exactly when no user has
more than one reaction in it. -/
theorem nodup_users_iff (reactions : List Reaction) :
    (reactions.map (fun r => r.userId)).Nodup ↔
      ∀ u, (reactions.filter (fun r => decide (r.userId = u))).length ≤ 1 := by
  rw [List.nodup_iff_count_le_one]
  have hcount : ∀ u, List.count u (reactions.map (fun r => r.userId))
      = (reactions.filter (fun r => decide (r.userId = u))).length := by
    intro u
    induction reactions with
    | nil => rfl
    | cons r rest ih =>
      by_cases h : r.userId = u
      · simp [List.filter_cons, h, ih]
      · have hb : (r.userId == u) = false := by simpa using h
        simp [List.filter_cons, List.count_cons, h, hb, ih]
  constructor
  · intro h u
    rw [← hcount]
    exact h u
  · intro h u
    rw [hcount]
    exact h u

/-- C27: a reaction request that the endpoint answers 200, on a turn whose
reactions are by pairwise distinct users.  The saved turn again holds at most
one reaction per user.  The reaction type is one of the two strings "like"
and "dislike" of the body.  Of the requesting user the saved turn holds no
reaction exactly when that user had a reaction of the requested type before;
otherwise it holds exactly one, which is of that user and of the requested
type, with the custom text computed from the body and the reason code that
the body names in the table (none for a like).  The reactions of all other
users are kept as they were, in their order, and nothing else of the turn
changes. -/
theorem C27_one_reaction_per_user (message saved : Message) (req : ReactReq)
    (saveError : Option JsError)
    (haccepted : reactionEndpoint message req saveError = .pass saved)
    (hinv : (message.reactions.map (fun r => r.userId)).Nodup) :
    (saved.reactions.map (fun r => r.userId)).Nodup ∧
    (∃ reactionType d c,
      req.reactionType = some (.str reactionType) ∧
      (reactionType = u16 "like" ∨ reactionType = u16 "dislike") ∧
      finalReasons req = .pass (reactionType, d, c) ∧
      (saved.reactions.filter (fun r => decide (r.userId = req.userId)) = [] ↔
        ∃ existing ∈ message.reactions,
          existing.userId = req.userId ∧ existing.type = reactionType) ∧
      (∀ reaction ∈ saved.reactions.filter (fun r => decide (r.userId = req.userId)),
        saved.reactions.filter (fun r => decide (r.userId = req.userId)) = [reaction] ∧
        reaction.userId = req.userId ∧ reaction.type = reactionType ∧
        reaction.customReason = c ∧
        ((reaction.dislikeReason = none ∧ d = .null) ∨
         ∃ code, reaction.dislikeReason = some code ∧ d = .code code ∧
           (req.dislikeReason.bind Json.toJSStr).bind reasonMap = some (.code code)))) ∧
    saved.reactions.filter (fun r => !decide (r.userId = req.userId))
      = message.reactions.filter (fun r => !decide (r.userId = req.userId)) ∧
    saved = { message with reactions := saved.reactions } := by
  unfold reactionEndpoint at haccepted
  cases hfinal : finalReasons req with
  | status code =>
    rw [hfinal] at haccepted
    cases haccepted
  | pass final =>
    obtain ⟨reactionType, d, c⟩ := final
    rw [hfinal] at haccepted
    dsimp only at haccepted
    cases hreact : reactTo message.reactions req.userId reactionType d c with
    | none =>
      rw [hreact] at haccepted
      cases haccepted
    | some result =>
      rw [hreact] at haccepted
      dsimp only at haccepted
      cases saveError with
      | some err => cases haccepted
      | none =>
      simp only [Checked.pass.injEq] at haccepted
      subst haccepted
      dsimp only
      have hcount := (nodup_users_iff message.reactions).mp hinv
      have hown := reactTo_own message.reactions result req.userId reactionType d c
        (hcount req.userId) hreact
      have hothers := reactTo_others message.reactions result req.userId reactionType d c hreact
      obtain ⟨hbody, hpass⟩ := finalReasons_pass req reactionType d c hfinal
      have htype : reactionType = u16 "like" ∨ reactionType = u16 "dislike" := by
        rcases hpass with ⟨hl, _⟩ | ⟨hd, _⟩
        · exact Or.inl hl
        · exact Or.inr hd
      have hcode : ∀ code, d = .code code →
          (req.dislikeReason.bind Json.toJSStr).bind reasonMap = some (.code code) := by
        intro code hdc
        rcases hpass with ⟨_, hnull, _⟩ | ⟨_, reason, key, hreason, _, hkey, hmap, _⟩
        · rw [hnull] at hdc
          cases hdc
        · rw [hreason, Option.some_bind, hkey, Option.some_bind, hmap, hdc]
      have hentry : ∀ reaction, ReactionSchema req.userId reactionType d c = some reaction →
          reaction.userId = req.userId ∧ reaction.type = reactionType ∧
          reaction.customReason = c ∧
          ((reaction.dislikeReason = none ∧ d = .null) ∨
           ∃ code, reaction.dislikeReason = some code ∧ d = .code code ∧
             (req.dislikeReason.bind Json.toJSStr).bind reasonMap = some (.code code)) := by
        intro reaction hs
        obtain ⟨h1, h2, h3, h4⟩ := ReactionSchema_some req.userId reactionType d c reaction hs
        refine ⟨h1, h2, h3, ?_⟩
        rcases h4 with h4 | ⟨code, h4, h5⟩
        · exact Or.inl h4
        · exact Or.inr ⟨code, h4, h5, hcode code h5⟩
      have hfindIff := fun existing =>
        find_own_iff message.reactions req.userId existing (hcount req.userId)
      have hlen : (result.filter (fun r => decide (r.userId = req.userId))).length ≤ 1 := by
        cases hfind : message.reactions.find? (fun r => decide (r.userId = req.userId)) with
        | none =>
          rw [hfind] at hown
          obtain ⟨reaction, _, heq⟩ := hown
          rw [heq]
          simp
        | some existing =>
          rw [hfind] at hown
          dsimp only at hown
          by_cases ht : existing.type = reactionType
          · rw [if_pos ht] at hown
            rw [hown]
            simp
          · rw [if_neg ht] at hown
            obtain ⟨reaction, _, heq⟩ := hown
            rw [heq]
            simp
      refine ⟨?_, ⟨reactionType, d, c, hbody, htype, rfl, ?_, ?_⟩, hothers, rfl⟩
      · rw [nodup_users_iff]
        intro u
        by_cases hu : u = req.userId
        · subst hu
          exact hlen
        · have hsplit : ∀ l : List Reaction, l.filter (fun r => decide (r.userId = u))
              = (l.filter (fun r => !decide (r.userId = req.userId))).filter
                  (fun r => decide (r.userId = u)) := by
            intro l
            rw [List.filter_filter]
            apply List.filter_congr
            intro r _
            by_cases hr : r.userId = u
            · have : ¬ r.userId = req.userId := fun h2 => hu (hr.symm.trans h2)
              simp [hr, this, hu]
            · simp [hr]
          rw [hsplit, hothers, ← hsplit]
          exact hcount u
      · cases hfind : message.reactions.find? (fun r => decide (r.userId = req.userId)) with
        | none =>
          rw [hfind] at hown
          obtain ⟨reaction, _, heq⟩ := hown
          rw [heq]
          constructor
          · intro h
            cases h
          · rintro ⟨existing, hmem, hu, _⟩
            have := (hfindIff existing).mpr ⟨hmem, hu⟩
            rw [hfind] at this
            cases this
        | some existing =>
          rw [hfind] at hown
          dsimp only at hown
          by_cases ht : existing.type = reactionType
          · rw [if_pos ht] at hown
            rw [hown]
            constructor
            · intro _
              obtain ⟨hmem, hu⟩ := (hfindIff existing).mp hfind
              exact ⟨existing, hmem, hu, ht⟩
            · intro _
              rfl
          · rw [if_neg ht] at hown
            obtain ⟨reaction, _, heq⟩ := hown
            rw [heq]
            constructor
            · intro h
              cases h
            · rintro ⟨other, hmem, hu, hto⟩
              have := (hfindIff other).mpr ⟨hmem, hu⟩
              rw [hfind] at this
              simp only [Option.some.injEq] at this
              subst this
              exact absurd hto ht
      · intro reaction hmem
        cases hfind : message.reactions.find? (fun r => decide (r.userId = req.userId)) with
        | none =>
          rw [hfind] at hown
          obtain ⟨stored, hs, heq⟩ := hown
          rw [heq] at hmem ⊢
          simp only [List.mem_singleton] at hmem
          subst hmem
          exact ⟨rfl, hentry reaction hs⟩
        | some existing =>
          rw [hfind] at hown
          dsimp only at hown
          by_cases ht : existing.type = reactionType
          · rw [if_pos ht] at hown
            rw [hown] at hmem
            cases hmem
          · rw [if_neg ht] at hown
            obtain ⟨stored, hs, heq⟩ := hown
            rw [heq] at hmem ⊢
            simp only [List.mem_singleton] at hmem
            subst hmem
            exact ⟨rfl, hentry reaction hs⟩

/-- C27 at a turn liked by user 7 and disliked by user 8.  User 8 repeats the
dislike and names the reason "constructor", which `reasonMap` inherits: the
answer is 200 and the saved turn holds the like of user 7 alone.  The same
body from user 7, who liked, or from user 9, who has not reacted, is answered
500, for the validation of `chat.save()` rejects the reaction.  When user 7
sends a dislike with the reason "Not helpful", the saved turn holds the
dislike of user 7 with the code unhelpful in place of the like, and the
reaction of user 8 as it was; when the store rejects the save, the answer is
500.  A reason that `reasonMap` does not know is answered 400, and the reason
"Other" needs a text: the string " ok " is answered 400, the value true is
answered 500, and " fine " is stored trimmed. -/
theorem C27_changed_reaction_witness :
    reactionEndpoint ratedTurn (inheritedReq 8) none
      = .pass { ratedTurn with reactions := [{ userId := 7, type := u16 "like" }] } ∧
    (ratedTurn.reactions.map (fun r => r.userId)).Nodup ∧
    (List.map (fun r => r.userId) [({ userId := 7, type := u16 "like" } : Reaction)]).Nodup ∧
    reactionEndpoint ratedTurn (inheritedReq 7) none = .status 500 ∧
    reactionEndpoint ratedTurn (inheritedReq 9) none = .status 500 ∧
    reactionEndpoint ratedTurn dislikeReq none
      = .pass { ratedTurn with reactions :=
          [{ userId := 7, type := u16 "dislike", dislikeReason := some (u16 "unhelpful") },
           { userId := 8, type := u16 "dislike", dislikeReason := some (u16 "too_short") }] } ∧
    reactionEndpoint ratedTurn dislikeReq
        (some { name := u16 "MongoNetworkError", message := u16 "connection closed" })
      = .status 500 ∧
    reactionEndpoint ratedTurn
      { userId := 9, reactionType := some (.str (u16 "dislike")),
        dislikeReason := some (.str (u16 "boring")) } none = .status 400 ∧
    reactionEndpoint ratedTurn (otherReq 9 (.str (u16 " ok "))) none = .status 400 ∧
    reactionEndpoint ratedTurn (otherReq 9 (.bool true)) none = .status 500 ∧
    reactionEndpoint ratedTurn (otherReq 9 (.str (u16 " fine "))) none
      = .pass { ratedTurn with reactions := ratedTurn.reactions ++
          [{ userId := 9, type := u16 "dislike", dislikeReason := some (u16 "other"),
             customReason := u16 "fine" }] } :=
  ⟨by decide, by decide,
   (C27_one_reaction_per_user ratedTurn
      { ratedTurn with reactions := [{ userId := 7, type := u16 "like" }] }
      (inheritedReq 8) none (by decide) (by decide)).1,
   by decide, by decide, by decide, by decide, by decide, by decide, by decide, by decide⟩

/-- The ids of a registry after `set`: the same when the id was registered,
and with the id added at the end when it was not. -/
theorem set_keys (reg : Registry) (id : JSStr) (conn : Connection) :
    (reg.set id conn).map Prod.fst
      = if id ∈ reg.map Prod.fst then reg.map Prod.fst else reg.map Prod.fst ++ [id] := by
  induction reg with
  | nil => simp [Registry.set]
  | cons e rest ih =>
    unfold Registry.set
    by_cases h : e.1 = id
    · simp [h]
    · have h2 : ¬ id = e.1 := fun h3 => h h3.symm
      rw [if_neg h]
      simp only [List.map_cons, List.mem_cons, h2, false_or, ih]
      split <;> simp

/-- The entries of a registry after `set`. -/
theorem mem_set (reg : Registry) (id : JSStr) (conn : Connection) (e : JSStr × Connection)
    (h : e ∈ reg.set id conn) : e ∈ reg ∨ e = (id, conn) := by
  induction reg with
  | nil =>
    simp only [Registry.set, List.mem_singleton] at h
    exact Or.inr h
  | cons e2 rest ih =>
    unfold Registry.set at h
    by_cases hkey : e2.1 = id
    · rw [if_pos hkey] at h
      rcases List.mem_cons.mp h with h | h
      · exact Or.inr h
      · exact Or.inl (List.mem_cons_of_mem _ h)
    · rw [if_neg hkey] at h
      rcases List.mem_cons.mp h with h | h
      · exact Or.inl (h ▸ List.mem_cons_self _ _)
      · rcases ih h with h | h
        · exact Or.inl (List.mem_cons_of_mem _ h)
        · exact Or.inr h

/-- The token loop keeps the relay's handle. -/
theorem forwardTokens_controller (r : Relay) (tokens : List Json) :
    (forwardTokens r tokens).controller = r.controller := by
  induction tokens generalizing r with
  | nil => rfl
  | cons t pending ih =>
    unfold forwardTokens
    dsimp only
    cases t.toJSStr with
    | some text => rfl
    | none => exact ih _

/-- One step of a relay leaves the handles alone and changes the registry by
at most one operation on the relay's own id. -/
theorem resumeRelay_registry (s : State) (r : Relay) (o : Outcome) :
    (resumeRelay s r o).1.controllers = s.controllers ∧
    (resumeRelay s r o).2.controller = r.controller ∧
    ((resumeRelay s r o).2.pc = .finished ∨ r.pc ≠ .finished) ∧
    ((resumeRelay s r o).1.activeConnections = s.activeConnections ∨
     (resumeRelay s r o).1.activeConnections = s.activeConnections.delete r.connectionId ∨
     (r.pc ≠ .finished ∧ ∃ conn, conn.controller = r.controller ∧
        (resumeRelay s r o).1.activeConnections = s.activeConnections.set r.connectionId conn) ∨
     (resumeRelay s r o).1.activeConnections
        = s.activeConnections.setText r.connectionId r.fullResponse) := by
  have hpc : r.pc = .finished ∨ r.pc ≠ .finished := Decidable.em _
  rcases hpc with hpc | hpc
  · rw [resumeRelay_finished s r o hpc]
    exact ⟨rfl, rfl, Or.inl hpc, Or.inl rfl⟩
  · unfold resumeRelay serverCatch streamCatch finallyBlock registerSession streamComplete
    repeat' (first | split | (dsimp only; split))
    all_goals first
      | exact ⟨rfl, rfl, Or.inr hpc, Or.inl rfl⟩
      | exact ⟨rfl, rfl, Or.inr hpc, Or.inr (Or.inl rfl)⟩
      | exact ⟨rfl, rfl, Or.inr hpc, Or.inr (Or.inr (Or.inl ⟨hpc, _, rfl, rfl⟩))⟩
      | exact ⟨rfl, rfl, Or.inr hpc, Or.inr (Or.inr (Or.inr rfl))⟩
      | exact ⟨rfl, forwardTokens_controller _ _, Or.inr hpc, Or.inr (Or.inr (Or.inr rfl))⟩
      | exact ⟨rfl, forwardTokens_controller _ _, Or.inr hpc, Or.inl rfl⟩

/-- Removal keeps a registry in shape. -/
theorem registryOk_filter (reg : Registry) (n : Nat) (p : JSStr × Connection → Bool)
    (h : registryOk reg n) : registryOk (reg.filter p) n :=
  ⟨h.1.sublist (List.Sublist.map _ (List.filter_sublist _)),
   fun e he => h.2 e (List.mem_filter.mp he).1⟩

/-- Registration keeps a registry in shape. -/
theorem registryOk_set (reg : Registry) (n : Nat) (id : JSStr) (conn : Connection)
    (h : registryOk reg n) (hconn : conn.controller < n) : registryOk (reg.set id conn) n := by
  constructor
  · rw [set_keys]
    split
    · exact h.1
    · rename_i hnew
      exact List.Nodup.append h.1 (List.nodup_singleton id)
        (by
          intro x hx hx2
          rw [List.mem_singleton] at hx2
          exact hnew (hx2 ▸ hx))
  · intro e he
    rcases mem_set reg id conn e he with he | he
    · exact h.2 e he
    · rw [he]
      exact hconn

/-- The write-back of the accumulated text keeps a registry in shape. -/
theorem registryOk_setText (reg : Registry) (n : Nat) (id : JSStr) (text : JSStr)
    (h : registryOk reg n) : registryOk (reg.setText id text) n := by
  have hkeys : (reg.setText id text).map Prod.fst = reg.map Prod.fst := by
    unfold Registry.setText
    rw [List.map_map]
    apply List.map_congr_left
    intro e _
    simp only [Function.comp]
    split <;> rfl
  constructor
  · rw [hkeys]
    exact h.1
  · intro e he
    unfold Registry.setText at he
    obtain ⟨e0, he0, heq⟩ := List.mem_map.mp he
    rw [← heq]
    have := h.2 e0 he0
    split <;> exact this

/-- More handles keep a registry in shape. -/
theorem registryOk_mono (reg : Registry) (n m : Nat) (hnm : n ≤ m) (h : registryOk reg n) :
    registryOk reg m :=
  ⟨h.1, fun e he => Nat.lt_of_lt_of_le (h.2 e he) hnm⟩

/-- Aborting handles creates and removes none. -/
theorem length_foldl_abort (ks : List (JSStr × Connection)) (cs : List Bool) :
    (ks.foldl (fun cs e => abort cs e.2.controller) cs).length = cs.length := by
  induction ks generalizing cs with
  | nil => rfl
  | cons k rest ih =>
    rw [List.foldl_cons, ih]
    simp [abort]

/-- New handlers that are no relays keep the handlers in shape. -/
theorem threadsOk_append (threads new : List Thread) (n : Nat) (h : threadsOk threads n)
    (hnew : threadsOk new n) : threadsOk (threads ++ new) n := by
  intro t ht r hr hpc
  rcases List.mem_append.mp ht with ht | ht
  · exact h t ht r hr hpc
  · exact hnew t ht r hr hpc

/-- Replacing one handler keeps the handlers in shape when the new one is. -/
theorem threadsOk_set (threads : List Thread) (tid : Nat) (t2 : Thread) (n : Nat)
    (h : threadsOk threads n) (hnew : threadsOk [t2] n) : threadsOk (threads.set tid t2) n := by
  intro t ht r hr hpc
  rcases List.mem_or_eq_of_mem_set ht with ht | ht
  · exact h t ht r hr hpc
  · exact hnew t (by rw [ht]; exact List.mem_singleton.mpr rfl) r hr hpc

/-- Each step keeps the process in shape. -/
theorem step_wellFormed (s : State) (a : Action) (h : wellFormed s) : wellFormed (step s a) := by
  obtain ⟨hreg, hthreads⟩ := h
  cases a with
  | tick ms => exact ⟨hreg, hthreads⟩
  | addMessageToChat req random =>
    simp only [step]
    unfold startRelay
    have hreject : ∀ r : Relay, r.pc = .finished →
        wellFormed { s with threads := s.threads ++ [.relay r] } := by
      intro r hr
      refine ⟨hreg, threadsOk_append _ _ _ hthreads ?_⟩
      intro t ht r2 hr2 hpc
      rw [List.mem_singleton.mp ht] at hr2
      cases hr2
      exact absurd hr hpc
    cases req.userText with
    | none => exact hreject _ rfl
    | some userText =>
      dsimp only
      split
      · exact hreject _ rfl
      · refine ⟨registryOk_mono _ _ _ (by simp) hreg, threadsOk_append _ _ _ ?_ ?_⟩
        · intro t ht r hr hpc
          have := hthreads t ht r hr hpc
          simp only [List.length_append, List.length_singleton]
          omega
        · intro t ht r hr hpc
          rw [List.mem_singleton.mp ht] at hr
          cases hr
          simp
  | stopGeneration req =>
    obtain ⟨t, hthreads2, _⟩ := startStop_threads s req
    have hnew : ∀ n, threadsOk [Thread.stop t] n := by
      intro n t2 ht2 r hr _
      rw [List.mem_singleton.mp ht2] at hr
      cases hr
    have hregs : (startStop s req).controllers.length = s.controllers.length ∧
        ((startStop s req).activeConnections = s.activeConnections ∨
          ∃ id, (startStop s req).activeConnections = s.activeConnections.delete id) := by
      unfold startStop
      repeat' split
      all_goals first
        | exact ⟨rfl, Or.inl rfl⟩
        | exact ⟨by simp [abort], Or.inl rfl⟩
        | exact ⟨by simp [abort], Or.inr ⟨_, rfl⟩⟩
    simp only [step]
    refine ⟨?_, ?_⟩
    · rw [hregs.1]
      rcases hregs.2 with h2 | ⟨id, h2⟩
      · rw [h2]
        exact hreg
      · rw [h2]
        exact registryOk_filter _ _ _ hreg
    · rw [hregs.1, hthreads2]
      exact threadsOk_append _ _ _ hthreads (hnew _)
  | sweep =>
    simp only [step, sweep]
    rw [sweepEntries_spec]
    refine ⟨?_, ?_⟩
    · dsimp only
      rw [length_foldl_abort, foldl_delete]
      exact registryOk_filter _ _ _ hreg
    · dsimp only
      rw [length_foldl_abort]
      refine threadsOk_append _ _ _ hthreads ?_
      intro t ht r hr _
      obtain ⟨e, _, he⟩ := List.mem_map.mp ht
      rw [← he] at hr
      cases hr
  | heartbeat tid =>
    simp only [step]
    cases hthread : s.threads.get? tid with
    | none => exact ⟨hreg, hthreads⟩
    | some t =>
      refine ⟨hreg, threadsOk_set _ _ _ _ hthreads ?_⟩
      have hmem : t ∈ s.threads := List.get?_mem hthread
      intro t2 ht2 r hr hpc
      rw [List.mem_singleton.mp ht2] at hr
      cases t with
      | relay r0 =>
        simp only [heartbeatTick] at hr
        split at hr
        · cases hr
          exact hthreads _ hmem r0 rfl hpc
        · exact hthreads _ hmem r hr hpc
      | stop t3 => cases hr
      | save chatId userId text settled => cases hr
  | resume tid o =>
    simp only [step, resumeThread]
    cases hthread : s.threads.get? tid with
    | none => exact ⟨hreg, hthreads⟩
    | some t =>
      have hmem : t ∈ s.threads := List.get?_mem hthread
      cases t with
      | relay r =>
        dsimp only
        obtain ⟨hcs, hc, hpcs, hregs⟩ := resumeRelay_registry s r o
        refine ⟨?_, ?_⟩
        · dsimp only
          rw [hcs]
          rcases hregs with h2 | h2 | ⟨hpc, conn, hconn, h2⟩ | h2
          · rw [h2]
            exact hreg
          · rw [h2]
            exact registryOk_filter _ _ _ hreg
          · rw [h2]
            exact registryOk_set _ _ _ _ hreg (by rw [hconn]; exact hthreads _ hmem r rfl hpc)
          · rw [h2]
            exact registryOk_setText _ _ _ _ hreg
        · dsimp only
          rw [hcs, resumeRelay_threads]
          refine threadsOk_set _ _ _ _ hthreads ?_
          intro t2 ht2 r2 hr2 hpc2
          rw [List.mem_singleton.mp ht2] at hr2
          cases hr2
          rw [hc]
          rcases hpcs with hfin | hpc
          · exact absurd hfin hpc2
          · exact hthreads _ hmem r rfl hpc
      | stop t3 =>
        dsimp only
        have hnew : ∀ n, threadsOk [Thread.stop (resumeStop s t3 o).2] n := by
          intro n t2 ht2 r hr _
          rw [List.mem_singleton.mp ht2] at hr
          cases hr
        have hregs : (resumeStop s t3 o).1.controllers = s.controllers ∧
            ((resumeStop s t3 o).1.activeConnections = s.activeConnections ∨
              ∃ id, (resumeStop s t3 o).1.activeConnections = s.activeConnections.delete id) := by
          unfold resumeStop savePartialResponse
          split
          · exact ⟨rfl, Or.inr ⟨_, rfl⟩⟩
          · exact ⟨rfl, Or.inr ⟨_, rfl⟩⟩
          · exact ⟨rfl, Or.inl rfl⟩
        refine ⟨?_, ?_⟩
        · dsimp only
          rw [hregs.1]
          rcases hregs.2 with h2 | ⟨id, h2⟩
          · rw [h2]
            exact hreg
          · rw [h2]
            exact registryOk_filter _ _ _ hreg
        · dsimp only
          rw [hregs.1, resumeStop_threads]
          exact threadsOk_set _ _ _ _ hthreads (hnew _)
      | save chatId userId text settled =>
        have hnew : ∀ n b, threadsOk [Thread.save chatId userId text b] n := by
          intro n b t2 ht2 r hr _
          rw [List.mem_singleton.mp ht2] at hr
          cases hr
        cases settled with
        | true => exact ⟨hreg, hthreads⟩
        | false =>
          cases o with
          | ok => exact ⟨hreg, threadsOk_set _ _ _ _ hthreads (hnew _ _)⟩
          | threw err => exact ⟨hreg, threadsOk_set _ _ _ _ hthreads (hnew _ _)⟩
          | _ => exact ⟨hreg, hthreads⟩

/-- Every process reached from one in shape is in shape; a process with an
empty registry and no handler is. -/
theorem run_wellFormed (schedule : List Action) (s : State) (h : wellFormed s) :
    wellFormed (run s schedule) := by
  induction schedule generalizing s with
  | nil => exact h
  | cons a rest ih => exact ih (step s a) (step_wellFormed s a h)

end CareerGpt
